import Mathlib

/-!
MIPS Global Interrupt Controller (hw/mips/mips_gic.c)

A shallow embedding of the register file, the routing engine and the virtual
timer engine of the MIPS GIC device model, followed by theorems about it.

Conventions of the embedding.

* `uint32_t` and `uint64_t` values are natural numbers; every wrap-around of the
  C code is an explicit `% 2 ^ 32` or `% 2 ^ 64` (`u32`, `u64`, `sub32`, `sub64`).
* The device state `MIPSGICState` is passed explicitly.  A function that calls
  out to the CPU (`qemu_set_irq`, `qemu_irq_raise` on `env[v]->irq[pin]`) returns
  the list of pin actuations it performed, oldest first.
* The host virtual clock `qemu_clock_get_ns(QEMU_CLOCK_VIRTUAL)` is the argument
  `now`; it does not advance inside one call.
* An access to `gic_irqs[i]` or `irqs[i]` with `i` outside the allocated table
  (`num_irq` entries) is undefined behaviour in C; the embedding returns `none`.
* The constants of the header hw/mips/mips_gic.h that the code names are the
  fields of `GicHeader`; functions take the header as their first argument.
-/

namespace MipsGic

/-! ## Machine integers -/

/-- Conversion to `uint32_t`. -/
def u32 (x : Nat) : Nat := x % 2 ^ 32

/-- Conversion to `uint64_t`. -/
def u64 (x : Nat) : Nat := x % 2 ^ 64

/-- Subtraction of two `uint32_t` values: `a - b` modulo `2 ^ 32`. -/
def sub32 (a b : Nat) : Nat := (u32 a + 2 ^ 32 - u32 b) % 2 ^ 32

/-- Subtraction of two `uint64_t` values: `a - b` modulo `2 ^ 64`. -/
def sub64 (a b : Nat) : Nat := (u64 a + 2 ^ 64 - u64 b) % 2 ^ 64

/-- The C truth value of a `bool` used as an integer. -/
def b2n (b : Bool) : Nat := if b then 1 else 0

/-- The libc function `ffsll`: one plus the index of the least significant set bit
of a 64-bit value, and 0 when no bit is set. -/
def ffsll (data : Nat) : Nat :=
  match (List.range 64).find? (fun i => data.testBit i) with
  | some i => i + 1
  | none => 0

/-- The period of the emulated 100 MHz counter in ns, `#define TIMER_PERIOD 10`. -/
def TIMER_PERIOD : Nat := 10

/-- Modelled from the spec: the macro `GIC_VPE_SMASK_CMP_MSK` of hw/mips/mips_gic.h,
which is not among the sources.  The spec (sections 3 and 4.B) makes bit 1 of
`pend` and of `mask` the compare bit, the same bit that `gic_vpe_timer_expire`
sets with `|= (1 << 1)` and then tests through this macro. -/
def GIC_VPE_SMASK_CMP_MSK : Nat := 1 <<< 1

/-! ## The header constants -/

/-- The register offsets and masks of hw/mips/mips_gic.h used by the code.  The header
is not among the sources, so its constants are parameters.  `GIC_SH_MAP_TO_PIN` and
`GIC_SH_MAP_TO_VPE_REG_OFF` are function-like macros. -/
structure GicHeader where
  GIC_SH_CONFIG_OFS : Nat
  GIC_SH_COUNTERLO_OFS : Nat
  GIC_SH_COUNTERHI_OFS : Nat
  GIC_SH_POL_31_0_OFS : Nat
  GIC_SH_POL_63_32_OFS : Nat
  GIC_SH_POL_95_64_OFS : Nat
  GIC_SH_POL_127_96_OFS : Nat
  GIC_SH_POL_159_128_OFS : Nat
  GIC_SH_POL_191_160_OFS : Nat
  GIC_SH_POL_223_192_OFS : Nat
  GIC_SH_POL_255_224_OFS : Nat
  GIC_SH_TRIG_31_0_OFS : Nat
  GIC_SH_TRIG_63_32_OFS : Nat
  GIC_SH_TRIG_95_64_OFS : Nat
  GIC_SH_TRIG_127_96_OFS : Nat
  GIC_SH_TRIG_159_128_OFS : Nat
  GIC_SH_TRIG_191_160_OFS : Nat
  GIC_SH_TRIG_223_192_OFS : Nat
  GIC_SH_TRIG_255_224_OFS : Nat
  GIC_SH_PEND_31_0_OFS : Nat
  GIC_SH_PEND_63_32_OFS : Nat
  GIC_SH_PEND_95_64_OFS : Nat
  GIC_SH_PEND_127_96_OFS : Nat
  GIC_SH_PEND_159_128_OFS : Nat
  GIC_SH_PEND_191_160_OFS : Nat
  GIC_SH_PEND_223_192_OFS : Nat
  GIC_SH_PEND_255_224_OFS : Nat
  GIC_SH_MASK_31_0_OFS : Nat
  GIC_SH_MASK_63_32_OFS : Nat
  GIC_SH_MASK_95_64_OFS : Nat
  GIC_SH_MASK_127_96_OFS : Nat
  GIC_SH_MASK_159_128_OFS : Nat
  GIC_SH_MASK_191_160_OFS : Nat
  GIC_SH_MASK_223_192_OFS : Nat
  GIC_SH_MASK_255_224_OFS : Nat
  GIC_SH_RMASK_31_0_OFS : Nat
  GIC_SH_RMASK_63_32_OFS : Nat
  GIC_SH_RMASK_95_64_OFS : Nat
  GIC_SH_RMASK_127_96_OFS : Nat
  GIC_SH_RMASK_159_128_OFS : Nat
  GIC_SH_RMASK_191_160_OFS : Nat
  GIC_SH_RMASK_223_192_OFS : Nat
  GIC_SH_RMASK_255_224_OFS : Nat
  GIC_SH_SMASK_31_0_OFS : Nat
  GIC_SH_SMASK_63_32_OFS : Nat
  GIC_SH_SMASK_95_64_OFS : Nat
  GIC_SH_SMASK_127_96_OFS : Nat
  GIC_SH_SMASK_159_128_OFS : Nat
  GIC_SH_SMASK_191_160_OFS : Nat
  GIC_SH_SMASK_223_192_OFS : Nat
  GIC_SH_SMASK_255_224_OFS : Nat
  GIC_SH_WEDGE_OFS : Nat
  GIC_SH_INTR_MAP_TO_PIN_BASE_OFS : Nat
  GIC_SH_MAP_TO_PIN : Nat → Nat
  GIC_SH_INTR_MAP_TO_VPE_BASE_OFS : Nat
  GIC_SH_MAP_TO_VPE_REG_OFF : Nat → Nat → Nat
  GIC_VPELOCAL_BASE_ADDR : Nat
  GIC_VPEOTHER_BASE_ADDR : Nat
  GIC_USERMODE_BASE_ADDR : Nat
  GIC_VPE_CTL_OFS : Nat
  GIC_VPE_PEND_OFS : Nat
  GIC_VPE_MASK_OFS : Nat
  GIC_VPE_RMASK_OFS : Nat
  GIC_VPE_SMASK_OFS : Nat
  GIC_VPE_WD_MAP_OFS : Nat
  GIC_VPE_COMPARE_MAP_OFS : Nat
  GIC_VPE_TIMER_MAP_OFS : Nat
  GIC_VPE_OTHER_ADDR_OFS : Nat
  GIC_VPE_IDENT_OFS : Nat
  GIC_VPE_COMPARE_LO_OFS : Nat
  GIC_VPE_COMPARE_HI_OFS : Nat
  GIC_MAP_TO_PIN_MSK : Nat

/-- Modelled from the spec: the register map that hw/mips/mips_gic.h, which is not among
the sources, defines.  The spec fixes the order of the four zones (4.E: shared,
VPE-local, VPE-other, user-mode), one 32-bit MAP_TO_PIN register per source four bytes
apart and one MAP_TO_VPE selector per source 32 bytes apart (4.C), and 256 sources in
banks of 32 (the macro names carry the source ranges); the offsets and the masked
sentinel of `map_pin` (bit 31) are those of the MIPS GIC register map.  The theorems
take the header as a parameter; this value instantiates them. -/
def mips_gic_h : GicHeader where
  GIC_SH_CONFIG_OFS := 0x0000
  GIC_SH_COUNTERLO_OFS := 0x0010
  GIC_SH_COUNTERHI_OFS := 0x0014
  GIC_SH_POL_31_0_OFS := 0x0100
  GIC_SH_POL_63_32_OFS := 0x0104
  GIC_SH_POL_95_64_OFS := 0x0108
  GIC_SH_POL_127_96_OFS := 0x010c
  GIC_SH_POL_159_128_OFS := 0x0110
  GIC_SH_POL_191_160_OFS := 0x0114
  GIC_SH_POL_223_192_OFS := 0x0118
  GIC_SH_POL_255_224_OFS := 0x011c
  GIC_SH_TRIG_31_0_OFS := 0x0180
  GIC_SH_TRIG_63_32_OFS := 0x0184
  GIC_SH_TRIG_95_64_OFS := 0x0188
  GIC_SH_TRIG_127_96_OFS := 0x018c
  GIC_SH_TRIG_159_128_OFS := 0x0190
  GIC_SH_TRIG_191_160_OFS := 0x0194
  GIC_SH_TRIG_223_192_OFS := 0x0198
  GIC_SH_TRIG_255_224_OFS := 0x019c
  GIC_SH_PEND_31_0_OFS := 0x0480
  GIC_SH_PEND_63_32_OFS := 0x0484
  GIC_SH_PEND_95_64_OFS := 0x0488
  GIC_SH_PEND_127_96_OFS := 0x048c
  GIC_SH_PEND_159_128_OFS := 0x0490
  GIC_SH_PEND_191_160_OFS := 0x0494
  GIC_SH_PEND_223_192_OFS := 0x0498
  GIC_SH_PEND_255_224_OFS := 0x049c
  GIC_SH_MASK_31_0_OFS := 0x0400
  GIC_SH_MASK_63_32_OFS := 0x0404
  GIC_SH_MASK_95_64_OFS := 0x0408
  GIC_SH_MASK_127_96_OFS := 0x040c
  GIC_SH_MASK_159_128_OFS := 0x0410
  GIC_SH_MASK_191_160_OFS := 0x0414
  GIC_SH_MASK_223_192_OFS := 0x0418
  GIC_SH_MASK_255_224_OFS := 0x041c
  GIC_SH_RMASK_31_0_OFS := 0x0300
  GIC_SH_RMASK_63_32_OFS := 0x0304
  GIC_SH_RMASK_95_64_OFS := 0x0308
  GIC_SH_RMASK_127_96_OFS := 0x030c
  GIC_SH_RMASK_159_128_OFS := 0x0310
  GIC_SH_RMASK_191_160_OFS := 0x0314
  GIC_SH_RMASK_223_192_OFS := 0x0318
  GIC_SH_RMASK_255_224_OFS := 0x031c
  GIC_SH_SMASK_31_0_OFS := 0x0380
  GIC_SH_SMASK_63_32_OFS := 0x0384
  GIC_SH_SMASK_95_64_OFS := 0x0388
  GIC_SH_SMASK_127_96_OFS := 0x038c
  GIC_SH_SMASK_159_128_OFS := 0x0390
  GIC_SH_SMASK_191_160_OFS := 0x0394
  GIC_SH_SMASK_223_192_OFS := 0x0398
  GIC_SH_SMASK_255_224_OFS := 0x039c
  GIC_SH_WEDGE_OFS := 0x0280
  GIC_SH_INTR_MAP_TO_PIN_BASE_OFS := 0x0500
  GIC_SH_MAP_TO_PIN := fun intr => 0x0500 + 4 * intr
  GIC_SH_INTR_MAP_TO_VPE_BASE_OFS := 0x2000
  GIC_SH_MAP_TO_VPE_REG_OFF := fun intr vpe => 0x2000 + 32 * intr + (vpe / 32) * 4
  GIC_VPELOCAL_BASE_ADDR := 0x8000
  GIC_VPEOTHER_BASE_ADDR := 0xC000
  GIC_USERMODE_BASE_ADDR := 0x10000
  GIC_VPE_CTL_OFS := 0x0000
  GIC_VPE_PEND_OFS := 0x0004
  GIC_VPE_MASK_OFS := 0x0008
  GIC_VPE_RMASK_OFS := 0x000c
  GIC_VPE_SMASK_OFS := 0x0010
  GIC_VPE_WD_MAP_OFS := 0x0040
  GIC_VPE_COMPARE_MAP_OFS := 0x0044
  GIC_VPE_TIMER_MAP_OFS := 0x0048
  GIC_VPE_OTHER_ADDR_OFS := 0x0080
  GIC_VPE_IDENT_OFS := 0x0088
  GIC_VPE_COMPARE_LO_OFS := 0x00a0
  GIC_VPE_COMPARE_HI_OFS := 0x00a4
  GIC_MAP_TO_PIN_MSK := 1 <<< 31

/-! ## Device state -/

/-- Modelled from the spec: the struct `MIPSGICIRQState` of one interrupt source, declared
in hw/mips/mips_gic.h, which is not among the sources.  The fields are those the code
accesses; the spec (3, 4.C) makes `map_pin` a 32-bit register and `map_vpe` the stored
index of the target VPE.  `map_vpe` is an integer because `gic_write` stores
`ffsll(data) - 1`, which is -1 when no bit of the written selector is set, and
`gic_set_irq` tests `vpe < 0`. -/
structure MIPSGICIRQState where
  enabled : Bool
  pending : Bool
  polarity : Bool
  trigger_type : Bool
  dual_edge : Bool
  map_pin : Nat
  map_vpe : Int

/-- One actuation of a CPU interrupt pin: `qemu_set_irq(env[cpu]->irq[pin], level)`. -/
structure PinEvent where
  cpu : Nat
  pin : Nat
  level : Int
deriving DecidableEq, Repr

/-- Modelled from the spec: the struct `MIPSGICState` of the controller, declared in
hw/mips/mips_gic.h, which is not among the sources.  The fields are those the code
accesses; the registers are 32 bits wide (spec 3).  `gic_irqs` is the source table, of
which the entries below `num_irq` are allocated.  The per-VPE register arrays, and
`timer_irq` and `ic_irq`, are indexed by VPE.  `gic_timer v` is the state of the host
timer `gic_timer[v].timer`: `some d` when it is armed with the absolute deadline `d`
(in ns), `none` when it is not pending.  The table `gic_timer` itself is allocated by
`gic_timer_init` before the device can be accessed, so the test `!gic->gic_timer` of
`gic_store_sh_count` is false. -/
structure MIPSGICState where
  num_cpu : Nat
  num_irq : Nat
  gic_gl_config : Nat
  gic_sh_counterlo : Nat
  gic_irqs : Nat → MIPSGICIRQState
  gic_vpe_ctl : Nat → Nat
  gic_vpe_pend : Nat → Nat
  gic_vpe_mask : Nat → Nat
  gic_vpe_wd_map : Nat → Nat
  gic_vpe_compare_map : Nat → Nat
  gic_vpe_timer_map : Nat → Nat
  gic_vpe_comparelo : Nat → Nat
  gic_vpe_comparehi : Nat → Nat
  gic_vpe_other_addr : Nat → Nat
  timer_irq : Nat → Nat
  ic_irq : Nat → Nat
  gic_timer : Nat → Option Nat

/-- The result of an operation that may touch memory outside the source table: `none` is
an out-of-bounds access, otherwise the new state and the pin actuations. -/
abbrev Step := Option (MIPSGICState × List PinEvent)

/-! ## Host timer service -/

/-- Modelled from the spec: `timer_mod` of the QEMU timer service, which is outside the
sources; the spec (4.B) calls it `arm(v, abs_ns)`: (re)arm the timer of VPE v at the
absolute time `abs_ns`. -/
def timer_mod (gic : MIPSGICState) (v : Nat) (expire_time : Nat) : MIPSGICState :=
  { gic with gic_timer := Function.update gic.gic_timer v (some expire_time) }

/-- Modelled from the spec: `timer_del` of the QEMU timer service; the spec (4.B) calls
it `cancel(v)`: cancel a pending expiry. -/
def timer_del (gic : MIPSGICState) (v : Nat) : MIPSGICState :=
  { gic with gic_timer := Function.update gic.gic_timer v none }

/-- Modelled from the spec: `timer_pending`, whether a deadline is armed. -/
def timer_pending (t : Option Nat) : Bool := t.isSome

/-- Modelled from the spec: `timer_expired`, whether the armed deadline has passed at
the time `now` (spec 4.A: a deadline that has passed but is not yet serviced). -/
def timer_expired (t : Option Nat) (now : Nat) : Bool :=
  match t with
  | some d => decide (d ≤ now)
  | none => false

/-! ## Timer engine -/

/-- The function `gic_get_current_cpu`; `cpu_index` is `current_cpu->cpu_index`. -/
def gic_get_current_cpu (g : MIPSGICState) (cpu_index : Nat) : Nat :=
  if g.num_cpu > 1 then cpu_index else 0

/-- The function `gic_vpe_timer_update`: returns the new state and `wait`. -/
def gic_vpe_timer_update (gic : MIPSGICState) (now : Nat) (vp_index : Nat) :
    MIPSGICState × Nat :=
  let wait := sub32 (sub32 (gic.gic_vpe_comparelo vp_index) gic.gic_sh_counterlo)
    (u32 (now / TIMER_PERIOD))
  let next := u64 (now + wait * TIMER_PERIOD)
  (timer_mod gic vp_index next, wait)

/-- The function `gic_vpe_timer_expire`. -/
def gic_vpe_timer_expire (gic : MIPSGICState) (now : Nat) (vp_index : Nat) :
    MIPSGICState × List PinEvent :=
  let pin := (gic.gic_vpe_compare_map vp_index &&& 0x3F) + 2
  let gic := (gic_vpe_timer_update gic now vp_index).1
  let gic := { gic with
    gic_vpe_pend := Function.update gic.gic_vpe_pend vp_index (gic.gic_vpe_pend vp_index ||| (1 <<< 1)) }
  if gic.gic_vpe_pend vp_index &&& (gic.gic_vpe_mask vp_index &&& GIC_VPE_SMASK_CMP_MSK) ≠ 0 then
    if gic.gic_vpe_compare_map vp_index &&& 0x80000000 ≠ 0 then
      ({ gic with timer_irq := Function.update gic.timer_irq vp_index 1 },
        [{ cpu := vp_index, pin := pin, level := 1 }])
    else (gic, [])
  else (gic, [])

/-- One iteration of the loop of `gic_get_sh_count`: expire the timer of VPE `i` when it
is pending and its deadline has passed. -/
def gic_get_sh_count_body (now : Nat) (acc : MIPSGICState × List PinEvent) (i : Nat) :
    MIPSGICState × List PinEvent :=
  if timer_pending (acc.1.gic_timer i) && timer_expired (acc.1.gic_timer i) now then
    let r := gic_vpe_timer_expire acc.1 now i
    (r.1, acc.2 ++ r.2)
  else acc

/-- The function `gic_get_sh_count`: returns the count, the new state and the pin
actuations of the timers expired inline. -/
def gic_get_sh_count (gic : MIPSGICState) (now : Nat) :
    Nat × MIPSGICState × List PinEvent :=
  if gic.gic_gl_config &&& (1 <<< 28) ≠ 0 then
    (gic.gic_sh_counterlo, gic, [])
  else
    let r := (List.range gic.num_cpu).foldl (gic_get_sh_count_body now) (gic, [])
    (u32 (r.1.gic_sh_counterlo + u32 (now / TIMER_PERIOD)), r.1, r.2)

/-- The loop `for (i = 0; i < gic->num_cpu; i++) gic_vpe_timer_update(gic, i)`. -/
def gic_update_all_timers (gic : MIPSGICState) (now : Nat) : MIPSGICState :=
  (List.range gic.num_cpu).foldl (fun g i => (gic_vpe_timer_update g now i).1) gic

/-- The function `gic_store_sh_count`. -/
def gic_store_sh_count (gic : MIPSGICState) (now : Nat) (count : Nat) : MIPSGICState :=
  if gic.gic_gl_config &&& 0x10000000 ≠ 0 then
    { gic with gic_sh_counterlo := u32 count }
  else
    let gic := { gic with gic_sh_counterlo := u32 (sub64 count (u32 (now / TIMER_PERIOD))) }
    gic_update_all_timers gic now

/-- The function `gic_store_vpe_compare`. -/
def gic_store_vpe_compare (gic : MIPSGICState) (now : Nat) (vp_index : Nat) (compare : Nat) :
    MIPSGICState × List PinEvent :=
  let gic := { gic with
    gic_vpe_comparelo := Function.update gic.gic_vpe_comparelo vp_index (u32 compare) }
  let gic := (gic_vpe_timer_update gic now vp_index).1
  let gic := { gic with
    gic_vpe_pend := Function.update gic.gic_vpe_pend vp_index (gic.gic_vpe_pend vp_index &&& (2 ^ 32 - 1 - (1 <<< 1))) }
  if gic.gic_vpe_compare_map vp_index &&& 0x80000000 ≠ 0 then
    let irq_num := (gic.gic_vpe_compare_map vp_index &&& 0x3F) + 2
    let gic := { gic with timer_irq := Function.update gic.timer_irq vp_index 0 }
    if gic.ic_irq vp_index = 0 then
      (gic, [{ cpu := vp_index, pin := irq_num, level := 0 }])
    else (gic, [])
  else (gic, [])

/-- The timer callback `gic_vpe_timer_cb` of VPE `vp_index`. -/
def gic_vpe_timer_cb (gic : MIPSGICState) (now : Nat) (vp_index : Nat) :
    MIPSGICState × List PinEvent :=
  let gic := { gic with gic_sh_counterlo := u32 (gic.gic_sh_counterlo + 1) }
  let r := gic_vpe_timer_expire gic now vp_index
  ({ r.1 with gic_sh_counterlo := sub32 r.1.gic_sh_counterlo 1 }, r.2)

/-- The function `gic_timer_start_count`. -/
def gic_timer_start_count (gic : MIPSGICState) (now : Nat) : MIPSGICState :=
  gic_store_sh_count gic now gic.gic_sh_counterlo

/-- The function `gic_timer_stop_count`. -/
def gic_timer_stop_count (gic : MIPSGICState) (now : Nat) : MIPSGICState :=
  let gic := { gic with
    gic_sh_counterlo := u32 (gic.gic_sh_counterlo + u32 (now / TIMER_PERIOD)) }
  (List.range gic.num_cpu).foldl timer_del gic

/-! ## Source table -/

/-- A read of `gic_irqs[idx]`; `none` outside the allocated table. -/
def irq_get (gic : MIPSGICState) (idx : Nat) : Option MIPSGICIRQState :=
  if idx < gic.num_irq then some (gic.gic_irqs idx) else none

/-- A write to a field of `gic_irqs[idx]`; `none` outside the allocated table. -/
def irq_update (gic : MIPSGICState) (idx : Nat) (f : MIPSGICIRQState → MIPSGICIRQState) :
    Option MIPSGICState :=
  if idx < gic.num_irq then
    some { gic with gic_irqs := Function.update gic.gic_irqs idx (f (gic.gic_irqs idx)) }
  else none

/-! ## Routing engine -/

/-- The condition of the loop of `gic_set_irq` on source `i`: mapped to `(pin, vpe)` and
enabled. -/
def gic_set_irq_match (gic : MIPSGICState) (pin : Nat) (vpe : Int) (i : Nat) : Bool :=
  ((gic.gic_irqs i).map_pin &&& 0x3f) == pin && (gic.gic_irqs i).map_vpe == vpe &&
    (gic.gic_irqs i).enabled

/-- The loop `for (i = 0; i < gic->num_irq; i++)` of `gic_set_irq`, with its `break`:
`i` is the loop variable, `n` the number of iterations left and `ored_level` the
accumulator, which enters the loop as 0. -/
def gic_set_irq_loop (gic : MIPSGICState) (pin : Nat) (vpe : Int) :
    Nat → Nat → Nat → Nat
  | _, 0, ored_level => ored_level
  | i, n + 1, ored_level =>
    let ored_level :=
      if gic_set_irq_match gic pin vpe i then ored_level ||| b2n (gic.gic_irqs i).pending
      else ored_level
    if ored_level ≠ 0 then ored_level
    else gic_set_irq_loop gic pin vpe (i + 1) n ored_level

/-- The function `gic_set_irq`, the handler of the input line `n_IRQ`.  The KVM call
under `CONFIG_KVM` is outside the model. -/
def gic_set_irq (gic : MIPSGICState) (n_IRQ : Nat) (level : Int) : Step :=
  if n_IRQ < gic.num_irq then
    let gic := { gic with
      gic_irqs := Function.update gic.gic_irqs n_IRQ
        { gic.gic_irqs n_IRQ with pending := decide (level ≠ 0) } }
    if !(gic.gic_irqs n_IRQ).enabled then some (gic, [])
    else
      let pin := (gic.gic_irqs n_IRQ).map_pin &&& 0x3f
      let vpe := (gic.gic_irqs n_IRQ).map_vpe
      if vpe < 0 ∨ vpe ≥ gic.num_cpu then some (gic, [])
      else
        let ored_level : Int :=
          if level ≠ 0 then level
          else
            let o := gic_set_irq_loop gic pin vpe 0 gic.num_irq 0
            let o :=
              if (gic.gic_vpe_compare_map vpe.toNat &&& 0x3f) = pin ∧
                  gic.gic_vpe_mask vpe.toNat &&& GIC_VPE_SMASK_CMP_MSK ≠ 0 then
                o ||| ((gic.gic_vpe_pend vpe.toNat >>> 1) &&& 1)
              else o
            (o : Int)
        some (gic, [{ cpu := vpe.toNat, pin := pin + 2, level := ored_level }])
  else none

/-! ## Register file: reads -/

/-- The case labels a `switch (addr)` of `gic_read` or `gic_write` can select. -/
inductive ShCase
  | CONFIG | CONFIG_4 | COUNTERLO | COUNTERHI | POL | TRIG | PEND | MASK | RMASK | WEDGE
  | SMASK | dflt
deriving DecidableEq, Repr

/-- The case labels a `switch (addr)` of `gic_read_vpe` or `gic_write_vpe` can select. -/
inductive VpeCase
  | CTL | PEND | MASK | RMASK | SMASK | WD_MAP | COMPARE_MAP | TIMER_MAP | OTHER_ADDR
  | OTHER_ADDR_4 | IDENT | COMPARE_LO | COMPARE_HI | dflt
deriving DecidableEq, Repr

/-- The eight case labels of the polarity banks. -/
def GicHeader.POL (L : GicHeader) : List Nat :=
  [L.GIC_SH_POL_31_0_OFS, L.GIC_SH_POL_63_32_OFS, L.GIC_SH_POL_95_64_OFS,
   L.GIC_SH_POL_127_96_OFS, L.GIC_SH_POL_159_128_OFS, L.GIC_SH_POL_191_160_OFS,
   L.GIC_SH_POL_223_192_OFS, L.GIC_SH_POL_255_224_OFS]

/-- The eight case labels of the trigger banks. -/
def GicHeader.TRIG (L : GicHeader) : List Nat :=
  [L.GIC_SH_TRIG_31_0_OFS, L.GIC_SH_TRIG_63_32_OFS, L.GIC_SH_TRIG_95_64_OFS,
   L.GIC_SH_TRIG_127_96_OFS, L.GIC_SH_TRIG_159_128_OFS, L.GIC_SH_TRIG_191_160_OFS,
   L.GIC_SH_TRIG_223_192_OFS, L.GIC_SH_TRIG_255_224_OFS]

/-- The eight case labels of the pending banks. -/
def GicHeader.PEND (L : GicHeader) : List Nat :=
  [L.GIC_SH_PEND_31_0_OFS, L.GIC_SH_PEND_63_32_OFS, L.GIC_SH_PEND_95_64_OFS,
   L.GIC_SH_PEND_127_96_OFS, L.GIC_SH_PEND_159_128_OFS, L.GIC_SH_PEND_191_160_OFS,
   L.GIC_SH_PEND_223_192_OFS, L.GIC_SH_PEND_255_224_OFS]

/-- The eight case labels of the mask banks. -/
def GicHeader.MASK (L : GicHeader) : List Nat :=
  [L.GIC_SH_MASK_31_0_OFS, L.GIC_SH_MASK_63_32_OFS, L.GIC_SH_MASK_95_64_OFS,
   L.GIC_SH_MASK_127_96_OFS, L.GIC_SH_MASK_159_128_OFS, L.GIC_SH_MASK_191_160_OFS,
   L.GIC_SH_MASK_223_192_OFS, L.GIC_SH_MASK_255_224_OFS]

/-- The eight case labels of the reset-mask banks. -/
def GicHeader.RMASK (L : GicHeader) : List Nat :=
  [L.GIC_SH_RMASK_31_0_OFS, L.GIC_SH_RMASK_63_32_OFS, L.GIC_SH_RMASK_95_64_OFS,
   L.GIC_SH_RMASK_127_96_OFS, L.GIC_SH_RMASK_159_128_OFS, L.GIC_SH_RMASK_191_160_OFS,
   L.GIC_SH_RMASK_223_192_OFS, L.GIC_SH_RMASK_255_224_OFS]

/-- The eight case labels of the set-mask banks. -/
def GicHeader.SMASK (L : GicHeader) : List Nat :=
  [L.GIC_SH_SMASK_31_0_OFS, L.GIC_SH_SMASK_63_32_OFS, L.GIC_SH_SMASK_95_64_OFS,
   L.GIC_SH_SMASK_127_96_OFS, L.GIC_SH_SMASK_159_128_OFS, L.GIC_SH_SMASK_191_160_OFS,
   L.GIC_SH_SMASK_223_192_OFS, L.GIC_SH_SMASK_255_224_OFS]

/-- Label selection of the `switch (addr)` of `gic_read`, labels in source order. -/
def gic_read_case (L : GicHeader) (addr : Nat) : ShCase :=
  if addr = L.GIC_SH_CONFIG_OFS then .CONFIG
  else if addr = L.GIC_SH_CONFIG_OFS + 4 then .CONFIG_4
  else if addr = L.GIC_SH_COUNTERLO_OFS then .COUNTERLO
  else if addr = L.GIC_SH_COUNTERHI_OFS then .COUNTERHI
  else if addr ∈ L.POL then .POL
  else if addr ∈ L.TRIG then .TRIG
  else if addr ∈ L.PEND then .PEND
  else if addr ∈ L.MASK then .MASK
  else .dflt

/-- Label selection of the `switch (addr)` of `gic_read_vpe`, labels in source order. -/
def gic_read_vpe_case (L : GicHeader) (addr : Nat) : VpeCase :=
  if addr = L.GIC_VPE_CTL_OFS then .CTL
  else if addr = L.GIC_VPE_PEND_OFS then .PEND
  else if addr = L.GIC_VPE_MASK_OFS then .MASK
  else if addr = L.GIC_VPE_WD_MAP_OFS then .WD_MAP
  else if addr = L.GIC_VPE_COMPARE_MAP_OFS then .COMPARE_MAP
  else if addr = L.GIC_VPE_TIMER_MAP_OFS then .TIMER_MAP
  else if addr = L.GIC_VPE_OTHER_ADDR_OFS then .OTHER_ADDR
  else if addr = L.GIC_VPE_IDENT_OFS then .IDENT
  else if addr = L.GIC_VPE_COMPARE_LO_OFS then .COMPARE_LO
  else if addr = L.GIC_VPE_COMPARE_HI_OFS then .COMPARE_HI
  else .dflt

/-- The function `gic_read_vpe`: the value read, the new state and the pin actuations
(a read of GIC_VPE_PEND polls the timers through `gic_get_sh_count`). -/
def gic_read_vpe (L : GicHeader) (gic : MIPSGICState) (now : Nat) (vp_index addr : Nat) :
    Nat × MIPSGICState × List PinEvent :=
  match gic_read_vpe_case L addr with
  | .CTL => (gic.gic_vpe_ctl vp_index, gic, [])
  | .PEND =>
    let r := gic_get_sh_count gic now
    (r.2.1.gic_vpe_pend vp_index, r.2.1, r.2.2)
  | .MASK => (gic.gic_vpe_mask vp_index, gic, [])
  | .WD_MAP => (gic.gic_vpe_wd_map vp_index, gic, [])
  | .COMPARE_MAP => (gic.gic_vpe_compare_map vp_index, gic, [])
  | .TIMER_MAP => (gic.gic_vpe_timer_map vp_index, gic, [])
  | .OTHER_ADDR => (gic.gic_vpe_other_addr vp_index, gic, [])
  | .IDENT => (vp_index, gic, [])
  | .COMPARE_LO => (gic.gic_vpe_comparelo vp_index, gic, [])
  | .COMPARE_HI => (gic.gic_vpe_comparehi vp_index, gic, [])
  | _ => (0, gic, [])

/-- The expression `(b & 1) << i` in `int`, converted to `uint64_t` as `ret |= ...` does:
two-complement wrap into the sign bit for `i = 31`, undefined for a shift count of 32
or more. -/
def shl_bit (b : Bool) (i : Nat) : Option Nat :=
  if i < 31 then some (b2n b <<< i)
  else if i = 31 then some (if b then 2 ^ 64 - 2 ^ 31 else 0)
  else none

/-- One iteration of a bank read loop, `ret |= (gic->gic_irqs[i].f & 1) << i`. -/
def gic_read_bank_body (gic : MIPSGICState) (f : MIPSGICIRQState → Bool) (ret : Nat)
    (i : Nat) : Option Nat :=
  match irq_get gic i with
  | none => none
  | some q =>
    match shl_bit (f q) i with
    | none => none
    | some b => some (ret ||| b)

/-- The loop `for (i = 0; i < size * 8; i++) ret |= (gic->gic_irqs[i].f & 1) << i` of
the bank reads of `gic_read`.  The source indexes the table with `i`; the variable
`base` it computes is not used. -/
def gic_read_bank (gic : MIPSGICState) (f : MIPSGICIRQState → Bool) (size : Nat) :
    Option Nat :=
  (List.range (size * 8)).foldlM (gic_read_bank_body gic f) 0

/-- The expression `1 << map_vpe` in `int`, converted to `uint64_t`. -/
def shl_one (map_vpe : Int) : Option Nat :=
  if 0 ≤ map_vpe ∧ map_vpe < 31 then some (1 <<< map_vpe.toNat)
  else if map_vpe = 31 then some (2 ^ 64 - 2 ^ 31)
  else none

/-- The function `gic_read`: the value read, the new state and the pin actuations of the
timers expired inline; `none` for an access outside the source table or an
undefined shift. -/
def gic_read (L : GicHeader) (gic : MIPSGICState) (now cpu_index addr size : Nat) :
    Option (Nat × MIPSGICState × List PinEvent) :=
  let vp_index := gic_get_current_cpu gic cpu_index
  match gic_read_case L addr with
  | .CONFIG => some (gic.gic_gl_config, gic, [])
  | .CONFIG_4 => some (0, gic, [])
  | .COUNTERLO => some (gic_get_sh_count gic now)
  | .COUNTERHI => some (0, gic, [])
  | .POL => (gic_read_bank gic (fun q => q.polarity) size).map (fun r => (r, gic, []))
  | .TRIG => (gic_read_bank gic (fun q => q.trigger_type) size).map (fun r => (r, gic, []))
  | .PEND => (gic_read_bank gic (fun q => q.pending) size).map (fun r => (r, gic, []))
  | .MASK => (gic_read_bank gic (fun q => q.enabled) size).map (fun r => (r, gic, []))
  | _ =>
    if L.GIC_SH_INTR_MAP_TO_PIN_BASE_OFS ≤ addr ∧ addr ≤ L.GIC_SH_MAP_TO_PIN 255 then
      (irq_get gic ((addr - L.GIC_SH_INTR_MAP_TO_PIN_BASE_OFS) / 4)).map
        (fun q => (q.map_pin, gic, []))
    else if L.GIC_SH_INTR_MAP_TO_VPE_BASE_OFS ≤ addr ∧
        addr ≤ L.GIC_SH_MAP_TO_VPE_REG_OFF 255 63 then
      match irq_get gic ((addr - L.GIC_SH_INTR_MAP_TO_VPE_BASE_OFS) / 32) with
      | none => none
      | some q => (shl_one q.map_vpe).map (fun r => (r, gic, []))
    else if L.GIC_VPELOCAL_BASE_ADDR ≤ addr ∧ addr < L.GIC_VPEOTHER_BASE_ADDR then
      some (gic_read_vpe L gic now vp_index (addr - L.GIC_VPELOCAL_BASE_ADDR))
    else if L.GIC_VPEOTHER_BASE_ADDR ≤ addr ∧ addr < L.GIC_USERMODE_BASE_ADDR then
      let other_index := gic.gic_vpe_other_addr vp_index
      some (gic_read_vpe L gic now other_index (addr - L.GIC_VPEOTHER_BASE_ADDR))
    else some (0, gic, [])

/-! ## Register file: writes -/

/-- Label selection of the `switch (addr)` of `gic_write_vpe`, labels in source order. -/
def gic_write_vpe_case (L : GicHeader) (addr : Nat) : VpeCase :=
  if addr = L.GIC_VPE_CTL_OFS then .CTL
  else if addr = L.GIC_VPE_RMASK_OFS then .RMASK
  else if addr = L.GIC_VPE_SMASK_OFS then .SMASK
  else if addr = L.GIC_VPE_WD_MAP_OFS then .WD_MAP
  else if addr = L.GIC_VPE_COMPARE_MAP_OFS then .COMPARE_MAP
  else if addr = L.GIC_VPE_TIMER_MAP_OFS then .TIMER_MAP
  else if addr = L.GIC_VPE_OTHER_ADDR_OFS then .OTHER_ADDR
  else if addr = L.GIC_VPE_OTHER_ADDR_OFS + 4 then .OTHER_ADDR_4
  else if addr = L.GIC_VPE_COMPARE_LO_OFS then .COMPARE_LO
  else if addr = L.GIC_VPE_COMPARE_HI_OFS then .COMPARE_HI
  else .dflt

/-- The function `gic_write_vpe`. -/
def gic_write_vpe (L : GicHeader) (gic : MIPSGICState) (now : Nat) (vp_index addr data : Nat) :
    MIPSGICState × List PinEvent :=
  match gic_write_vpe_case L addr with
  | .CTL =>
    let ctl := gic.gic_vpe_ctl vp_index &&& (2 ^ 32 - 1 - 1)
    ({ gic with gic_vpe_ctl := Function.update gic.gic_vpe_ctl vp_index (ctl ||| (data &&& 1)) }, [])
  | .RMASK =>
    ({ gic with
        gic_vpe_mask := Function.update gic.gic_vpe_mask vp_index
          (gic.gic_vpe_mask vp_index &&& ((0x3f - (data &&& 0x3f)) &&& 0x3f)) }, [])
  | .SMASK =>
    ({ gic with
        gic_vpe_mask := Function.update gic.gic_vpe_mask vp_index
          (gic.gic_vpe_mask vp_index ||| (data &&& 0x3f)) }, [])
  | .WD_MAP =>
    ({ gic with
        gic_vpe_wd_map := Function.update gic.gic_vpe_wd_map vp_index (data &&& 0xE000003F) }, [])
  | .COMPARE_MAP =>
    ({ gic with
        gic_vpe_compare_map :=
          Function.update gic.gic_vpe_compare_map vp_index (data &&& 0xE000003F) }, [])
  | .TIMER_MAP =>
    ({ gic with
        gic_vpe_timer_map :=
          Function.update gic.gic_vpe_timer_map vp_index (data &&& 0xE000003F) }, [])
  | .OTHER_ADDR =>
    if data < gic.num_cpu then
      ({ gic with
          gic_vpe_other_addr := Function.update gic.gic_vpe_other_addr vp_index data }, [])
    else (gic, [])
  | .OTHER_ADDR_4 => (gic, [])
  | .COMPARE_LO => gic_store_vpe_compare gic now vp_index data
  | .COMPARE_HI => (gic, [])
  | _ => (gic, [])

/-- Label selection of the `switch (addr)` of `gic_write`, labels in source order. -/
def gic_write_case (L : GicHeader) (addr : Nat) : ShCase :=
  if addr = L.GIC_SH_CONFIG_OFS then .CONFIG
  else if addr = L.GIC_SH_CONFIG_OFS + 4 then .CONFIG_4
  else if addr = L.GIC_SH_COUNTERLO_OFS then .COUNTERLO
  else if addr = L.GIC_SH_COUNTERHI_OFS then .COUNTERHI
  else if addr ∈ L.POL then .POL
  else if addr ∈ L.TRIG then .TRIG
  else if addr ∈ L.RMASK then .RMASK
  else if addr = L.GIC_SH_WEDGE_OFS then .WEDGE
  else if addr ∈ L.SMASK then .SMASK
  else .dflt

/-- The loop `for (i = 0; i < size * 8; i++) gic->gic_irqs[base + i].f = ...` of the
bank writes of `gic_write`; `f` receives the entry and the bit `(data >> i) & 1`. -/
def gic_write_bank (gic : MIPSGICState) (f : MIPSGICIRQState → Bool → MIPSGICIRQState)
    (base data size : Nat) : Option MIPSGICState :=
  (List.range (size * 8)).foldlM
    (fun g i => irq_update g (base + i) (fun q => f q (data.testBit i))) gic

/-- The case `GIC_SH_CONFIG_OFS` of `gic_write`. -/
def gic_write_config (gic : MIPSGICState) (now data : Nat) : MIPSGICState :=
  let pre := gic.gic_gl_config
  let gic := { gic with
    gic_gl_config := u32 ((gic.gic_gl_config &&& 0xEFFFFFFF) ||| (data &&& 0x10000000)) }
  if pre ≠ gic.gic_gl_config then
    let gic := if gic.gic_gl_config &&& 0x10000000 ≠ 0 then gic_timer_stop_count gic now else gic
    if ¬ (gic.gic_gl_config &&& 0x10000000 ≠ 0) then gic_timer_start_count gic now else gic
  else gic

/-- The `switch (addr)` statement of `gic_write`.  In the case `GIC_SH_WEDGE_OFS` the
call `qemu_set_irq(gic->irqs[intr], level)` runs the handler `gic_set_irq` of the
input line `intr`. -/
def gic_write_switch (L : GicHeader) (gic : MIPSGICState) (now addr data size : Nat) : Step :=
  match gic_write_case L addr with
  | .CONFIG => some (gic_write_config gic now data, [])
  | .CONFIG_4 => some (gic, [])
  | .COUNTERLO =>
    if gic.gic_gl_config &&& 0x10000000 ≠ 0 then some (gic_store_sh_count gic now data, [])
    else some (gic, [])
  | .COUNTERHI => some (gic, [])
  | .POL =>
    (gic_write_bank gic (fun q b => { q with polarity := b })
      ((addr - L.GIC_SH_POL_31_0_OFS) * 8) data size).map (fun g => (g, []))
  | .TRIG =>
    (gic_write_bank gic (fun q b => { q with trigger_type := b })
      ((addr - L.GIC_SH_TRIG_31_0_OFS) * 8) data size).map (fun g => (g, []))
  | .RMASK =>
    (gic_write_bank gic (fun q b => { q with enabled := q.enabled && !b })
      ((addr - L.GIC_SH_RMASK_31_0_OFS) * 8) data size).map (fun g => (g, []))
  | .WEDGE =>
    let intr := data &&& 0x7FFFFFFF
    if data &&& 0x80000000 ≠ 0 then gic_set_irq gic intr 1 else gic_set_irq gic intr 0
  | .SMASK =>
    (gic_write_bank gic (fun q b => { q with enabled := q.enabled || b })
      ((addr - L.GIC_SH_SMASK_31_0_OFS) * 8) data size).map (fun g => (g, []))
  | _ => some (gic, [])

/-- The register `GIC_SH_MAP_TO_PIN`: the first `if` after the switch of `gic_write`. -/
def gic_write_map_pin (L : GicHeader) (gic : MIPSGICState) (addr data : Nat) :
    Option MIPSGICState :=
  if L.GIC_SH_INTR_MAP_TO_PIN_BASE_OFS ≤ addr ∧ addr ≤ L.GIC_SH_MAP_TO_PIN 255 then
    irq_update gic ((addr - L.GIC_SH_INTR_MAP_TO_PIN_BASE_OFS) / 4)
      (fun q => { q with map_pin := u32 data })
  else some gic

/-- The register `GIC_SH_MAP_TO_VPE`: the second `if` after the switch of `gic_write`. -/
def gic_write_map_vpe (L : GicHeader) (gic : MIPSGICState) (addr data : Nat) :
    Option MIPSGICState :=
  if L.GIC_SH_INTR_MAP_TO_VPE_BASE_OFS ≤ addr ∧
      addr ≤ L.GIC_SH_MAP_TO_VPE_REG_OFF 255 63 then
    irq_update gic ((addr - L.GIC_SH_INTR_MAP_TO_VPE_BASE_OFS) / 32)
      (fun q => { q with map_vpe := (ffsll data : Int) - 1 })
  else some gic

/-- The VPE-local and VPE-other windows: the last two `if`s of `gic_write`. -/
def gic_write_zones (L : GicHeader) (gic : MIPSGICState) (now vp_index addr data : Nat) :
    MIPSGICState × List PinEvent :=
  let r1 :=
    if L.GIC_VPELOCAL_BASE_ADDR ≤ addr ∧ addr < L.GIC_VPEOTHER_BASE_ADDR then
      gic_write_vpe L gic now vp_index (addr - L.GIC_VPELOCAL_BASE_ADDR) data
    else (gic, [])
  let r2 :=
    if L.GIC_VPEOTHER_BASE_ADDR ≤ addr ∧ addr < L.GIC_USERMODE_BASE_ADDR then
      let other_index := r1.1.gic_vpe_other_addr vp_index
      gic_write_vpe L r1.1 now other_index (addr - L.GIC_VPEOTHER_BASE_ADDR) data
    else (r1.1, [])
  (r2.1, r1.2 ++ r2.2)

/-- The function `gic_write`: the switch, then the four range tests in sequence. -/
def gic_write (L : GicHeader) (gic : MIPSGICState) (now cpu_index addr data size : Nat) :
    Step :=
  let vp_index := gic_get_current_cpu gic cpu_index
  match gic_write_switch L gic now addr data size with
  | none => none
  | some (g1, ev1) =>
    match gic_write_map_pin L g1 addr data with
    | none => none
    | some g2 =>
      match gic_write_map_vpe L g2 addr data with
      | none => none
      | some g3 =>
        let r := gic_write_zones L g3 now vp_index addr data
        some (r.1, ev1 ++ r.2)

/-- The function `gic_reset`. -/
def gic_reset (L : GicHeader) (gic : MIPSGICState) : MIPSGICState :=
  let gic := (List.range gic.num_irq).foldl
    (fun g i => { g with
      gic_irqs := Function.update g.gic_irqs i
        { g.gic_irqs i with map_pin := L.GIC_MAP_TO_PIN_MSK } }) gic
  { gic with gic_sh_counterlo := 0, gic_gl_config := u32 (0x100f0000 ||| gic.num_cpu) }

/-! ## CPU pins and the composite level -/

/-- The levels of the CPU pins after a sequence of actuations, from the levels `pins`
(`pins cpu pin` is the last level driven on `env[cpu]->irq[pin]`). -/
def drive (pins : Nat → Nat → Int) (evs : List PinEvent) : Nat → Nat → Int :=
  evs.foldl (fun p e => Function.update p e.cpu (Function.update (p e.cpu) e.pin e.level)) pins

/-- The OR of `pending` over the enabled sources mapped to `(pin, vpe)`. -/
def source_level (gic : MIPSGICState) (pin vpe : Nat) : Bool :=
  (List.range gic.num_irq).any (fun i =>
    (gic.gic_irqs i).enabled && ((gic.gic_irqs i).map_pin &&& 0x3f) == pin &&
      (gic.gic_irqs i).map_vpe == (vpe : Int) && (gic.gic_irqs i).pending)

/-- The gated compare pending of invariant I6: `compare_map[vpe]` targets `pin`, bit 1 of
`mask[vpe]` is set and bit 1 of `pend[vpe]` is set. -/
def compare_level (gic : MIPSGICState) (pin vpe : Nat) : Bool :=
  (gic.gic_vpe_compare_map vpe &&& 0x3f) == pin && (gic.gic_vpe_mask vpe).testBit 1 &&
    (gic.gic_vpe_pend vpe).testBit 1

/-- The composite level of invariant I6 for `(pin, vpe)`. -/
def composite_level (gic : MIPSGICState) (pin vpe : Nat) : Bool :=
  source_level gic pin vpe || compare_level gic pin vpe

/-- Invariant I6: for every VPE and every 6-bit pin selector, the level presented on pin
`pin + 2` of the CPU is high exactly when the composite level is. -/
def I6 (gic : MIPSGICState) (pins : Nat → Nat → Int) : Prop :=
  ∀ vpe, vpe < gic.num_cpu → ∀ pin, pin < 64 →
    (pins vpe (pin + 2) ≠ 0 ↔ composite_level gic pin vpe = true)

/-! ## Construction -/

/-- The zero-filled instance that `mips_gic_realize` starts from, with the properties
`num-cpu` and `num-irq` set. -/
def mips_gic_instance (num_cpu num_irq : Nat) : MIPSGICState where
  num_cpu := num_cpu
  num_irq := num_irq
  gic_gl_config := 0
  gic_sh_counterlo := 0
  gic_irqs := fun _ =>
    { enabled := false, pending := false, polarity := false, trigger_type := false,
      dual_edge := false, map_pin := 0, map_vpe := 0 }
  gic_vpe_ctl := fun _ => 0
  gic_vpe_pend := fun _ => 0
  gic_vpe_mask := fun _ => 0
  gic_vpe_wd_map := fun _ => 0
  gic_vpe_compare_map := fun _ => 0
  gic_vpe_timer_map := fun _ => 0
  gic_vpe_comparelo := fun _ => 0
  gic_vpe_comparehi := fun _ => 0
  gic_vpe_other_addr := fun _ => 0
  timer_irq := fun _ => 0
  ic_irq := fun _ => 0
  gic_timer := fun _ => none

/-- The function `gic_timer_init`: the new timers are not pending, then the count is
stored. -/
def gic_timer_init (gic : MIPSGICState) (now : Nat) : MIPSGICState :=
  gic_store_sh_count { gic with gic_timer := fun _ => none } now gic.gic_sh_counterlo

/-- The function `mips_gic_realize` at host time `now`: the timers, then the source
table. -/
def mips_gic_realize (L : GicHeader) (num_cpu num_irq now : Nat) : MIPSGICState :=
  let gic := gic_timer_init (mips_gic_instance num_cpu num_irq) now
  { gic with
    gic_irqs := fun _ =>
      { enabled := false, pending := false, polarity := false, trigger_type := false,
        dual_edge := false, map_pin := L.GIC_MAP_TO_PIN_MSK, map_vpe := 0 } }

/-! ## States used to instantiate the theorems -/

/-- The state of source `s` with its `pending` flag set to `b`: the first assignment of
`gic_set_irq`. -/
def with_pending (g : MIPSGICState) (s : Nat) (b : Bool) : MIPSGICState :=
  { g with gic_irqs := Function.update g.gic_irqs s { g.gic_irqs s with pending := b } }

/-- A controller with two VPEs and eight sources in which sources 3 and 4 are enabled and
mapped to pin 5 of VPE 1 (scenario 2 of the specification). -/
def ex_routing : MIPSGICState :=
  { mips_gic_instance 2 8 with
    gic_gl_config := 0x100f0002
    gic_irqs := fun i =>
      { enabled := decide (i = 3 ∨ i = 4), pending := false, polarity := false,
        trigger_type := false, dual_edge := false, map_pin := 5, map_vpe := 1 } }

/-! ## Preservation of invariant I6 -/

/-- Two states agree on everything the composite level of I6 reads: the sizes, the
`enabled`, `pending`, `map_pin` and `map_vpe` fields of every source, and the
`compare_map`, `mask` and `pend` registers of every VPE. -/
def same_routing (g g1 : MIPSGICState) : Prop :=
  g1.num_cpu = g.num_cpu ∧ g1.num_irq = g.num_irq ∧
  (∀ i, (g1.gic_irqs i).enabled = (g.gic_irqs i).enabled ∧
    (g1.gic_irqs i).pending = (g.gic_irqs i).pending ∧
    (g1.gic_irqs i).map_pin = (g.gic_irqs i).map_pin ∧
    (g1.gic_irqs i).map_vpe = (g.gic_irqs i).map_vpe) ∧
  g1.gic_vpe_compare_map = g.gic_vpe_compare_map ∧ g1.gic_vpe_mask = g.gic_vpe_mask ∧
  g1.gic_vpe_pend = g.gic_vpe_pend

/-- An operation started in `g` with the CPU pins at `pins` preserves I6: if I6 holds
before and the operation completes, I6 holds for the new state and the pins after its
actuations. -/
def preserves_I6 (g : MIPSGICState) (pins : Nat → Nat → Int) (r : Step) : Prop :=
  I6 g pins → ∀ g1 evs, r = some (g1, evs) → I6 g1 (drive pins evs)

/-- The per-VPE registers whose write changes no input of the composite level and
actuates no pin: all but RMASK, SMASK, COMPARE_MAP and COMPARE_LO. -/
def VpeCase.composite_neutral : VpeCase → Bool
  | .RMASK => false
  | .SMASK => false
  | .COMPARE_MAP => false
  | .COMPARE_LO => false
  | _ => true

/-- The addresses at which `gic_write` reaches none of the registers after whose write
the code leaves the composite level stale: the SMASK and RMASK banks, MAP_TO_PIN,
MAP_TO_VPE, and the RMASK, SMASK, COMPARE_MAP and COMPARE_LO registers of the
VPE-local and VPE-other windows. -/
def composite_neutral (L : GicHeader) (addr : Nat) : Bool :=
  (gic_write_case L addr != ShCase.RMASK) && (gic_write_case L addr != ShCase.SMASK) &&
  !decide (L.GIC_SH_INTR_MAP_TO_PIN_BASE_OFS ≤ addr ∧ addr ≤ L.GIC_SH_MAP_TO_PIN 255) &&
  !decide (L.GIC_SH_INTR_MAP_TO_VPE_BASE_OFS ≤ addr ∧
    addr ≤ L.GIC_SH_MAP_TO_VPE_REG_OFF 255 63) &&
  (if L.GIC_VPELOCAL_BASE_ADDR ≤ addr ∧ addr < L.GIC_VPEOTHER_BASE_ADDR then
    (gic_write_vpe_case L (addr - L.GIC_VPELOCAL_BASE_ADDR)).composite_neutral else true) &&
  (if L.GIC_VPEOTHER_BASE_ADDR ≤ addr ∧ addr < L.GIC_USERMODE_BASE_ADDR then
    (gic_write_vpe_case L (addr - L.GIC_VPEOTHER_BASE_ADDR)).composite_neutral else true)

/-- All CPU pins low. -/
def pins_low : Nat → Nat → Int := fun _ _ => 0

/-- A controller with one VPE whose `compare_map` names pin 5 with the valid bit clear and
whose compare mask bit is set. -/
def ex_compare_invalid : MIPSGICState :=
  { mips_gic_instance 1 8 with
    gic_gl_config := 0x100f0001
    gic_vpe_mask := fun _ => 2
    gic_vpe_compare_map := fun _ => 5 }

/-- The controller `ex_routing` with its sources disabled and source 3 pending. -/
def ex_masked_pending : MIPSGICState :=
  { mips_gic_instance 2 8 with
    gic_gl_config := 0x100f0002
    gic_irqs := fun i =>
      { enabled := false, pending := decide (i = 3), polarity := false,
        trigger_type := false, dual_edge := false, map_pin := 5, map_vpe := 1 } }

instance (g : MIPSGICState) (pins : Nat → Nat → Int) : Decidable (I6 g pins) := by
  unfold I6; infer_instance

/-- Pin 7 of CPU `cpu` high, every other pin low. -/
def pin7_high (cpu : Nat) : Nat → Nat → Int := fun c p => if c = cpu ∧ p = 7 then 1 else 0

/-- The controller `ex_routing` after source 3 was asserted: pin 7 of CPU 1 is high. -/
def ex_asserted : MIPSGICState := with_pending ex_routing 3 true

/-- A controller with one VPE whose compare interrupt has fired: `compare_map` names pin 5
with the valid bit set, the compare mask bit and the compare pending bit are set, and
pin 7 of CPU 0 is high. -/
def ex_compare_fired : MIPSGICState :=
  { mips_gic_instance 1 8 with
    gic_gl_config := 0x100f0001
    gic_vpe_mask := fun _ => 2
    gic_vpe_pend := fun _ => 2
    gic_vpe_compare_map := fun _ => 0x80000005 }

/-- The controller `ex_compare_fired` with the compare mask bit clear: its pins are low. -/
def ex_compare_masked : MIPSGICState :=
  { ex_compare_fired with gic_vpe_mask := fun _ => 0 }

/-- A controller with one VPE in which source 3 is enabled, pending and mapped to pin 5 of
VPE 0, the pin that the valid `compare_map` names too; pin 7 of CPU 0 is high. -/
def ex_shared_pin : MIPSGICState :=
  { mips_gic_instance 1 8 with
    gic_gl_config := 0x100f0001
    gic_vpe_compare_map := fun _ => 0x80000005
    gic_irqs := fun i =>
      { enabled := decide (i = 3), pending := decide (i = 3), polarity := false,
        trigger_type := false, dual_edge := false, map_pin := 5, map_vpe := 0 } }

/-- The address reaches none of the four ranges tested after the switch of `gic_write`
(MAP_TO_PIN, MAP_TO_VPE, the VPE-local window, the VPE-other window): a register of
the shared section alone. -/
def GicHeader.shared_only (L : GicHeader) (addr : Nat) : Prop :=
  ¬ (L.GIC_SH_INTR_MAP_TO_PIN_BASE_OFS ≤ addr ∧ addr ≤ L.GIC_SH_MAP_TO_PIN 255) ∧
  ¬ (L.GIC_SH_INTR_MAP_TO_VPE_BASE_OFS ≤ addr ∧ addr ≤ L.GIC_SH_MAP_TO_VPE_REG_OFF 255 63) ∧
  ¬ (L.GIC_VPELOCAL_BASE_ADDR ≤ addr ∧ addr < L.GIC_VPEOTHER_BASE_ADDR) ∧
  ¬ (L.GIC_VPEOTHER_BASE_ADDR ≤ addr ∧ addr < L.GIC_USERMODE_BASE_ADDR)

instance (L : GicHeader) (addr : Nat) : Decidable (L.shared_only addr) := by
  unfold GicHeader.shared_only; infer_instance

/-- A running controller with two VPEs whose counter base is 0xFFFFFF00 and in which the
timer of VPE 0 is armed at 100 ns and the timer of VPE 1 at 50000 ns. -/
def ex_running : MIPSGICState :=
  { mips_gic_instance 2 8 with
    gic_gl_config := 0x000f0002
    gic_sh_counterlo := 0xFFFFFF00
    gic_vpe_comparelo := fun v => if v = 0 then 0xFFFFFF0A else 0x1288
    gic_timer := fun v => if v = 0 then some 100 else if v = 1 then some 50000 else none }

/-- A stopped controller with two VPEs whose frozen count is 1000. -/
def ex_stopped : MIPSGICState :=
  { mips_gic_instance 2 8 with
    gic_gl_config := 0x100f0002
    gic_sh_counterlo := 1000 }

/-- A controller with one VPE whose `compare_map` names pin 5 with the valid bit clear and
whose compare mask bit is set, and in which source 3 is enabled, not pending and mapped
to pin 5 of VPE 0. -/
def ex_invalid_routed : MIPSGICState :=
  { ex_compare_invalid with
    gic_irqs := fun i =>
      { enabled := decide (i = 3), pending := false, polarity := false,
        trigger_type := false, dual_edge := false, map_pin := 5, map_vpe := 0 } }

/-- A run of timer callbacks: `gic_vpe_timer_cb` of VPE `p.2` at host time `p.1`, for each
pair of the list in turn. -/
def run_timer_cbs (g : MIPSGICState) (l : List (Nat × Nat)) : MIPSGICState :=
  l.foldl (fun g p => (gic_vpe_timer_cb g p.1 p.2).1) g

/-- The address lies in the VPE-local window and reaches nothing else: the switches of
`gic_read` and `gic_write` take their default branch and the two map ranges and the
VPE-other window do not hold it. -/
def GicHeader.local_only (L : GicHeader) (addr : Nat) : Prop :=
  gic_read_case L addr = ShCase.dflt ∧ gic_write_case L addr = ShCase.dflt ∧
  ¬ (L.GIC_SH_INTR_MAP_TO_PIN_BASE_OFS ≤ addr ∧ addr ≤ L.GIC_SH_MAP_TO_PIN 255) ∧
  ¬ (L.GIC_SH_INTR_MAP_TO_VPE_BASE_OFS ≤ addr ∧ addr ≤ L.GIC_SH_MAP_TO_VPE_REG_OFF 255 63) ∧
  (L.GIC_VPELOCAL_BASE_ADDR ≤ addr ∧ addr < L.GIC_VPEOTHER_BASE_ADDR) ∧
  ¬ (L.GIC_VPEOTHER_BASE_ADDR ≤ addr ∧ addr < L.GIC_USERMODE_BASE_ADDR)

instance (L : GicHeader) (addr : Nat) : Decidable (L.local_only addr) := by
  unfold GicHeader.local_only; infer_instance

/-- The address lies in the VPE-other window and reaches nothing else. -/
def GicHeader.other_only (L : GicHeader) (addr : Nat) : Prop :=
  gic_read_case L addr = ShCase.dflt ∧ gic_write_case L addr = ShCase.dflt ∧
  ¬ (L.GIC_SH_INTR_MAP_TO_PIN_BASE_OFS ≤ addr ∧ addr ≤ L.GIC_SH_MAP_TO_PIN 255) ∧
  ¬ (L.GIC_SH_INTR_MAP_TO_VPE_BASE_OFS ≤ addr ∧ addr ≤ L.GIC_SH_MAP_TO_VPE_REG_OFF 255 63) ∧
  ¬ (L.GIC_VPELOCAL_BASE_ADDR ≤ addr ∧ addr < L.GIC_VPEOTHER_BASE_ADDR) ∧
  (L.GIC_VPEOTHER_BASE_ADDR ≤ addr ∧ addr < L.GIC_USERMODE_BASE_ADDR)

instance (L : GicHeader) (addr : Nat) : Decidable (L.other_only addr) := by
  unfold GicHeader.other_only; infer_instance

/-- The per-VPE registers and the timer of VPE `w` are the same in `g1` as in `g`. -/
def vpe_regs_eq (g g1 : MIPSGICState) (w : Nat) : Prop :=
  g1.gic_vpe_ctl w = g.gic_vpe_ctl w ∧ g1.gic_vpe_pend w = g.gic_vpe_pend w ∧
  g1.gic_vpe_mask w = g.gic_vpe_mask w ∧ g1.gic_vpe_wd_map w = g.gic_vpe_wd_map w ∧
  g1.gic_vpe_compare_map w = g.gic_vpe_compare_map w ∧
  g1.gic_vpe_timer_map w = g.gic_vpe_timer_map w ∧
  g1.gic_vpe_comparelo w = g.gic_vpe_comparelo w ∧
  g1.gic_vpe_comparehi w = g.gic_vpe_comparehi w ∧
  g1.gic_vpe_other_addr w = g.gic_vpe_other_addr w ∧ g1.gic_timer w = g.gic_timer w

/-- Invariant I5: `other_addr[v] < num_cpu` for every VPE `v`. -/
def I5 (g : MIPSGICState) : Prop :=
  ∀ v, v < g.num_cpu → g.gic_vpe_other_addr v < g.num_cpu

instance (g : MIPSGICState) : Decidable (I5 g) := by
  unfold I5; infer_instance

/-- What a step from `g` to `g1` may do to `other_addr`: `num_cpu` stays, and each
`other_addr[v]` either stays or becomes a VPE number below `num_cpu`. -/
def other_addr_step (g g1 : MIPSGICState) : Prop :=
  g1.num_cpu = g.num_cpu ∧
  ∀ v, g1.gic_vpe_other_addr v = g.gic_vpe_other_addr v ∨ g1.gic_vpe_other_addr v < g.num_cpu

/-- A controller with two VPEs and eight sources in which `other_addr[0] = 1`
(scenario of the VPE-other window in the specification). -/
def ex_other : MIPSGICState :=
  { mips_gic_instance 2 8 with
    gic_vpe_other_addr := fun v => if v = 0 then 1 else 0 }

/-- A controller with one VPE and 256 sources, as `mips_gic_realize` and `gic_reset` leave
it (the timer of the VPE apart). -/
def ex_banks : MIPSGICState :=
  { mips_gic_instance 1 256 with
    gic_gl_config := 0x100f0001
    gic_irqs := fun _ =>
      { enabled := false, pending := false, polarity := false, trigger_type := false,
        dual_edge := false, map_pin := mips_gic_h.GIC_MAP_TO_PIN_MSK, map_vpe := 0 } }

/-- A controller with 64 VPEs and 256 sources. -/
def ex_vpe64 : MIPSGICState :=
  { mips_gic_instance 64 256 with gic_gl_config := 0x100f0040 }

/-- The case labels of the two switches of the shared section: every offset that
`gic_read` or `gic_write` compares `addr` with. -/
def GicHeader.shared_regs (L : GicHeader) : List Nat :=
  [L.GIC_SH_CONFIG_OFS, L.GIC_SH_CONFIG_OFS + 4, L.GIC_SH_COUNTERLO_OFS,
   L.GIC_SH_COUNTERHI_OFS, L.GIC_SH_WEDGE_OFS] ++
    L.POL ++ L.TRIG ++ L.PEND ++ L.MASK ++ L.RMASK ++ L.SMASK

/-- The user-mode base lies above everything the controller decodes: above every case
label of the shared section and both map ranges, and not below the VPE-other base. -/
def GicHeader.user_mode_last (L : GicHeader) : Prop :=
  (∀ a ∈ L.shared_regs, a < L.GIC_USERMODE_BASE_ADDR) ∧
  L.GIC_SH_MAP_TO_PIN 255 < L.GIC_USERMODE_BASE_ADDR ∧
  L.GIC_SH_MAP_TO_VPE_REG_OFF 255 63 < L.GIC_USERMODE_BASE_ADDR ∧
  L.GIC_VPEOTHER_BASE_ADDR ≤ L.GIC_USERMODE_BASE_ADDR

instance (L : GicHeader) : Decidable L.user_mode_last := by
  unfold GicHeader.user_mode_last; infer_instance

/-! ## The R4K timer of hw/mips_timer.c -/

/-- The constants that hw/mips_timer.c takes from headers outside the sources: the bit
numbers `CP0Ca_DC`, `CP0Ca_TI` and `CP0IntCtl_IPTI` and the flag `ISA_MIPS32R2` of
the CPU header, and the value returned by `get_ticks_per_sec()`.  They are parameters
of the model. -/
structure CpuHeader where
  CP0Ca_DC : Nat
  CP0Ca_TI : Nat
  CP0IntCtl_IPTI : Nat
  ISA_MIPS32R2 : Nat
  get_ticks_per_sec : Nat

/-- Modelled from the spec: values for the constants of `CpuHeader`.  The host clock is
read in ns, so there are 10^9 ticks per second (with the 100 MHz of `TIMER_FREQ` this
is the counter period of 10 ns of the spec); Cause.DC is bit 27, Cause.TI bit 30 and
IntCtl.IPTI starts at bit 29 in the MIPS32 architecture.  The theorems take the
header as a parameter; this value instantiates them. -/
def mips_cpu_h : CpuHeader where
  CP0Ca_DC := 27
  CP0Ca_TI := 30
  CP0IntCtl_IPTI := 29
  ISA_MIPS32R2 := 0x40
  get_ticks_per_sec := 1000000000

/-- The macro `TIMER_FREQ` without `SV_SUPPORT`: `100 * 1000 * 1000`. -/
def TIMER_FREQ : Nat := 100 * 1000 * 1000

/-- Modelled from the spec: `muldiv64(a, b, c)` of the QEMU host utilities, which is
outside the sources: `a * b / c` for a 64-bit `a` and 32-bit `b` and `c`, computed
without overflow of the product (the spec's `now / PERIOD_NS` is
`muldiv64(now, TIMER_FREQ, get_ticks_per_sec())`). -/
def muldiv64 (a b c : Nat) : Nat := u64 (u64 a * u32 b / u32 c)

/-- Modelled from the spec: the fields of `CPUState` that the R4K timer functions use; the
struct is declared outside the sources, like `MIPSGICState`.  `CP0_Count`,
`CP0_Compare`, `CP0_Cause` and `CP0_IntCtl` hold the 32-bit pattern of the register;
`timer` is the state of the host timer `env->timer`: `some d` when armed with the
absolute deadline `d` in ns. -/
structure CPUMIPSState where
  CP0_Count : Nat
  CP0_Compare : Nat
  CP0_Cause : Nat
  CP0_IntCtl : Nat
  insn_flags : Nat
  timer : Option Nat

/-- The function `cpu_mips_timer_update` at host time `now`, without `SV_SUPPORT`;
`qemu_mod_timer` arms `env->timer` as `timer_mod` does. -/
def cpu_mips_timer_update (H : CpuHeader) (env : CPUMIPSState) (now : Nat) : CPUMIPSState :=
  let wait := sub32 (sub32 env.CP0_Compare env.CP0_Count)
    (u32 (muldiv64 now TIMER_FREQ H.get_ticks_per_sec))
  let next := u64 (now + muldiv64 wait H.get_ticks_per_sec TIMER_FREQ)
  { env with timer := some next }

/-- The function `cpu_mips_timer_expire`: the new state and the interrupt lines raised,
each as the index into `env->irq` and the level. -/
def cpu_mips_timer_expire (H : CpuHeader) (env : CPUMIPSState) (now : Nat) :
    CPUMIPSState × List (Nat × Int) :=
  let env := cpu_mips_timer_update H env now
  let env :=
    if env.insn_flags &&& H.ISA_MIPS32R2 ≠ 0 then
      { env with CP0_Cause := u32 (env.CP0_Cause ||| (1 <<< H.CP0Ca_TI)) }
    else env
  (env, [((env.CP0_IntCtl >>> H.CP0IntCtl_IPTI) &&& 0x7, 1)])

/-- The function `cpu_mips_get_count` at host time `now`: the value returned, the new
state and the interrupt lines raised by an inline expiry.  `qemu_timer_pending` and
`qemu_timer_expired` are `timer_pending` and `timer_expired`. -/
def cpu_mips_get_count (H : CpuHeader) (env : CPUMIPSState) (now : Nat) :
    Nat × CPUMIPSState × List (Nat × Int) :=
  if env.CP0_Cause &&& (1 <<< H.CP0Ca_DC) ≠ 0 then (u32 env.CP0_Count, env, [])
  else
    let r :=
      if timer_pending env.timer && timer_expired env.timer now then
        cpu_mips_timer_expire H env now
      else (env, [])
    (u32 (r.1.CP0_Count + u32 (muldiv64 now TIMER_FREQ H.get_ticks_per_sec)), r.1, r.2)

/-- The function `cpu_mips_store_count` at host time `now`; `count` is a `uint32_t`
parameter. -/
def cpu_mips_store_count (H : CpuHeader) (env : CPUMIPSState) (now count : Nat) :
    CPUMIPSState :=
  if env.CP0_Cause &&& (1 <<< H.CP0Ca_DC) ≠ 0 then { env with CP0_Count := u32 count }
  else
    let env := { env with
      CP0_Count := sub32 (u32 count) (u32 (muldiv64 now TIMER_FREQ H.get_ticks_per_sec)) }
    cpu_mips_timer_update H env now

/-- A CPU whose count runs (Cause.DC clear) with Compare at 5000 and no timer armed. -/
def ex_cpu_running : CPUMIPSState where
  CP0_Count := 0
  CP0_Compare := 5000
  CP0_Cause := 0
  CP0_IntCtl := 0xE0000000
  insn_flags := 0x40
  timer := none

/-- A CPU whose count is disabled (Cause.DC set) and holds 1234. -/
def ex_cpu_stopped : CPUMIPSState :=
  { ex_cpu_running with CP0_Count := 1234, CP0_Cause := 0x08000000 }

/-- Modelled from the spec: the test `memory_region_access_valid` of the memory core, which
is outside the sources, for the region of `gic_ops`.  The spec (4.E) accepts access
widths of 1, 2, 4 and 8 bytes; `gic_ops` sets no `.valid` field, and with
`.valid.unaligned` unset the core refuses an access whose address is not a multiple
of its size before it reaches `gic_read` or `gic_write`. -/
def memory_region_access_valid (addr size : Nat) : Prop :=
  (size = 1 ∨ size = 2 ∨ size = 4 ∨ size = 8) ∧ addr % size = 0

instance (addr size : Nat) : Decidable (memory_region_access_valid addr size) := by
  unfold memory_region_access_valid; infer_instance

/-- The polarity, trigger, reset-mask and set-mask bank registers are each eight 32-bit
words four bytes apart, the first on an 8-byte boundary. -/
def GicHeader.banks_packed (L : GicHeader) : Prop :=
  (L.POL = (List.range 8).map (fun k => L.GIC_SH_POL_31_0_OFS + 4 * k) ∧
    L.GIC_SH_POL_31_0_OFS % 8 = 0) ∧
  (L.TRIG = (List.range 8).map (fun k => L.GIC_SH_TRIG_31_0_OFS + 4 * k) ∧
    L.GIC_SH_TRIG_31_0_OFS % 8 = 0) ∧
  (L.RMASK = (List.range 8).map (fun k => L.GIC_SH_RMASK_31_0_OFS + 4 * k) ∧
    L.GIC_SH_RMASK_31_0_OFS % 8 = 0) ∧
  (L.SMASK = (List.range 8).map (fun k => L.GIC_SH_SMASK_31_0_OFS + 4 * k) ∧
    L.GIC_SH_SMASK_31_0_OFS % 8 = 0)

instance (L : GicHeader) : Decidable L.banks_packed := by
  unfold GicHeader.banks_packed; infer_instance

/-- The effect the specification gives a bank write (4.E): bit `i` of `data` is applied,
by `f`, to source `base + i` for every `i < size * 8`, and nothing else changes.  It is
compared with `gic_write_bank`, the loop of the source. -/
def bank_write_spec (g : MIPSGICState) (f : MIPSGICIRQState → Bool → MIPSGICIRQState)
    (base data size : Nat) : MIPSGICState :=
  { g with
    gic_irqs := fun j =>
      if base ≤ j ∧ j < base + size * 8 then f (g.gic_irqs j) (data.testBit (j - base))
      else g.gic_irqs j }

/-! # Theorems -/

/-! ## Bit tests -/

theorem and_two_ne_zero (n : Nat) : n &&& 2 ≠ 0 ↔ n.testBit 1 = true := by
  have h2 : (2 : Nat) = 2 ^ 1 := rfl
  constructor
  · intro h
    by_contra hb
    apply h
    apply Nat.eq_of_testBit_eq
    intro i
    rw [Nat.testBit_and, h2, Nat.testBit_two_pow]
    by_cases hi : 1 = i
    · subst hi; simp [hb]
    · simp [hi]
  · intro hb h
    have h3 := congrArg (fun m => Nat.testBit m 1) h
    simp only [Nat.testBit_and, hb] at h3
    rw [h2, Nat.testBit_two_pow] at h3
    simp at h3

theorem shr_one_and_one_ne_zero (n : Nat) : (n >>> 1) &&& 1 ≠ 0 ↔ n.testBit 1 = true := by
  unfold Nat.testBit
  rw [Nat.and_comm]
  simp

theorem lor_ne_zero (a b : Nat) : a ||| b ≠ 0 ↔ a ≠ 0 ∨ b ≠ 0 := by
  constructor
  · intro h
    by_contra hc
    push_neg at hc
    apply h
    rw [hc.1, hc.2]; rfl
  · intro h hc
    have h1 : ∀ i, (a ||| b).testBit i = false := by intro i; rw [hc]; simp
    simp only [Nat.testBit_or, Bool.or_eq_false_iff] at h1
    rcases h with h | h
    · exact h (Nat.eq_of_testBit_eq (fun i => by rw [(h1 i).1]; simp))
    · exact h (Nat.eq_of_testBit_eq (fun i => by rw [(h1 i).2]; simp))

/-! ## Routing engine: `gic_set_irq` -/

theorem gic_set_irq_loop_step (g : MIPSGICState) (pin : Nat) (vpe : Int) (i n : Nat) :
    gic_set_irq_loop g pin vpe i (n + 1) 0 =
      if gic_set_irq_match g pin vpe i = true ∧ (g.gic_irqs i).pending = true then 1
      else gic_set_irq_loop g pin vpe (i + 1) n 0 := by
  rw [gic_set_irq_loop]
  by_cases hm : gic_set_irq_match g pin vpe i = true
  · by_cases hp : (g.gic_irqs i).pending = true
    · simp [hm, hp, b2n]
    · simp [hm, hp, b2n]
  · simp [hm]

theorem gic_set_irq_match_iff (g : MIPSGICState) (pin : Nat) (vpe : Int) (i : Nat) :
    gic_set_irq_match g pin vpe i = true ↔
      (g.gic_irqs i).enabled = true ∧ (g.gic_irqs i).map_pin &&& 0x3F = pin ∧
        (g.gic_irqs i).map_vpe = vpe := by
  simp [gic_set_irq_match]
  tauto

theorem gic_set_irq_loop_ne_zero (g : MIPSGICState) (pin : Nat) (vpe : Int) :
    ∀ n i, gic_set_irq_loop g pin vpe i n 0 ≠ 0 ↔
      ∃ j, i ≤ j ∧ j < i + n ∧ gic_set_irq_match g pin vpe j = true ∧
        (g.gic_irqs j).pending = true := by
  intro n
  induction n with
  | zero =>
    intro i
    simp only [gic_set_irq_loop, ne_eq, not_true_eq_false, false_iff]
    rintro ⟨j, h1, h2, _⟩
    omega
  | succ n ih =>
    intro i
    rw [gic_set_irq_loop_step]
    split
    · next h =>
      constructor
      · intro _
        exact ⟨i, le_refl i, by omega, h.1, h.2⟩
      · intro _; decide
    · next h =>
      rw [ih (i + 1)]
      constructor
      · rintro ⟨j, h1, h2, h3, h4⟩
        exact ⟨j, by omega, by omega, h3, h4⟩
      · rintro ⟨j, h1, h2, h3, h4⟩
        have hne : j ≠ i := by
          rintro rfl
          exact h ⟨h3, h4⟩
        exact ⟨j, by omega, by omega, h3, h4⟩

theorem source_level_iff (g : MIPSGICState) (pin vpe : Nat) :
    source_level g pin vpe = true ↔
      ∃ i, i < g.num_irq ∧ (g.gic_irqs i).enabled = true ∧
        (g.gic_irqs i).map_pin &&& 0x3F = pin ∧ (g.gic_irqs i).map_vpe = (vpe : Int) ∧
        (g.gic_irqs i).pending = true := by
  simp only [source_level, List.any_eq_true, List.mem_range, Bool.and_eq_true, beq_iff_eq]
  constructor
  · rintro ⟨i, h1, ⟨⟨h2, h3⟩, h4⟩, h5⟩
    exact ⟨i, h1, h2, h3, h4, h5⟩
  · rintro ⟨i, h1, h2, h3, h4, h5⟩
    exact ⟨i, h1, ⟨⟨h2, h3⟩, h4⟩, h5⟩

theorem compare_level_iff (g : MIPSGICState) (pin vpe : Nat) :
    compare_level g pin vpe = true ↔
      g.gic_vpe_compare_map vpe &&& 0x3F = pin ∧ (g.gic_vpe_mask vpe).testBit 1 = true ∧
        (g.gic_vpe_pend vpe).testBit 1 = true := by
  simp only [compare_level, Bool.and_eq_true, beq_iff_eq]
  tauto

theorem source_level_loop (g : MIPSGICState) (pin vpe : Nat) :
    gic_set_irq_loop g pin (vpe : Int) 0 g.num_irq 0 ≠ 0 ↔ source_level g pin vpe = true := by
  rw [gic_set_irq_loop_ne_zero, source_level_iff]
  constructor
  · rintro ⟨j, _, h2, h3, h4⟩
    rw [gic_set_irq_match_iff] at h3
    exact ⟨j, by omega, h3.1, h3.2.1, h3.2.2, h4⟩
  · rintro ⟨j, h1, h2, h3, h4, h5⟩
    exact ⟨j, Nat.zero_le j, by omega,
      (gic_set_irq_match_iff g pin (vpe : Int) j).mpr ⟨h2, h3, h4⟩, h5⟩

/-- The level that `gic_set_irq` presents when the source is enabled and routed. -/
theorem gic_set_irq_routed (g : MIPSGICState) (s : Nat) (level : Int) (v : Nat)
    (hs : s < g.num_irq) (hen : (g.gic_irqs s).enabled = true)
    (hv : (g.gic_irqs s).map_vpe = (v : Int)) (hhi : v < g.num_cpu) :
    ∃ l : Int,
      gic_set_irq g s level =
        some (with_pending g s (decide (level ≠ 0)),
          [{ cpu := v, pin := ((g.gic_irqs s).map_pin &&& 0x3F) + 2, level := l }]) ∧
      (l ≠ 0 ↔
        composite_level (with_pending g s (decide (level ≠ 0)))
          ((g.gic_irqs s).map_pin &&& 0x3F) v = true) := by
  have hlo : ¬ ((v : Int) < 0) := by omega
  have hhi2 : ¬ ((g.num_cpu : Int) ≤ (v : Int)) := by omega
  by_cases hl : level ≠ 0
  · refine ⟨level, ?_, ?_⟩
    · simp [gic_set_irq, with_pending, hs, hen, hl, hv, hlo, hhi2]
    · simp only [hl, ne_eq, not_false_eq_true, true_iff, composite_level, Bool.or_eq_true]
      left
      rw [source_level_iff]
      exact ⟨s, hs, by simp [with_pending, hen], by simp [with_pending],
        by simp [with_pending, hv], by simp [with_pending, hl]⟩
  · have hl0 : level = 0 := by simpa using hl
    subst hl0
    refine ⟨((if (g.gic_vpe_compare_map v &&& 0x3f) = ((g.gic_irqs s).map_pin &&& 0x3f) ∧
              g.gic_vpe_mask v &&& GIC_VPE_SMASK_CMP_MSK ≠ 0 then
            gic_set_irq_loop (with_pending g s false) ((g.gic_irqs s).map_pin &&& 0x3f)
                (v : Int) 0 g.num_irq 0 ||| ((g.gic_vpe_pend v >>> 1) &&& 1)
          else
            gic_set_irq_loop (with_pending g s false) ((g.gic_irqs s).map_pin &&& 0x3f)
                (v : Int) 0 g.num_irq 0 : Nat) : Int), ?_, ?_⟩
    · simp [gic_set_irq, with_pending, hs, hen, hv, hlo, hhi2]
    · have hloop := source_level_loop (with_pending g s false)
        ((g.gic_irqs s).map_pin &&& 0x3f) v
      have hmask := and_two_ne_zero (g.gic_vpe_mask v)
      have hpend := shr_one_and_one_ne_zero (g.gic_vpe_pend v)
      have hcmp : GIC_VPE_SMASK_CMP_MSK = 2 := rfl
      have hn : (with_pending g s false).num_irq = g.num_irq := rfl
      rw [hn] at hloop
      rw [hcmp]
      simp only [ne_eq, not_true_eq_false, decide_False, Nat.cast_eq_zero, composite_level,
        Bool.or_eq_true]
      rw [compare_level_iff]
      have hc1 : (with_pending g s false).gic_vpe_compare_map = g.gic_vpe_compare_map := rfl
      have hc2 : (with_pending g s false).gic_vpe_mask = g.gic_vpe_mask := rfl
      have hc3 : (with_pending g s false).gic_vpe_pend = g.gic_vpe_pend := rfl
      rw [hc1, hc2, hc3]
      split
      · next hc =>
        rw [← ne_eq, lor_ne_zero, hloop, hpend]
        simp only [hc.1, hmask.mp hc.2, true_and]
      · next hc =>
        rw [← ne_eq, hloop]
        have : ¬ (g.gic_vpe_compare_map v &&& 0x3F = (g.gic_irqs s).map_pin &&& 0x3F ∧
          (g.gic_vpe_mask v).testBit 1 = true ∧ (g.gic_vpe_pend v).testBit 1 = true) := by
          rintro ⟨h1, h2, _⟩
          exact hc ⟨h1, hmask.mpr h2⟩
        simp only [this, or_false]

/-- C1: for an enabled source `s` (below `num_irq`) whose `map_vpe[s]` lies in
`[0, num_cpu)`, `gic_set_irq g s level` performs exactly one pin actuation, on pin
`(map_pin[s] & 0x3F) + 2` of CPU `map_vpe[s]`, and the level it drives is non-zero if and
only if, in the state with `pending[s]` updated, some enabled source mapped to the same
pin and VPE is pending, or `compare_map[vpe]` has that pin in its pin field while bit 1
of `mask[vpe]` and bit 1 of `pend[vpe]` are set. -/
theorem gic_set_irq_drives_composite (g : MIPSGICState) (s : Nat) (level : Int)
    (hs : s < g.num_irq) (hen : (g.gic_irqs s).enabled = true)
    (hlo : 0 ≤ (g.gic_irqs s).map_vpe) (hhi : (g.gic_irqs s).map_vpe < g.num_cpu) :
    ∃ l : Int,
      gic_set_irq g s level =
        some (with_pending g s (decide (level ≠ 0)),
          [{ cpu := (g.gic_irqs s).map_vpe.toNat,
             pin := ((g.gic_irqs s).map_pin &&& 0x3F) + 2, level := l }]) ∧
      (l ≠ 0 ↔
        (∃ i, i < g.num_irq ∧
          ((with_pending g s (decide (level ≠ 0))).gic_irqs i).enabled = true ∧
          ((with_pending g s (decide (level ≠ 0))).gic_irqs i).map_pin &&& 0x3F =
            (g.gic_irqs s).map_pin &&& 0x3F ∧
          ((with_pending g s (decide (level ≠ 0))).gic_irqs i).map_vpe =
            (g.gic_irqs s).map_vpe ∧
          ((with_pending g s (decide (level ≠ 0))).gic_irqs i).pending = true) ∨
        (g.gic_vpe_compare_map (g.gic_irqs s).map_vpe.toNat &&& 0x3F =
            (g.gic_irqs s).map_pin &&& 0x3F ∧
          (g.gic_vpe_mask (g.gic_irqs s).map_vpe.toNat).testBit 1 = true ∧
          (g.gic_vpe_pend (g.gic_irqs s).map_vpe.toNat).testBit 1 = true)) := by
  have hv : (g.gic_irqs s).map_vpe = ((g.gic_irqs s).map_vpe.toNat : Int) :=
    (Int.toNat_of_nonneg hlo).symm
  have hv2 : (g.gic_irqs s).map_vpe.toNat < g.num_cpu := by omega
  obtain ⟨l, h1, h2⟩ := gic_set_irq_routed g s level _ hs hen hv hv2
  refine ⟨l, h1, ?_⟩
  rw [h2, composite_level, Bool.or_eq_true, source_level_iff, compare_level_iff, ← hv]
  rfl

/-- C1 at the two sources of `ex_routing`: with source 4 pending, deasserting source 3
still drives pin 7 of CPU 1, once. -/
theorem gic_set_irq_drives_composite_witness :
    ∃ l : Int,
      gic_set_irq (with_pending ex_routing 4 true) 3 0 =
        some (with_pending (with_pending ex_routing 4 true) 3 false,
          [{ cpu := 1, pin := 7, level := l }]) ∧ l ≠ 0 := by
  obtain ⟨l, h1, h2⟩ := gic_set_irq_drives_composite (with_pending ex_routing 4 true) 3 0
    (by decide) (by decide) (by decide) (by decide)
  refine ⟨l, h1, h2.mpr (Or.inl ⟨4, by decide, by decide, by decide, by decide, by decide⟩)⟩

/-- C3: for a source `s` of the table whose `enabled` flag is false, `gic_set_irq g s level`
actuates no pin (the list of actuations is empty) and returns the state in which only
`pending[s]` has changed, to `level != 0`: every other field of the controller and of
the entry `s`, and every other entry of the source table, is the one of `g`. -/
theorem gic_set_irq_disabled (g : MIPSGICState) (s : Nat) (level : Int)
    (hs : s < g.num_irq) (hen : (g.gic_irqs s).enabled = false) :
    gic_set_irq g s level =
      some ({ g with
        gic_irqs := Function.update g.gic_irqs s
          { g.gic_irqs s with pending := decide (level ≠ 0) } }, []) := by
  simp [gic_set_irq, hs, hen]

/-- C3 at source 0 of `ex_routing`, which is disabled: asserting it drives nothing. -/
theorem gic_set_irq_disabled_witness :
    gic_set_irq ex_routing 0 1 =
      some ({ ex_routing with
        gic_irqs := Function.update ex_routing.gic_irqs 0
          { ex_routing.gic_irqs 0 with pending := true } }, []) :=
  gic_set_irq_disabled ex_routing 0 1 (by decide) (by decide)

/-! ## Invariant I6: what the composite level depends on -/

theorem same_routing_refl (g : MIPSGICState) : same_routing g g :=
  ⟨rfl, rfl, fun _ => ⟨rfl, rfl, rfl, rfl⟩, rfl, rfl, rfl⟩

theorem same_routing_trans {g g1 g2 : MIPSGICState} (h1 : same_routing g g1)
    (h2 : same_routing g1 g2) : same_routing g g2 := by
  obtain ⟨a1, a2, a3, a4, a5, a6⟩ := h1
  obtain ⟨b1, b2, b3, b4, b5, b6⟩ := h2
  refine ⟨b1.trans a1, b2.trans a2, fun i => ?_, b4.trans a4, b5.trans a5, b6.trans a6⟩
  obtain ⟨c1, c2, c3, c4⟩ := a3 i
  obtain ⟨d1, d2, d3, d4⟩ := b3 i
  exact ⟨d1.trans c1, d2.trans c2, d3.trans c3, d4.trans c4⟩

theorem composite_level_congr {g g1 : MIPSGICState} (h : same_routing g g1) (pin vpe : Nat) :
    composite_level g1 pin vpe = composite_level g pin vpe := by
  obtain ⟨_, a2, a3, a4, a5, a6⟩ := h
  have hs : source_level g1 pin vpe = source_level g pin vpe := by
    rw [Bool.eq_iff_iff, source_level_iff, source_level_iff, a2]
    constructor
    · rintro ⟨i, h1, h2, h3, h4, h5⟩
      obtain ⟨c1, c2, c3, c4⟩ := a3 i
      exact ⟨i, h1, c1 ▸ h2, c3 ▸ h3, c4 ▸ h4, c2 ▸ h5⟩
    · rintro ⟨i, h1, h2, h3, h4, h5⟩
      obtain ⟨c1, c2, c3, c4⟩ := a3 i
      exact ⟨i, h1, c1.symm ▸ h2, c3.symm ▸ h3, c4.symm ▸ h4, c2.symm ▸ h5⟩
  have hc : compare_level g1 pin vpe = compare_level g pin vpe := by
    simp only [compare_level, a4, a5, a6]
  rw [composite_level, composite_level, hs, hc]

theorem I6_congr {g g1 : MIPSGICState} (pins : Nat → Nat → Int) (h : same_routing g g1)
    (hI : I6 g pins) : I6 g1 pins := by
  intro vpe hv pin hp
  rw [composite_level_congr h]
  exact hI vpe (h.1 ▸ hv) pin hp

theorem drive_nil (pins : Nat → Nat → Int) : drive pins [] = pins := rfl

theorem drive_single (pins : Nat → Nat → Int) (e : PinEvent) (c p : Nat) :
    drive pins [e] c p = if c = e.cpu ∧ p = e.pin then e.level else pins c p := by
  simp only [drive, List.foldl_cons, List.foldl_nil, Function.update]
  by_cases hc : c = e.cpu
  · subst hc
    by_cases hp : p = e.pin
    · rw [hp]; simp
    · simp [hp]
  · simp [hc]

theorem drive_append (pins : Nat → Nat → Int) (a b : List PinEvent) :
    drive pins (a ++ b) = drive (drive pins a) b := by
  simp [drive, List.foldl_append]

theorem preserves_I6_of_same_routing {g g1 : MIPSGICState} (pins : Nat → Nat → Int)
    (h : same_routing g g1) : preserves_I6 g pins (some (g1, [])) := by
  intro hI g2 evs heq
  simp only [Option.some.injEq, Prod.mk.injEq] at heq
  obtain ⟨rfl, rfl⟩ := heq
  exact I6_congr pins h hI

/-! ## Invariant I6: source assertions -/

theorem with_pending_irqs_ne (g : MIPSGICState) (s : Nat) (b : Bool) (i : Nat) (h : i ≠ s) :
    (with_pending g s b).gic_irqs i = g.gic_irqs i := by
  simp [with_pending, Function.update, h]

/-- Changing `pending[s]` does not change the composite level of a pin and VPE that the
source `s` does not contribute to. -/
theorem composite_level_with_pending (g : MIPSGICState) (s : Nat) (b : Bool) (pin vpe : Nat)
    (h : ¬ ((g.gic_irqs s).enabled = true ∧ (g.gic_irqs s).map_pin &&& 0x3F = pin ∧
      (g.gic_irqs s).map_vpe = (vpe : Int))) :
    composite_level (with_pending g s b) pin vpe = composite_level g pin vpe := by
  have hs : source_level (with_pending g s b) pin vpe = source_level g pin vpe := by
    rw [Bool.eq_iff_iff, source_level_iff, source_level_iff]
    have hn : (with_pending g s b).num_irq = g.num_irq := rfl
    rw [hn]
    constructor
    · rintro ⟨i, h1, h2, h3, h4, h5⟩
      by_cases his : i = s
      · subst his
        exfalso
        apply h
        simp only [with_pending, Function.update_same] at h2 h3 h4
        exact ⟨h2, h3, h4⟩
      · rw [with_pending_irqs_ne g s b i his] at h2 h3 h4 h5
        exact ⟨i, h1, h2, h3, h4, h5⟩
    · rintro ⟨i, h1, h2, h3, h4, h5⟩
      by_cases his : i = s
      · subst his
        exact absurd ⟨h2, h3, h4⟩ h
      · refine ⟨i, h1, ?_, ?_, ?_, ?_⟩ <;> rw [with_pending_irqs_ne g s b i his] <;> assumption
  have hc : compare_level (with_pending g s b) pin vpe = compare_level g pin vpe := rfl
  rw [composite_level, composite_level, hs, hc]

/-- A source assertion on a source of the table completes and preserves I6. -/
theorem gic_set_irq_I6 (g : MIPSGICState) (pins : Nat → Nat → Int) (s : Nat) (level : Int)
    (hs : s < g.num_irq) (hI : I6 g pins) :
    ∃ g1 evs, gic_set_irq g s level = some (g1, evs) ∧ I6 g1 (drive pins evs) := by
  by_cases hen : (g.gic_irqs s).enabled = true
  · by_cases hr : 0 ≤ (g.gic_irqs s).map_vpe ∧ (g.gic_irqs s).map_vpe < g.num_cpu
    · have hv : (g.gic_irqs s).map_vpe = ((g.gic_irqs s).map_vpe.toNat : Int) :=
        (Int.toNat_of_nonneg hr.1).symm
      have hv2 : (g.gic_irqs s).map_vpe.toNat < g.num_cpu := by omega
      obtain ⟨l, h1, h2⟩ := gic_set_irq_routed g s level _ hs hen hv hv2
      refine ⟨_, _, h1, ?_⟩
      intro vpe hvpe pin hpin
      rw [drive_single]
      by_cases hsame : vpe = (g.gic_irqs s).map_vpe.toNat ∧
          pin + 2 = ((g.gic_irqs s).map_pin &&& 0x3F) + 2
      · have hp : pin = (g.gic_irqs s).map_pin &&& 0x3F := by omega
        simp only [hsame.1, hsame.2, and_self, if_true]
        rw [hp] at hsame ⊢
        exact h2
      · simp only [hsame, if_false]
        rw [composite_level_with_pending]
        · exact hI vpe hvpe pin hpin
        · rintro ⟨_, h4, h5⟩
          apply hsame
          constructor
          · rw [h5]; simp
          · rw [h4]
    · refine ⟨with_pending g s (decide (level ≠ 0)), [], ?_, ?_⟩
      · have hr2 : (g.gic_irqs s).map_vpe < 0 ∨ (g.num_cpu : Int) ≤ (g.gic_irqs s).map_vpe := by
          by_contra hc
          push_neg at hc
          exact hr ⟨hc.1, hc.2⟩
        simp [gic_set_irq, with_pending, hs, hen, hr2]
      · intro vpe hvpe pin hpin
        rw [drive_nil, composite_level_with_pending]
        · exact hI vpe hvpe pin hpin
        · rintro ⟨_, _, h5⟩
          apply hr
          rw [h5]
          constructor
          · omega
          · exact_mod_cast hvpe
  · refine ⟨with_pending g s (decide (level ≠ 0)), [], ?_, ?_⟩
    · simp [gic_set_irq, with_pending, hs, hen]
    · intro vpe hvpe pin hpin
      rw [drive_nil, composite_level_with_pending]
      · exact hI vpe hvpe pin hpin
      · rintro ⟨h3, _, _⟩
        exact hen h3

theorem gic_set_irq_preserves_I6 (g : MIPSGICState) (pins : Nat → Nat → Int) (s : Nat)
    (level : Int) : preserves_I6 g pins (gic_set_irq g s level) := by
  intro hI g1 evs heq
  by_cases hs : s < g.num_irq
  · obtain ⟨g2, evs2, h1, h2⟩ := gic_set_irq_I6 g pins s level hs hI
    rw [h1] at heq
    simp only [Option.some.injEq, Prod.mk.injEq] at heq
    obtain ⟨rfl, rfl⟩ := heq
    exact h2
  · simp [gic_set_irq, hs] at heq

/-! ## Timer expiry -/

theorem or_two_and_two (p m : Nat) : (p ||| 2) &&& (m &&& 2) = m &&& 2 := by
  have h2 : (2 : Nat) = 2 ^ 1 := rfl
  apply Nat.eq_of_testBit_eq
  intro i
  simp only [Nat.testBit_and, Nat.testBit_or]
  rw [h2, Nat.testBit_two_pow]
  by_cases hi : 1 = i
  · subst hi; simp
  · simp [hi]

/-- The result of `gic_vpe_timer_expire`, with the test on `pend & (mask & CMP_MSK)`
reduced to bit 1 of `mask`. -/
theorem gic_vpe_timer_expire_eq (g : MIPSGICState) (now v : Nat) :
    gic_vpe_timer_expire g now v =
      if (g.gic_vpe_mask v).testBit 1 = true ∧ g.gic_vpe_compare_map v &&& 0x80000000 ≠ 0 then
        ({ (gic_vpe_timer_update g now v).1 with
            gic_vpe_pend := Function.update g.gic_vpe_pend v (g.gic_vpe_pend v ||| 2)
            timer_irq := Function.update g.timer_irq v 1 },
          [{ cpu := v, pin := (g.gic_vpe_compare_map v &&& 0x3F) + 2, level := 1 }])
      else
        ({ (gic_vpe_timer_update g now v).1 with
            gic_vpe_pend := Function.update g.gic_vpe_pend v (g.gic_vpe_pend v ||| 2) }, []) := by
  have h1 : (1 <<< 1 : Nat) = 2 := rfl
  have hm := and_two_ne_zero (g.gic_vpe_mask v)
  simp only [gic_vpe_timer_expire, gic_vpe_timer_update, timer_mod, GIC_VPE_SMASK_CMP_MSK, h1,
    Function.update_same, or_two_and_two]
  by_cases hb : (g.gic_vpe_mask v).testBit 1 = true
  · have hb2 := hm.mpr hb
    by_cases hv : g.gic_vpe_compare_map v &&& 0x80000000 ≠ 0
    · simp [hb, hb2, hv]
    · simp [hb, hb2, hv]
  · have hb2 : ¬ (g.gic_vpe_mask v &&& 2 ≠ 0) := fun h => hb (hm.mp h)
    simp [hb, hb2]

theorem or_two_testBit_one (p : Nat) : (p ||| 2).testBit 1 = true := by
  have h2 : (2 : Nat) = 2 ^ 1 := rfl
  rw [Nat.testBit_or, h2, Nat.testBit_two_pow]
  simp

theorem gic_vpe_timer_expire_events (g : MIPSGICState) (now v : Nat) :
    (gic_vpe_timer_expire g now v).2 =
      if (g.gic_vpe_mask v).testBit 1 = true ∧ g.gic_vpe_compare_map v &&& 0x80000000 ≠ 0 then
        [{ cpu := v, pin := (g.gic_vpe_compare_map v &&& 0x3F) + 2, level := 1 }]
      else [] := by
  rw [gic_vpe_timer_expire_eq]
  split <;> rfl

theorem gic_vpe_timer_expire_num_cpu (g : MIPSGICState) (now v : Nat) :
    (gic_vpe_timer_expire g now v).1.num_cpu = g.num_cpu := by
  rw [gic_vpe_timer_expire_eq]
  split <;> rfl

theorem gic_vpe_timer_expire_composite (g : MIPSGICState) (now v pin vpe : Nat) :
    composite_level (gic_vpe_timer_expire g now v).1 pin vpe =
      (source_level g pin vpe ||
        ((g.gic_vpe_compare_map vpe &&& 0x3F) == pin && (g.gic_vpe_mask vpe).testBit 1 &&
          (if vpe = v then true else (g.gic_vpe_pend vpe).testBit 1))) := by
  rw [gic_vpe_timer_expire_eq]
  by_cases hvv : vpe = v
  · subst hvv
    have h21 : Nat.testBit 2 1 = true := by decide
    split <;>
      simp [composite_level, compare_level, source_level, gic_vpe_timer_update, timer_mod,
        h21]
  · split <;>
      simp [composite_level, compare_level, source_level, gic_vpe_timer_update, timer_mod,
        Function.update, hvv]

/-- The timer expiry of VPE `v` preserves I6 when `compare_map[v]` is valid or bit 1 of
`mask[v]` is clear. -/
theorem gic_vpe_timer_expire_I6 (g : MIPSGICState) (pins : Nat → Nat → Int) (now v : Nat)
    (h : g.gic_vpe_compare_map v &&& 0x80000000 ≠ 0 ∨ (g.gic_vpe_mask v).testBit 1 = false)
    (hI : I6 g pins) :
    I6 (gic_vpe_timer_expire g now v).1 (drive pins (gic_vpe_timer_expire g now v).2) := by
  intro vpe hvpe pin hpin
  rw [gic_vpe_timer_expire_num_cpu] at hvpe
  rw [gic_vpe_timer_expire_composite, gic_vpe_timer_expire_events]
  have hI2 := hI vpe hvpe pin hpin
  simp only [composite_level, compare_level] at hI2
  by_cases hb : (g.gic_vpe_mask v).testBit 1 = true
  · have hv : g.gic_vpe_compare_map v &&& 0x80000000 ≠ 0 := by
      rcases h with h | h
      · exact h
      · rw [hb] at h; cases h
    rw [if_pos ⟨hb, hv⟩, drive_single]
    by_cases hsame : vpe = v ∧ pin + 2 = (g.gic_vpe_compare_map v &&& 0x3F) + 2
    · obtain ⟨rfl, hp⟩ := hsame
      have hp2 : pin = g.gic_vpe_compare_map vpe &&& 0x3F := by omega
      simp [hp2, hb]
    · simp only [hsame, if_false]
      rw [hI2]
      by_cases hvv : vpe = v
      · subst hvv
        have hp2 : ¬ (g.gic_vpe_compare_map vpe &&& 0x3F = pin) := by
          intro hc
          apply hsame
          exact ⟨rfl, by omega⟩
        simp [hp2]
      · simp [hvv]
  · have hn : ¬ ((g.gic_vpe_mask v).testBit 1 = true ∧
        g.gic_vpe_compare_map v &&& 0x80000000 ≠ 0) := fun hc => hb hc.1
    rw [if_neg hn, drive_nil, hI2]
    by_cases hvv : vpe = v
    · subst hvv
      simp [hb]
    · simp [hvv]

theorem same_routing_counterlo (g : MIPSGICState) (c : Nat) :
    same_routing g { g with gic_sh_counterlo := c } :=
  ⟨rfl, rfl, fun _ => ⟨rfl, rfl, rfl, rfl⟩, rfl, rfl, rfl⟩

theorem gic_vpe_timer_cb_eq (g : MIPSGICState) (now v : Nat) :
    gic_vpe_timer_cb g now v =
      ({ (gic_vpe_timer_expire
            { g with gic_sh_counterlo := u32 (g.gic_sh_counterlo + 1) } now v).1 with
          gic_sh_counterlo := sub32 (gic_vpe_timer_expire
            { g with gic_sh_counterlo := u32 (g.gic_sh_counterlo + 1) } now v).1.gic_sh_counterlo 1 },
        (gic_vpe_timer_expire
          { g with gic_sh_counterlo := u32 (g.gic_sh_counterlo + 1) } now v).2) := by
  simp only [gic_vpe_timer_cb]

/-- The timer callback of VPE `v` preserves I6 under the same condition. -/
theorem gic_vpe_timer_cb_I6 (g : MIPSGICState) (pins : Nat → Nat → Int) (now v : Nat)
    (h : g.gic_vpe_compare_map v &&& 0x80000000 ≠ 0 ∨ (g.gic_vpe_mask v).testBit 1 = false)
    (hI : I6 g pins) :
    I6 (gic_vpe_timer_cb g now v).1 (drive pins (gic_vpe_timer_cb g now v).2) := by
  have h2 := gic_vpe_timer_expire_I6
    { g with gic_sh_counterlo := u32 (g.gic_sh_counterlo + 1) } pins now v h
    (I6_congr pins (same_routing_counterlo g _) hI)
  rw [gic_vpe_timer_cb_eq]
  exact I6_congr _ (same_routing_counterlo _ _) h2

/-! ## Invariant I6: register writes that leave the composite level alone -/

theorem same_routing_foldl {α : Type} (f : MIPSGICState → α → MIPSGICState)
    (hf : ∀ g a, same_routing g (f g a)) (l : List α) :
    ∀ g, same_routing g (l.foldl f g) := by
  induction l with
  | nil => intro g; exact same_routing_refl g
  | cons a l ih =>
    intro g
    rw [List.foldl_cons]
    exact same_routing_trans (hf g a) (ih (f g a))

theorem same_routing_foldlM {α : Type} (f : MIPSGICState → α → Option MIPSGICState)
    (hf : ∀ g a g1, f g a = some g1 → same_routing g g1) (l : List α) :
    ∀ g g1, l.foldlM f g = some g1 → same_routing g g1 := by
  induction l with
  | nil =>
    intro g g1 h
    simp only [List.foldlM_nil, Option.pure_def, Option.some.injEq] at h
    subst h
    exact same_routing_refl g
  | cons a l ih =>
    intro g g1 h
    rw [List.foldlM_cons] at h
    cases hfa : f g a with
    | none => rw [hfa] at h; simp at h
    | some g2 =>
      rw [hfa] at h
      simp only [Option.bind_eq_bind, Option.some_bind] at h
      exact same_routing_trans (hf g a g2 hfa) (ih g2 g1 h)

theorem same_routing_timer_mod (g : MIPSGICState) (v d : Nat) :
    same_routing g (timer_mod g v d) :=
  ⟨rfl, rfl, fun _ => ⟨rfl, rfl, rfl, rfl⟩, rfl, rfl, rfl⟩

theorem same_routing_timer_del (g : MIPSGICState) (v : Nat) :
    same_routing g (timer_del g v) :=
  ⟨rfl, rfl, fun _ => ⟨rfl, rfl, rfl, rfl⟩, rfl, rfl, rfl⟩

theorem same_routing_timer_update (g : MIPSGICState) (now v : Nat) :
    same_routing g (gic_vpe_timer_update g now v).1 := by
  simp only [gic_vpe_timer_update]
  exact same_routing_timer_mod g v _

theorem same_routing_update_all_timers (g : MIPSGICState) (now : Nat) :
    same_routing g (gic_update_all_timers g now) := by
  unfold gic_update_all_timers
  exact same_routing_foldl _ (fun g a => same_routing_timer_update g now a) _ g

theorem same_routing_store_sh_count (g : MIPSGICState) (now count : Nat) :
    same_routing g (gic_store_sh_count g now count) := by
  unfold gic_store_sh_count
  split
  · exact same_routing_counterlo g _
  · exact same_routing_trans (same_routing_counterlo g _) (same_routing_update_all_timers _ now)

theorem same_routing_stop_count (g : MIPSGICState) (now : Nat) :
    same_routing g (gic_timer_stop_count g now) := by
  unfold gic_timer_stop_count
  exact same_routing_trans (same_routing_counterlo g _)
    (same_routing_foldl _ same_routing_timer_del _ _)

theorem same_routing_config (g : MIPSGICState) (c : Nat) :
    same_routing g { g with gic_gl_config := c } :=
  ⟨rfl, rfl, fun _ => ⟨rfl, rfl, rfl, rfl⟩, rfl, rfl, rfl⟩

theorem same_routing_start_count (g : MIPSGICState) (now : Nat) :
    same_routing g (gic_timer_start_count g now) := by
  unfold gic_timer_start_count
  exact same_routing_store_sh_count g now _

theorem same_routing_write_config (g : MIPSGICState) (now data : Nat) :
    same_routing g (gic_write_config g now data) := by
  unfold gic_write_config
  simp only
  split_ifs <;>
    first
    | exact same_routing_config g _
    | exact same_routing_trans (same_routing_config g _) (same_routing_stop_count _ now)
    | exact same_routing_trans (same_routing_config g _) (same_routing_start_count _ now)
    | exact same_routing_trans (same_routing_config g _)
        (same_routing_trans (same_routing_stop_count _ now) (same_routing_start_count _ now))

theorem same_routing_irq_update (g g1 : MIPSGICState) (idx : Nat)
    (f : MIPSGICIRQState → MIPSGICIRQState)
    (hf : ∀ q, (f q).enabled = q.enabled ∧ (f q).pending = q.pending ∧
      (f q).map_pin = q.map_pin ∧ (f q).map_vpe = q.map_vpe)
    (h : irq_update g idx f = some g1) : same_routing g g1 := by
  unfold irq_update at h
  split at h
  · simp only [Option.some.injEq] at h
    subst h
    refine ⟨rfl, rfl, fun i => ?_, rfl, rfl, rfl⟩
    by_cases hi : i = idx
    · subst hi
      simp only [Function.update_same]
      exact hf _
    · simp [Function.update_noteq hi]
  · simp at h

theorem same_routing_write_bank (g g1 : MIPSGICState)
    (f : MIPSGICIRQState → Bool → MIPSGICIRQState)
    (hf : ∀ q b, (f q b).enabled = q.enabled ∧ (f q b).pending = q.pending ∧
      (f q b).map_pin = q.map_pin ∧ (f q b).map_vpe = q.map_vpe)
    (base data size : Nat) (h : gic_write_bank g f base data size = some g1) :
    same_routing g g1 := by
  unfold gic_write_bank at h
  refine same_routing_foldlM _ ?_ _ g g1 h
  intro g2 i g3 h3
  exact same_routing_irq_update g2 g3 _ _ (fun q => hf q _) h3

/-- A write to a per-VPE register other than RMASK, SMASK, COMPARE_MAP and COMPARE_LO
actuates no pin and changes no input of the composite level. -/
theorem gic_write_vpe_neutral (L : GicHeader) (g : MIPSGICState) (now v addr data : Nat)
    (h : (gic_write_vpe_case L addr).composite_neutral = true) :
    same_routing g (gic_write_vpe L g now v addr data).1 ∧
      (gic_write_vpe L g now v addr data).2 = [] := by
  unfold gic_write_vpe
  cases hc : gic_write_vpe_case L addr <;> rw [hc] at h <;>
    simp only [VpeCase.composite_neutral] at h <;>
    first
    | exact absurd h (by decide)
    | exact ⟨same_routing_refl g, rfl⟩
    | exact ⟨⟨rfl, rfl, fun _ => ⟨rfl, rfl, rfl, rfl⟩, rfl, rfl, rfl⟩, rfl⟩
    | (simp only; split <;> exact ⟨same_routing_refl g, rfl⟩)

/-- The two VPE windows, when the address reaches a neutral register in each. -/
theorem gic_write_zones_neutral (L : GicHeader) (g : MIPSGICState) (now v addr data : Nat)
    (h1 : (L.GIC_VPELOCAL_BASE_ADDR ≤ addr ∧ addr < L.GIC_VPEOTHER_BASE_ADDR) →
      (gic_write_vpe_case L (addr - L.GIC_VPELOCAL_BASE_ADDR)).composite_neutral = true)
    (h2 : (L.GIC_VPEOTHER_BASE_ADDR ≤ addr ∧ addr < L.GIC_USERMODE_BASE_ADDR) →
      (gic_write_vpe_case L (addr - L.GIC_VPEOTHER_BASE_ADDR)).composite_neutral = true) :
    same_routing g (gic_write_zones L g now v addr data).1 ∧
      (gic_write_zones L g now v addr data).2 = [] := by
  unfold gic_write_zones
  by_cases c1 : L.GIC_VPELOCAL_BASE_ADDR ≤ addr ∧ addr < L.GIC_VPEOTHER_BASE_ADDR
  · by_cases c2 : L.GIC_VPEOTHER_BASE_ADDR ≤ addr ∧ addr < L.GIC_USERMODE_BASE_ADDR
    · simp only [if_pos c1, if_pos c2]
      have a := gic_write_vpe_neutral L g now v (addr - L.GIC_VPELOCAL_BASE_ADDR) data (h1 c1)
      have b := gic_write_vpe_neutral L
        (gic_write_vpe L g now v (addr - L.GIC_VPELOCAL_BASE_ADDR) data).1 now
        ((gic_write_vpe L g now v (addr - L.GIC_VPELOCAL_BASE_ADDR) data).1.gic_vpe_other_addr v)
        (addr - L.GIC_VPEOTHER_BASE_ADDR) data (h2 c2)
      exact ⟨same_routing_trans a.1 b.1, by rw [a.2, b.2]; rfl⟩
    · simp only [if_pos c1, if_neg c2]
      have a := gic_write_vpe_neutral L g now v (addr - L.GIC_VPELOCAL_BASE_ADDR) data (h1 c1)
      exact ⟨a.1, by rw [a.2]; rfl⟩
  · by_cases c2 : L.GIC_VPEOTHER_BASE_ADDR ≤ addr ∧ addr < L.GIC_USERMODE_BASE_ADDR
    · simp only [if_neg c1, if_pos c2]
      have b := gic_write_vpe_neutral L g now (g.gic_vpe_other_addr v)
        (addr - L.GIC_VPEOTHER_BASE_ADDR) data (h2 c2)
      exact ⟨b.1, by rw [b.2]; rfl⟩
    · simp only [if_neg c1, if_neg c2]
      exact ⟨same_routing_refl g, rfl⟩

theorem preserves_I6_map_bank (g : MIPSGICState) (pins : Nat → Nat → Int)
    (r : Option MIPSGICState) (h : ∀ g1, r = some g1 → same_routing g g1) :
    preserves_I6 g pins (r.map (fun g1 => (g1, []))) := by
  intro hI g1 evs heq
  cases hr : r with
  | none => rw [hr] at heq; simp at heq
  | some g2 =>
    rw [hr] at heq
    simp only [Option.map_some', Option.some.injEq, Prod.mk.injEq] at heq
    obtain ⟨rfl, rfl⟩ := heq
    exact I6_congr pins (h g2 hr) hI

/-- The switch of `gic_write` preserves I6 outside the RMASK and SMASK banks. -/
theorem gic_write_switch_preserves_I6 (L : GicHeader) (g : MIPSGICState)
    (pins : Nat → Nat → Int) (now addr data size : Nat)
    (h1 : gic_write_case L addr ≠ ShCase.RMASK) (h2 : gic_write_case L addr ≠ ShCase.SMASK) :
    preserves_I6 g pins (gic_write_switch L g now addr data size) := by
  unfold gic_write_switch
  cases hc : gic_write_case L addr
  case RMASK => exact absurd hc h1
  case SMASK => exact absurd hc h2
  case CONFIG => exact preserves_I6_of_same_routing pins (same_routing_write_config g now data)
  case COUNTERLO =>
    simp only
    split
    · exact preserves_I6_of_same_routing pins (same_routing_store_sh_count g now data)
    · exact preserves_I6_of_same_routing pins (same_routing_refl g)
  case POL =>
    refine preserves_I6_map_bank g pins _ (fun g1 hg => ?_)
    refine same_routing_write_bank g g1 _ ?_ _ _ _ hg
    intro q b
    exact ⟨rfl, rfl, rfl, rfl⟩
  case TRIG =>
    refine preserves_I6_map_bank g pins _ (fun g1 hg => ?_)
    refine same_routing_write_bank g g1 _ ?_ _ _ _ hg
    intro q b
    exact ⟨rfl, rfl, rfl, rfl⟩
  case WEDGE =>
    simp only
    split
    · exact gic_set_irq_preserves_I6 g pins _ _
    · exact gic_set_irq_preserves_I6 g pins _ _
  all_goals exact preserves_I6_of_same_routing pins (same_routing_refl g)

/-- An MMIO write at an address that reaches none of the SMASK and RMASK banks,
MAP_TO_PIN, MAP_TO_VPE and the RMASK, SMASK, COMPARE_MAP and COMPARE_LO registers of a
VPE window preserves I6. -/
theorem gic_write_preserves_I6 (L : GicHeader) (g : MIPSGICState) (pins : Nat → Nat → Int)
    (now cpu_index addr data size : Nat) (h : composite_neutral L addr = true) :
    preserves_I6 g pins (gic_write L g now cpu_index addr data size) := by
  simp only [composite_neutral, Bool.and_eq_true, bne_iff_ne, ne_eq, Bool.not_eq_true',
    decide_eq_false_iff_not] at h
  obtain ⟨⟨⟨⟨⟨h1, h2⟩, h3⟩, h4⟩, h5⟩, h6⟩ := h
  intro hI g1 evs heq
  unfold gic_write at heq
  cases hsw : gic_write_switch L g now addr data size with
  | none => rw [hsw] at heq; simp at heq
  | some r =>
    obtain ⟨ga, ev1⟩ := r
    have hIa : I6 ga (drive pins ev1) :=
      gic_write_switch_preserves_I6 L g pins now addr data size h1 h2 hI ga ev1 hsw
    rw [hsw] at heq
    simp only [gic_write_map_pin, gic_write_map_vpe, if_neg h3, if_neg h4] at heq
    have hz := gic_write_zones_neutral L ga now (gic_get_current_cpu g cpu_index) addr data
      (fun c => by simpa [c] using h5) (fun c => by simpa [c] using h6)
    simp only [Option.some.injEq, Prod.mk.injEq] at heq
    obtain ⟨rfl, rfl⟩ := heq
    rw [hz.2, List.append_nil]
    exact I6_congr _ hz.1 hIa

/-- C2, as stated, fails: I6 is not preserved by (1) a timer expiry of a VPE whose
`compare_map` has the valid bit clear and whose compare mask bit is set, nor by a write
to (2) an SMASK bank, (3) an RMASK bank, (4) MAP_TO_PIN, (5) MAP_TO_VPE, (6) the VPE
SMASK register, (7) the VPE RMASK register, (8) COMPARE_MAP, (9) COMPARE_LO.  In each
case I6 holds before, the operation completes, and I6 fails after. -/
theorem I6_not_preserved :
    ¬ preserves_I6 ex_compare_invalid pins_low (some (gic_vpe_timer_cb ex_compare_invalid 0 0)) ∧
    ¬ preserves_I6 ex_masked_pending pins_low
      (gic_write mips_gic_h ex_masked_pending 0 0 mips_gic_h.GIC_SH_SMASK_31_0_OFS 8 1) ∧
    ¬ preserves_I6 ex_asserted (pin7_high 1)
      (gic_write mips_gic_h ex_asserted 0 0 mips_gic_h.GIC_SH_RMASK_31_0_OFS 8 1) ∧
    ¬ preserves_I6 ex_asserted (pin7_high 1)
      (gic_write mips_gic_h ex_asserted 0 0 (mips_gic_h.GIC_SH_MAP_TO_PIN 3) 6 4) ∧
    ¬ preserves_I6 ex_asserted (pin7_high 1)
      (gic_write mips_gic_h ex_asserted 0 0 (mips_gic_h.GIC_SH_MAP_TO_VPE_REG_OFF 3 0) 1 4) ∧
    ¬ preserves_I6 ex_compare_masked pins_low
      (gic_write mips_gic_h ex_compare_masked 0 0
        (mips_gic_h.GIC_VPELOCAL_BASE_ADDR + mips_gic_h.GIC_VPE_SMASK_OFS) 2 4) ∧
    ¬ preserves_I6 ex_compare_fired (pin7_high 0)
      (gic_write mips_gic_h ex_compare_fired 0 0
        (mips_gic_h.GIC_VPELOCAL_BASE_ADDR + mips_gic_h.GIC_VPE_RMASK_OFS) 2 4) ∧
    ¬ preserves_I6 ex_compare_fired (pin7_high 0)
      (gic_write mips_gic_h ex_compare_fired 0 0
        (mips_gic_h.GIC_VPELOCAL_BASE_ADDR + mips_gic_h.GIC_VPE_COMPARE_MAP_OFS) 0x80000006 4) ∧
    ¬ preserves_I6 ex_shared_pin (pin7_high 0)
      (gic_write mips_gic_h ex_shared_pin 0 0
        (mips_gic_h.GIC_VPELOCAL_BASE_ADDR + mips_gic_h.GIC_VPE_COMPARE_LO_OFS) 1000 4) := by
  refine ⟨?_, ?_, ?_, ?_, ?_, ?_, ?_, ?_, ?_⟩ <;>
    (intro h
     have h1 := h (by decide) _ _ rfl
     revert h1
     decide)

/-- C2, amended: invariant I6 is preserved (1) by every source assertion on a source of
the table, which completes; (2) by the timer expiry of a VPE `v`, inline or through the
timer callback, when bit 31 of `compare_map[v]` is set or bit 1 of `mask[v]` is clear;
(3) by every MMIO write that completes at an address that reaches none of the SMASK
and RMASK banks, MAP_TO_PIN, MAP_TO_VPE and the RMASK, SMASK, COMPARE_MAP and
COMPARE_LO registers of a VPE window. -/
theorem I6_preserved (L : GicHeader) (g : MIPSGICState) (pins : Nat → Nat → Int)
    (hI : I6 g pins) :
    (∀ s level, s < g.num_irq →
      ∃ g1 evs, gic_set_irq g s level = some (g1, evs) ∧ I6 g1 (drive pins evs)) ∧
    (∀ now v,
      (g.gic_vpe_compare_map v &&& 0x80000000 ≠ 0 ∨ (g.gic_vpe_mask v).testBit 1 = false) →
      I6 (gic_vpe_timer_expire g now v).1 (drive pins (gic_vpe_timer_expire g now v).2) ∧
      I6 (gic_vpe_timer_cb g now v).1 (drive pins (gic_vpe_timer_cb g now v).2)) ∧
    (∀ now cpu_index addr data size g1 evs, composite_neutral L addr = true →
      gic_write L g now cpu_index addr data size = some (g1, evs) → I6 g1 (drive pins evs)) := by
  refine ⟨?_, ?_, ?_⟩
  · intro s level hs
    exact gic_set_irq_I6 g pins s level hs hI
  · intro now v h
    exact ⟨gic_vpe_timer_expire_I6 g pins now v h hI, gic_vpe_timer_cb_I6 g pins now v h hI⟩
  · intro now cpu_index addr data size g1 evs h heq
    exact gic_write_preserves_I6 L g pins now cpu_index addr data size h hI g1 evs heq

/-- C2, amended, at concrete states: deasserting source 3 of `ex_asserted`, the timer
callback of `ex_compare_fired` and a write of the count-stop bit to GIC_SH_CONFIG of
`ex_asserted` all keep I6. -/
theorem I6_preserved_witness :
    (I6 ex_asserted (pin7_high 1) ∧
      ∃ g1 evs, gic_set_irq ex_asserted 3 0 = some (g1, evs) ∧
        I6 g1 (drive (pin7_high 1) evs)) ∧
    (I6 ex_compare_fired (pin7_high 0) ∧
      I6 (gic_vpe_timer_cb ex_compare_fired 0 0).1
        (drive (pin7_high 0) (gic_vpe_timer_cb ex_compare_fired 0 0).2)) ∧
    (∃ g1 evs,
      gic_write mips_gic_h ex_asserted 0 0 mips_gic_h.GIC_SH_CONFIG_OFS 0x10000000 4 =
        some (g1, evs) ∧ I6 g1 (drive (pin7_high 1) evs)) :=
  ⟨⟨by decide, (I6_preserved mips_gic_h ex_asserted (pin7_high 1) (by decide)).1 3 0 (by decide)⟩,
   ⟨by decide,
    ((I6_preserved mips_gic_h ex_compare_fired (pin7_high 0) (by decide)).2.1 0 0
      (Or.inl (by decide))).2⟩,
   ⟨_, _, rfl,
    (I6_preserved mips_gic_h ex_asserted (pin7_high 1) (by decide)).2.2 0 0
      mips_gic_h.GIC_SH_CONFIG_OFS 0x10000000 4 _ _ (by decide) rfl⟩⟩

/-! ## The counter -/

theorem and_two_pow_ne_zero (n k : Nat) : n &&& 2 ^ k ≠ 0 ↔ n.testBit k = true := by
  constructor
  · intro h
    by_contra hb
    apply h
    apply Nat.eq_of_testBit_eq
    intro i
    rw [Nat.testBit_and, Nat.testBit_two_pow]
    by_cases hi : k = i
    · subst hi; simp [hb]
    · simp [hi]
  · intro hb h
    have h3 := congrArg (fun m => Nat.testBit m k) h
    simp only [Nat.testBit_and, hb] at h3
    rw [Nat.testBit_two_pow] at h3
    simp at h3

theorem and_bit28_ne_zero (n : Nat) : n &&& 0x10000000 ≠ 0 ↔ n.testBit 28 = true :=
  and_two_pow_ne_zero n 28

theorem and_shl28_ne_zero (n : Nat) : n &&& (1 <<< 28) ≠ 0 ↔ n.testBit 28 = true :=
  and_two_pow_ne_zero n 28

theorem and_bit31_ne_zero (n : Nat) : n &&& 0x80000000 ≠ 0 ↔ n.testBit 31 = true :=
  and_two_pow_ne_zero n 31

theorem gic_vpe_timer_expire_counterlo (g : MIPSGICState) (now v : Nat) :
    (gic_vpe_timer_expire g now v).1.gic_sh_counterlo = g.gic_sh_counterlo := by
  rw [gic_vpe_timer_expire_eq]
  split <;> rfl

theorem gic_get_sh_count_body_counterlo (now : Nat) (acc : MIPSGICState × List PinEvent)
    (i : Nat) :
    (gic_get_sh_count_body now acc i).1.gic_sh_counterlo = acc.1.gic_sh_counterlo := by
  unfold gic_get_sh_count_body
  split
  · exact gic_vpe_timer_expire_counterlo acc.1 now i
  · rfl

theorem gic_get_sh_count_loop_counterlo (now : Nat) (l : List Nat) :
    ∀ acc : MIPSGICState × List PinEvent,
      (l.foldl (gic_get_sh_count_body now) acc).1.gic_sh_counterlo = acc.1.gic_sh_counterlo := by
  induction l with
  | nil => intro acc; rfl
  | cons a l ih =>
    intro acc
    rw [List.foldl_cons, ih, gic_get_sh_count_body_counterlo]

/-- The count returned while the counter runs, and the counter base after the read. -/
theorem gic_get_sh_count_running (g : MIPSGICState) (now : Nat)
    (hrun : g.gic_gl_config.testBit 28 = false) :
    (gic_get_sh_count g now).1 = (g.gic_sh_counterlo + now / 10) % 2 ^ 32 ∧
      (gic_get_sh_count g now).2.1.gic_sh_counterlo = g.gic_sh_counterlo := by
  have hc : ¬ (g.gic_gl_config &&& (1 <<< 28) ≠ 0) := by
    rw [and_shl28_ne_zero, hrun]; decide
  unfold gic_get_sh_count
  rw [if_neg hc]
  simp only [gic_get_sh_count_loop_counterlo]
  refine ⟨?_, trivial⟩
  simp only [u32, TIMER_PERIOD]
  omega

/-- A read of GIC_SH_COUNTERLO while the counter runs. -/
theorem counterlo_read_running (L : GicHeader) (g : MIPSGICState)
    (now cpu_index size : Nat)
    (hL1 : L.GIC_SH_COUNTERLO_OFS ≠ L.GIC_SH_CONFIG_OFS)
    (hL2 : L.GIC_SH_COUNTERLO_OFS ≠ L.GIC_SH_CONFIG_OFS + 4)
    (hrun : g.gic_gl_config.testBit 28 = false) :
    ∃ g1 evs,
      gic_read L g now cpu_index L.GIC_SH_COUNTERLO_OFS size =
        some ((g.gic_sh_counterlo + now / 10) % 2 ^ 32, g1, evs) ∧
      g1.gic_sh_counterlo = g.gic_sh_counterlo := by
  have hcase : gic_read_case L L.GIC_SH_COUNTERLO_OFS = ShCase.COUNTERLO := by
    simp [gic_read_case, hL1, hL2]
  obtain ⟨h1, h2⟩ := gic_get_sh_count_running g now hrun
  refine ⟨(gic_get_sh_count g now).2.1, (gic_get_sh_count g now).2.2, ?_, h2⟩
  unfold gic_read
  rw [hcase, ← h1]

/-- C4: while the counter runs (bit 28 of the shared config clear), a read of
GIC_SH_COUNTERLO at host time `now` completes and returns
`(counter_base + now / 10) mod 2^32`, and the state after the read, in which timers
whose deadline had passed have been expired inline, has the same `counter_base`.  The
case label GIC_SH_COUNTERLO_OFS is distinct from the two labels before it. -/
theorem gic_read_counterlo_running (L : GicHeader) (g : MIPSGICState)
    (now cpu_index size : Nat)
    (hL1 : L.GIC_SH_COUNTERLO_OFS ≠ L.GIC_SH_CONFIG_OFS)
    (hL2 : L.GIC_SH_COUNTERLO_OFS ≠ L.GIC_SH_CONFIG_OFS + 4)
    (hrun : g.gic_gl_config.testBit 28 = false) :
    ∃ g1 evs,
      gic_read L g now cpu_index L.GIC_SH_COUNTERLO_OFS size =
        some ((g.gic_sh_counterlo + now / 10) % 2 ^ 32, g1, evs) ∧
      g1.gic_sh_counterlo = g.gic_sh_counterlo := by
  have hcase : gic_read_case L L.GIC_SH_COUNTERLO_OFS = ShCase.COUNTERLO := by
    simp [gic_read_case, hL1, hL2]
  obtain ⟨h1, h2⟩ := gic_get_sh_count_running g now hrun
  refine ⟨(gic_get_sh_count g now).2.1, (gic_get_sh_count g now).2.2, ?_, h2⟩
  unfold gic_read
  rw [hcase, ← h1]

/-- C4 at `ex_running` at 12345 ns: the read returns (0xFFFFFF00 + 1234) mod 2^32 = 978,
the timer of VPE 0, due at 100 ns, is expired inline (bit 1 of `pend[0]` is set), and
the counter base is still 0xFFFFFF00. -/
theorem gic_read_counterlo_running_witness :
    ∃ g1 evs,
      gic_read mips_gic_h ex_running 12345 0 mips_gic_h.GIC_SH_COUNTERLO_OFS 4 =
        some (978, g1, evs) ∧
      g1.gic_sh_counterlo = 0xFFFFFF00 ∧ g1.gic_vpe_pend 0 = 2 := by
  obtain ⟨g1, evs, h1, h2⟩ := gic_read_counterlo_running mips_gic_h ex_running 12345 0 4
    (by decide) (by decide) (by decide)
  refine ⟨g1, evs, h1, h2, ?_⟩
  have h3 : gic_read mips_gic_h ex_running 12345 0 mips_gic_h.GIC_SH_COUNTERLO_OFS 4 =
      some (gic_get_sh_count ex_running 12345) := rfl
  rw [h3] at h1
  simp only [Option.some.injEq] at h1
  have h4 : (gic_get_sh_count ex_running 12345).2.1.gic_vpe_pend 0 = 2 := by decide
  rw [h1] at h4
  exact h4

/-! ## Stopping and starting the counter -/

/-- At an address of the shared section alone, `gic_write` is its switch. -/
theorem gic_write_shared_only (L : GicHeader) (g : MIPSGICState)
    (now cpu_index addr data size : Nat) (h : L.shared_only addr) :
    gic_write L g now cpu_index addr data size = gic_write_switch L g now addr data size := by
  obtain ⟨h1, h2, h3, h4⟩ := h
  unfold gic_write
  cases gic_write_switch L g now addr data size with
  | none => rfl
  | some r =>
    obtain ⟨g1, ev1⟩ := r
    simp [gic_write_map_pin, gic_write_map_vpe, gic_write_zones, if_neg h1, if_neg h2,
      if_neg h3, if_neg h4]

theorem new_config_testBit (cfg data : Nat) :
    (u32 ((cfg &&& 0xEFFFFFFF) ||| (data &&& 0x10000000))).testBit 28 = data.testBit 28 := by
  have h1 : Nat.testBit 0xEFFFFFFF 28 = false := by decide
  have h2 : Nat.testBit 0x10000000 28 = true := by decide
  unfold u32
  rw [Nat.testBit_mod_two_pow]
  simp [h1, h2]

theorem foldl_timer_del_fields (l : List Nat) :
    ∀ g : MIPSGICState,
      (l.foldl timer_del g).gic_sh_counterlo = g.gic_sh_counterlo ∧
      (l.foldl timer_del g).gic_gl_config = g.gic_gl_config ∧
      (∀ v, v ∈ l → (l.foldl timer_del g).gic_timer v = none) ∧
      (∀ v, g.gic_timer v = none → (l.foldl timer_del g).gic_timer v = none) := by
  induction l with
  | nil =>
    intro g
    exact ⟨rfl, rfl, fun v hv => absurd hv (List.not_mem_nil v), fun v hv => hv⟩
  | cons a l ih =>
    intro g
    rw [List.foldl_cons]
    obtain ⟨h1, h2, h3, h4⟩ := ih (timer_del g a)
    refine ⟨h1, h2, ?_, ?_⟩
    · intro v hv
      rcases List.mem_cons.mp hv with rfl | hv
      · exact h4 v (by simp [timer_del])
      · exact h3 v hv
    · intro v hv
      apply h4
      by_cases hva : v = a
      · subst hva; simp [timer_del]
      · simp [timer_del, Function.update_noteq hva, hv]

theorem gic_timer_stop_count_fields (g : MIPSGICState) (now : Nat) :
    (gic_timer_stop_count g now).gic_sh_counterlo = (g.gic_sh_counterlo + now / 10) % 2 ^ 32 ∧
    (gic_timer_stop_count g now).gic_gl_config = g.gic_gl_config ∧
    (∀ v, v < g.num_cpu → (gic_timer_stop_count g now).gic_timer v = none) := by
  unfold gic_timer_stop_count
  obtain ⟨h1, h2, h3, _⟩ := foldl_timer_del_fields (List.range g.num_cpu)
    { g with gic_sh_counterlo := u32 (g.gic_sh_counterlo + u32 (now / TIMER_PERIOD)) }
  refine ⟨?_, h2, ?_⟩
  · rw [h1]
    simp only [u32, TIMER_PERIOD]
    omega
  · intro v hv
    exact h3 v (List.mem_range.mpr hv)

/-- The case GIC_SH_CONFIG_OFS when the write sets bit 28 of a running controller. -/
theorem write_config_eq_stop (g : MIPSGICState) (now data : Nat)
    (hrun : g.gic_gl_config.testBit 28 = false) (hd : data.testBit 28 = true) :
    gic_write_config g now data =
      gic_timer_stop_count
        { g with
          gic_gl_config := u32 ((g.gic_gl_config &&& 0xEFFFFFFF) ||| (data &&& 0x10000000)) }
        now := by
  have hnew := new_config_testBit g.gic_gl_config data
  rw [hd] at hnew
  have hne : g.gic_gl_config ≠
      u32 ((g.gic_gl_config &&& 0xEFFFFFFF) ||| (data &&& 0x10000000)) := by
    intro hc
    rw [← hc, hrun] at hnew
    cases hnew
  have hbit := (and_bit28_ne_zero
    (u32 ((g.gic_gl_config &&& 0xEFFFFFFF) ||| (data &&& 0x10000000)))).mpr hnew
  have hcfg := (gic_timer_stop_count_fields
    { g with
      gic_gl_config := u32 ((g.gic_gl_config &&& 0xEFFFFFFF) ||| (data &&& 0x10000000)) }
    now).2.1
  unfold gic_write_config
  simp only [ne_eq, hne, not_false_eq_true, if_true]
  rw [if_pos hbit]
  rw [if_neg]
  rw [hcfg]
  exact fun hc => hc hbit

/-- A read of GIC_SH_COUNTERLO while the counter is stopped. -/
theorem gic_read_counterlo_stopped (L : GicHeader) (g : MIPSGICState)
    (now cpu_index size : Nat)
    (hL1 : L.GIC_SH_COUNTERLO_OFS ≠ L.GIC_SH_CONFIG_OFS)
    (hL2 : L.GIC_SH_COUNTERLO_OFS ≠ L.GIC_SH_CONFIG_OFS + 4)
    (hstop : g.gic_gl_config.testBit 28 = true) :
    gic_read L g now cpu_index L.GIC_SH_COUNTERLO_OFS size =
      some (g.gic_sh_counterlo, g, []) := by
  have hcase : gic_read_case L L.GIC_SH_COUNTERLO_OFS = ShCase.COUNTERLO := by
    simp [gic_read_case, hL1, hL2]
  have hbit := (and_shl28_ne_zero g.gic_gl_config).mpr hstop
  unfold gic_read
  rw [hcase]
  simp only [gic_get_sh_count, if_pos hbit]

/-- C5: on a running controller, a write to GIC_SH_CONFIG with bit 28 of the data set at
host time `t` completes without actuating a pin, sets `counter_base` to
`(counter_base + t / 10) mod 2^32` and leaves the timer of every VPE unarmed; from then
on a read of GIC_SH_COUNTERLO at any host time returns that value and leaves the state
as it is, so every later read returns it too.  The header is assumed to put
GIC_SH_CONFIG in the shared section alone and to give GIC_SH_COUNTERLO a label distinct
from the two before it. -/
theorem gic_write_config_stop (L : GicHeader) (g : MIPSGICState)
    (t cpu_index data size : Nat)
    (hL1 : L.GIC_SH_COUNTERLO_OFS ≠ L.GIC_SH_CONFIG_OFS)
    (hL2 : L.GIC_SH_COUNTERLO_OFS ≠ L.GIC_SH_CONFIG_OFS + 4)
    (hz : L.shared_only L.GIC_SH_CONFIG_OFS)
    (hrun : g.gic_gl_config.testBit 28 = false) (hd : data.testBit 28 = true) :
    ∃ g1,
      gic_write L g t cpu_index L.GIC_SH_CONFIG_OFS data size = some (g1, []) ∧
      g1.gic_sh_counterlo = (g.gic_sh_counterlo + t / 10) % 2 ^ 32 ∧
      (∀ v, v < g.num_cpu → g1.gic_timer v = none) ∧
      (∀ t2 cpu2 size2,
        gic_read L g1 t2 cpu2 L.GIC_SH_COUNTERLO_OFS size2 =
          some ((g.gic_sh_counterlo + t / 10) % 2 ^ 32, g1, [])) := by
  have hcase : gic_write_case L L.GIC_SH_CONFIG_OFS = ShCase.CONFIG := by
    simp [gic_write_case]
  obtain ⟨h1, h2, h3⟩ := gic_timer_stop_count_fields
    { g with
      gic_gl_config := u32 ((g.gic_gl_config &&& 0xEFFFFFFF) ||| (data &&& 0x10000000)) } t
  have hnew := new_config_testBit g.gic_gl_config data
  rw [hd] at hnew
  refine ⟨gic_write_config g t data, ?_, ?_, ?_, ?_⟩
  · rw [gic_write_shared_only L g t cpu_index _ data size hz]
    unfold gic_write_switch
    rw [hcase]
  · rw [write_config_eq_stop g t data hrun hd]
    exact h1
  · rw [write_config_eq_stop g t data hrun hd]
    exact h3
  · intro t2 cpu2 size2
    rw [write_config_eq_stop g t data hrun hd] at *
    rw [← h1]
    apply gic_read_counterlo_stopped L _ t2 cpu2 size2 hL1 hL2
    rw [h2]
    exact hnew

/-- C5 at `ex_running`, stopped at 12345 ns: the frozen count is 978 and a read at
99999 ns returns it. -/
theorem gic_write_config_stop_witness :
    ∃ g1,
      gic_write mips_gic_h ex_running 12345 0 mips_gic_h.GIC_SH_CONFIG_OFS 0x10000000 4 =
        some (g1, []) ∧
      g1.gic_sh_counterlo = 978 ∧ g1.gic_timer 0 = none ∧ g1.gic_timer 1 = none ∧
      gic_read mips_gic_h g1 99999 0 mips_gic_h.GIC_SH_COUNTERLO_OFS 4 = some (978, g1, []) := by
  obtain ⟨g1, h1, h2, h3, h4⟩ := gic_write_config_stop mips_gic_h ex_running 12345 0
    0x10000000 4 (by decide) (by decide) (by decide) (by decide) (by decide)
  exact ⟨g1, h1, h2, h3 0 (by decide), h3 1 (by decide), h4 99999 0 4⟩

theorem foldl_timer_update_fields (now : Nat) (l : List Nat) :
    ∀ g : MIPSGICState,
      (l.foldl (fun g i => (gic_vpe_timer_update g now i).1) g).gic_sh_counterlo =
        g.gic_sh_counterlo ∧
      (l.foldl (fun g i => (gic_vpe_timer_update g now i).1) g).gic_gl_config =
        g.gic_gl_config := by
  induction l with
  | nil => intro g; exact ⟨rfl, rfl⟩
  | cons a l ih =>
    intro g
    rw [List.foldl_cons]
    obtain ⟨h1, h2⟩ := ih (gic_vpe_timer_update g now a).1
    exact ⟨h1, h2⟩

/-- The fields that `gic_store_sh_count` sets while the counter runs. -/
theorem gic_store_sh_count_running (g : MIPSGICState) (now count : Nat)
    (hrun : g.gic_gl_config.testBit 28 = false) :
    (gic_store_sh_count g now count).gic_sh_counterlo =
        u32 (sub64 count (u32 (now / 10))) ∧
      (gic_store_sh_count g now count).gic_gl_config = g.gic_gl_config := by
  have hc : ¬ (g.gic_gl_config &&& 0x10000000 ≠ 0) := by
    rw [and_bit28_ne_zero, hrun]; decide
  unfold gic_store_sh_count
  rw [if_neg hc]
  unfold gic_update_all_timers
  exact foldl_timer_update_fields now _ _

/-- The case GIC_SH_CONFIG_OFS when the write clears bit 28 of a stopped controller. -/
theorem write_config_eq_start (g : MIPSGICState) (now data : Nat)
    (hstop : g.gic_gl_config.testBit 28 = true) (hd : data.testBit 28 = false) :
    gic_write_config g now data =
      gic_timer_start_count
        { g with
          gic_gl_config := u32 ((g.gic_gl_config &&& 0xEFFFFFFF) ||| (data &&& 0x10000000)) }
        now := by
  have hnew := new_config_testBit g.gic_gl_config data
  rw [hd] at hnew
  have hne : g.gic_gl_config ≠
      u32 ((g.gic_gl_config &&& 0xEFFFFFFF) ||| (data &&& 0x10000000)) := by
    intro hc
    rw [← hc, hstop] at hnew
    cases hnew
  have hbit : ¬ (u32 ((g.gic_gl_config &&& 0xEFFFFFFF) ||| (data &&& 0x10000000)) &&&
      0x10000000 ≠ 0) := by
    rw [and_bit28_ne_zero, hnew]; decide
  unfold gic_write_config
  simp only [ne_eq, hne, not_false_eq_true, if_true]
  rw [if_neg hbit, if_pos hbit]

theorem sub64_u32_int (c x : Nat) :
    ((u32 (sub64 c (u32 x)) : Nat) : Int) = ((c : Int) - (x : Int)) % 2 ^ 32 := by
  simp only [u32, sub64, u64]
  omega

theorem sub64_u32_add (c x y : Nat) (h : x ≤ y) :
    (u32 (sub64 c (u32 x)) + y) % 2 ^ 32 = (c + y - x) % 2 ^ 32 := by
  simp only [u32, sub64, u64]
  omega

theorem gic_vpe_timer_expire_config (g : MIPSGICState) (now v : Nat) :
    (gic_vpe_timer_expire g now v).1.gic_gl_config = g.gic_gl_config := by
  rw [gic_vpe_timer_expire_eq]
  split <;> rfl

theorem sub32_succ_one (c : Nat) (hc : c < 2 ^ 32) : sub32 (u32 (c + 1)) 1 = c := by
  simp only [sub32, u32]
  omega

/-- The bias of the timer callback is undone: `counter_base` and the shared config are
the same after the callback. -/
theorem gic_vpe_timer_cb_counter (g : MIPSGICState) (now v : Nat)
    (hc : g.gic_sh_counterlo < 2 ^ 32) :
    (gic_vpe_timer_cb g now v).1.gic_sh_counterlo = g.gic_sh_counterlo ∧
      (gic_vpe_timer_cb g now v).1.gic_gl_config = g.gic_gl_config := by
  have e1 : ∀ (x : MIPSGICState) (c : Nat) (y : List PinEvent),
      (({ x with gic_sh_counterlo := c }, y) : MIPSGICState × List PinEvent).1.gic_sh_counterlo =
        c := fun _ _ _ => rfl
  have e2 : ∀ (x : MIPSGICState) (c : Nat) (y : List PinEvent),
      (({ x with gic_sh_counterlo := c }, y) : MIPSGICState × List PinEvent).1.gic_gl_config =
        x.gic_gl_config := fun _ _ _ => rfl
  have h1 := gic_vpe_timer_expire_counterlo
    { g with gic_sh_counterlo := u32 (g.gic_sh_counterlo + 1) } now v
  have h2 := gic_vpe_timer_expire_config
    { g with gic_sh_counterlo := u32 (g.gic_sh_counterlo + 1) } now v
  rewrite [gic_vpe_timer_cb_eq]
  constructor
  · refine (e1 _ _ _).trans ?_
    rewrite [h1]
    exact sub32_succ_one g.gic_sh_counterlo hc
  · exact (e2 _ _ _).trans h2

theorem run_timer_cbs_cons (g : MIPSGICState) (a : Nat × Nat) (l : List (Nat × Nat)) :
    run_timer_cbs g (a :: l) = run_timer_cbs (gic_vpe_timer_cb g a.1 a.2).1 l := by
  simp only [run_timer_cbs, List.foldl_cons]

theorem run_timer_cbs_counter (l : List (Nat × Nat)) :
    ∀ g : MIPSGICState, g.gic_sh_counterlo < 2 ^ 32 →
      (run_timer_cbs g l).gic_sh_counterlo = g.gic_sh_counterlo ∧
        (run_timer_cbs g l).gic_gl_config = g.gic_gl_config := by
  induction l with
  | nil => intro g _; exact ⟨rfl, rfl⟩
  | cons a l ih =>
    intro g hc
    obtain ⟨h1, h2⟩ := gic_vpe_timer_cb_counter g a.1 a.2 hc
    obtain ⟨h3, h4⟩ := ih (gic_vpe_timer_cb g a.1 a.2).1 (h1.symm ▸ hc)
    rewrite [run_timer_cbs_cons]
    exact ⟨h3.trans h1, h4.trans h2⟩

/-- C6: on a stopped controller with frozen count `c`, a write to GIC_SH_CONFIG with bit 28
of the data clear at host time `t` completes without actuating a pin and sets
`counter_base` to `(c - t / 10) mod 2^32`; a read of GIC_SH_COUNTERLO at any host time
`t2 >= t`, from the resulting state or after any run of timer callbacks in between,
returns `(c + t2 / 10 - t / 10) mod 2^32`, and a read at `t` returns `c` (a 32-bit
value).  Same assumptions on the header as for C5. -/
theorem gic_write_config_start (L : GicHeader) (g : MIPSGICState)
    (t cpu_index data size : Nat)
    (hL1 : L.GIC_SH_COUNTERLO_OFS ≠ L.GIC_SH_CONFIG_OFS)
    (hL2 : L.GIC_SH_COUNTERLO_OFS ≠ L.GIC_SH_CONFIG_OFS + 4)
    (hz : L.shared_only L.GIC_SH_CONFIG_OFS)
    (hstop : g.gic_gl_config.testBit 28 = true) (hd : data.testBit 28 = false)
    (hc : g.gic_sh_counterlo < 2 ^ 32) :
    ∃ g1,
      gic_write L g t cpu_index L.GIC_SH_CONFIG_OFS data size = some (g1, []) ∧
      (g1.gic_sh_counterlo : Int) =
        ((g.gic_sh_counterlo : Int) - ((t / 10 : Nat) : Int)) % 2 ^ 32 ∧
      (∀ cbs t2 cpu2 size2, t ≤ t2 →
        ∃ g2 evs,
          gic_read L (run_timer_cbs g1 cbs) t2 cpu2 L.GIC_SH_COUNTERLO_OFS size2 =
            some ((g.gic_sh_counterlo + t2 / 10 - t / 10) % 2 ^ 32, g2, evs)) ∧
      (∀ cpu2 size2,
        ∃ g2 evs,
          gic_read L g1 t cpu2 L.GIC_SH_COUNTERLO_OFS size2 =
            some (g.gic_sh_counterlo, g2, evs)) := by
  have hcase : gic_write_case L L.GIC_SH_CONFIG_OFS = ShCase.CONFIG := by
    simp [gic_write_case]
  have hnew := new_config_testBit g.gic_gl_config data
  rw [hd] at hnew
  have heq := write_config_eq_start g t data hstop hd
  obtain ⟨h1, h2⟩ := gic_store_sh_count_running
    { g with
      gic_gl_config := u32 ((g.gic_gl_config &&& 0xEFFFFFFF) ||| (data &&& 0x10000000)) }
    t g.gic_sh_counterlo hnew
  have hcnt : (gic_write_config g t data).gic_sh_counterlo =
      u32 (sub64 g.gic_sh_counterlo (u32 (t / 10))) := by
    rw [heq]; exact h1
  have hrun : (gic_write_config g t data).gic_gl_config.testBit 28 = false := by
    rw [heq]
    unfold gic_timer_start_count
    rw [h2]
    exact hnew
  have hlt : (gic_write_config g t data).gic_sh_counterlo < 2 ^ 32 := by
    rw [hcnt]
    exact Nat.mod_lt _ (by decide)
  have hread : ∀ cbs t2 cpu2 size2, t ≤ t2 →
      ∃ g2 evs,
        gic_read L (run_timer_cbs (gic_write_config g t data) cbs) t2 cpu2
            L.GIC_SH_COUNTERLO_OFS size2 =
          some ((g.gic_sh_counterlo + t2 / 10 - t / 10) % 2 ^ 32, g2, evs) := by
    intro cbs t2 cpu2 size2 ht
    obtain ⟨c1, c2⟩ := run_timer_cbs_counter cbs (gic_write_config g t data) hlt
    obtain ⟨g2, evs, h3, _⟩ := counterlo_read_running L
      (run_timer_cbs (gic_write_config g t data) cbs) t2 cpu2 size2 hL1 hL2
      (by rw [c2]; exact hrun)
    refine ⟨g2, evs, ?_⟩
    rw [h3, c1, hcnt, sub64_u32_add _ _ _ (Nat.div_le_div_right ht)]
  refine ⟨gic_write_config g t data, ?_, ?_, hread, ?_⟩
  · rw [gic_write_shared_only L g t cpu_index _ data size hz]
    unfold gic_write_switch
    rw [hcase]
  · rw [hcnt]
    exact sub64_u32_int _ _
  · intro cpu2 size2
    obtain ⟨g2, evs, h3⟩ := hread [] t cpu2 size2 (le_refl t)
    refine ⟨g2, evs, ?_⟩
    have h4 : run_timer_cbs (gic_write_config g t data) [] = gic_write_config g t data := rfl
    rw [h4] at h3
    rw [h3]
    have : (g.gic_sh_counterlo + t / 10 - t / 10) % 2 ^ 32 = g.gic_sh_counterlo := by
      rw [Nat.add_sub_cancel]
      exact Nat.mod_eq_of_lt hc
    rw [this]

/-- C6 at `ex_stopped` (frozen count 1000), restarted at 12345 ns: the counter base becomes
(1000 - 1234) mod 2^32, a read at 12345 ns returns 1000 and a read at 20000 ns, after
the timer callback of VPE 0 at 15000 ns, returns 1766. -/
theorem gic_write_config_start_witness :
    ∃ g1,
      gic_write mips_gic_h ex_stopped 12345 0 mips_gic_h.GIC_SH_CONFIG_OFS 0 4 =
        some (g1, []) ∧
      g1.gic_sh_counterlo = 4294967062 ∧
      (∃ g2 evs, gic_read mips_gic_h g1 12345 0 mips_gic_h.GIC_SH_COUNTERLO_OFS 4 =
        some (1000, g2, evs)) ∧
      (∃ g2 evs,
        gic_read mips_gic_h (run_timer_cbs g1 [(15000, 0)]) 20000 0
          mips_gic_h.GIC_SH_COUNTERLO_OFS 4 = some (1766, g2, evs)) := by
  obtain ⟨g1, h1, h2, h3, h4⟩ := gic_write_config_start mips_gic_h ex_stopped 12345 0 0 4
    (by decide) (by decide) (by decide) (by decide) (by decide) (by decide)
  refine ⟨g1, h1, ?_, h4 0 4, h3 [(15000, 0)] 20000 0 4 (by decide)⟩
  have h5 : (ex_stopped.gic_sh_counterlo : Int) = 1000 := rfl
  rw [h5] at h2
  omega

/-! ## Writing the counter -/

/-- C7, as stated, fails while the counter runs: on `ex_running` a write of 5 to
GIC_SH_COUNTERLO at 12345 ns completes, and the read of GIC_SH_COUNTERLO that follows
at the same host time returns 978, which is not 5 mod 2^32. -/
theorem counterlo_write_while_running_not_read_back :
    ∃ g1 evs r,
      gic_write mips_gic_h ex_running 12345 0 mips_gic_h.GIC_SH_COUNTERLO_OFS 5 4 =
        some (g1, evs) ∧
      gic_read mips_gic_h g1 12345 0 mips_gic_h.GIC_SH_COUNTERLO_OFS 4 = some r ∧
      r.1 = 978 ∧ r.1 ≠ 5 % 2 ^ 32 :=
  ⟨_, _, _, rfl, rfl, by decide, by decide⟩

/-- C7, amended: on a stopped controller, a write of `V` to GIC_SH_COUNTERLO completes
without actuating a pin and a read of GIC_SH_COUNTERLO that follows, at any host time,
returns `V mod 2^32`; on a running controller the write is ignored: it returns the
state unchanged, so that the read that follows at the same host time `t` returns
`(counter_base + t / 10) mod 2^32`.  The header is assumed to put GIC_SH_COUNTERLO in
the shared section alone, under a label distinct from the two before it. -/
theorem counterlo_write_read (L : GicHeader) (g : MIPSGICState)
    (t cpu_index V size : Nat)
    (hL1 : L.GIC_SH_COUNTERLO_OFS ≠ L.GIC_SH_CONFIG_OFS)
    (hL2 : L.GIC_SH_COUNTERLO_OFS ≠ L.GIC_SH_CONFIG_OFS + 4)
    (hz : L.shared_only L.GIC_SH_COUNTERLO_OFS) :
    (g.gic_gl_config.testBit 28 = true →
      ∃ g1,
        gic_write L g t cpu_index L.GIC_SH_COUNTERLO_OFS V size = some (g1, []) ∧
        ∀ t2 cpu2 size2,
          gic_read L g1 t2 cpu2 L.GIC_SH_COUNTERLO_OFS size2 = some (V % 2 ^ 32, g1, [])) ∧
    (g.gic_gl_config.testBit 28 = false →
      gic_write L g t cpu_index L.GIC_SH_COUNTERLO_OFS V size = some (g, []) ∧
      ∀ cpu2 size2, ∃ g2 evs,
        gic_read L g t cpu2 L.GIC_SH_COUNTERLO_OFS size2 =
          some ((g.gic_sh_counterlo + t / 10) % 2 ^ 32, g2, evs)) := by
  have hcase : gic_write_case L L.GIC_SH_COUNTERLO_OFS = ShCase.COUNTERLO := by
    simp [gic_write_case, hL1, hL2]
  constructor
  · intro hstop
    have hbit := (and_bit28_ne_zero g.gic_gl_config).mpr hstop
    refine ⟨{ g with gic_sh_counterlo := u32 V }, ?_, ?_⟩
    · rw [gic_write_shared_only L g t cpu_index _ V size hz]
      unfold gic_write_switch
      rw [hcase]
      simp only [if_pos hbit, gic_store_sh_count]
    · intro t2 cpu2 size2
      exact gic_read_counterlo_stopped L { g with gic_sh_counterlo := u32 V } t2 cpu2 size2
        hL1 hL2 hstop
  · intro hrun
    have hbit : ¬ (g.gic_gl_config &&& 0x10000000 ≠ 0) := by
      rw [and_bit28_ne_zero, hrun]; decide
    constructor
    · rw [gic_write_shared_only L g t cpu_index _ V size hz]
      unfold gic_write_switch
      rw [hcase]
      simp only [if_neg hbit]
    · intro cpu2 size2
      obtain ⟨g2, evs, h3, _⟩ := counterlo_read_running L g t cpu2 size2 hL1 hL2 hrun
      exact ⟨g2, evs, h3⟩

/-- C7, amended, at `ex_stopped` and at `ex_running`: stopped, a write of 2^32 + 7 reads
back as 7; running, the write of 5 at 12345 ns leaves the state as it is. -/
theorem counterlo_write_read_witness :
    (∃ g1,
      gic_write mips_gic_h ex_stopped 12345 0 mips_gic_h.GIC_SH_COUNTERLO_OFS (2 ^ 32 + 7) 4 =
        some (g1, []) ∧
      gic_read mips_gic_h g1 99999 0 mips_gic_h.GIC_SH_COUNTERLO_OFS 4 = some (7, g1, [])) ∧
    gic_write mips_gic_h ex_running 12345 0 mips_gic_h.GIC_SH_COUNTERLO_OFS 5 4 =
      some (ex_running, []) := by
  constructor
  · obtain ⟨g1, h1, h2⟩ := (counterlo_write_read mips_gic_h ex_stopped 12345 0 (2 ^ 32 + 7) 4
      (by decide) (by decide) (by decide)).1 (by decide)
    exact ⟨g1, h1, h2 99999 0 4⟩
  · exact ((counterlo_write_read mips_gic_h ex_running 12345 0 5 4
      (by decide) (by decide) (by decide)).2 (by decide)).1

/-! ## Arming the compare timer -/

theorem gic_store_vpe_compare_timer (g : MIPSGICState) (now v compare : Nat) :
    (gic_store_vpe_compare g now v compare).1.gic_timer v =
      some (u64 (now + sub32 (sub32 (u32 compare) g.gic_sh_counterlo) (u32 (now / 10)) * 10)) := by
  unfold gic_store_vpe_compare
  simp only [gic_vpe_timer_update, timer_mod, Function.update_same, TIMER_PERIOD]
  split
  · split <;> simp
  · simp

theorem wait_of_compare_ahead (cb now k : Nat) (hk : k < 2 ^ 31) :
    sub32 (sub32 (u32 (((cb + now / 10) % 2 ^ 32 + k) % 2 ^ 32)) cb) (u32 (now / 10)) = k := by
  simp only [sub32, u32]
  omega

/-- C8: for `1 <= k < 2^31`, a host time `now` (a non-negative `int64_t`) and a VPE `v`,
storing `(counter(now) + k) mod 2^32` in COMPARE_LO of `v` at `now`, with
`counter(now) = (counter_base + now / 10) mod 2^32`, makes `gic_vpe_timer_update`
compute `wait = k` and leaves the timer of `v` armed at the absolute deadline
`now + 10 * k`; the COMPARE_LO case of `gic_write_vpe` is that store. -/
theorem compare_write_arms_timer (L : GicHeader) (g : MIPSGICState) (now v k off : Nat)
    (hk1 : 1 ≤ k) (hk2 : k < 2 ^ 31) (hnow : now < 2 ^ 63)
    (hoff : gic_write_vpe_case L off = VpeCase.COMPARE_LO) :
    (gic_vpe_timer_update
        { g with
          gic_vpe_comparelo := Function.update g.gic_vpe_comparelo v
            (u32 (((g.gic_sh_counterlo + now / 10) % 2 ^ 32 + k) % 2 ^ 32)) } now v).2 = k ∧
      (gic_store_vpe_compare g now v
        (((g.gic_sh_counterlo + now / 10) % 2 ^ 32 + k) % 2 ^ 32)).1.gic_timer v =
        some (now + 10 * k) ∧
      (gic_write_vpe L g now v off
        (((g.gic_sh_counterlo + now / 10) % 2 ^ 32 + k) % 2 ^ 32)).1.gic_timer v =
        some (now + 10 * k) := by
  have hw := wait_of_compare_ahead g.gic_sh_counterlo now k hk2
  have hs : (gic_store_vpe_compare g now v
      (((g.gic_sh_counterlo + now / 10) % 2 ^ 32 + k) % 2 ^ 32)).1.gic_timer v =
      some (now + 10 * k) := by
    rw [gic_store_vpe_compare_timer, hw]
    simp only [u64, Option.some.injEq]
    omega
  refine ⟨?_, hs, ?_⟩
  · simp only [gic_vpe_timer_update, Function.update_same, TIMER_PERIOD]
    exact hw
  · unfold gic_write_vpe
    rw [hoff]
    exact hs

/-- C8 at `ex_running` at 12345 ns (counter 978) with `k = 1000`: writing 1978 to
COMPARE_LO of VPE 1 arms its timer at 22345 ns, also when the write arrives as an MMIO
write of CPU 1 to the VPE-local window. -/
theorem compare_write_arms_timer_witness :
    (gic_write_vpe mips_gic_h ex_running 12345 1 mips_gic_h.GIC_VPE_COMPARE_LO_OFS
      1978).1.gic_timer 1 = some 22345 ∧
    (gic_write mips_gic_h ex_running 12345 1
      (mips_gic_h.GIC_VPELOCAL_BASE_ADDR + mips_gic_h.GIC_VPE_COMPARE_LO_OFS) 1978 4).map
      (fun r => r.1.gic_timer 1) = some (some 22345) :=
  ⟨(compare_write_arms_timer mips_gic_h ex_running 12345 1 1000
    mips_gic_h.GIC_VPE_COMPARE_LO_OFS (by decide) (by decide) (by decide) (by decide)).2.2,
   by decide⟩

/-! ## What a timer expiry does -/

theorem gic_vpe_timer_expire_pend (g : MIPSGICState) (now v : Nat) :
    (gic_vpe_timer_expire g now v).1.gic_vpe_pend v = g.gic_vpe_pend v ||| 2 := by
  rw [gic_vpe_timer_expire_eq]
  split <;> simp

theorem gic_vpe_timer_expire_timer (g : MIPSGICState) (now v : Nat) :
    (gic_vpe_timer_expire g now v).1.gic_timer v =
      some (u64 (now + sub32 (sub32 (g.gic_vpe_comparelo v) g.gic_sh_counterlo)
        (u32 (now / 10)) * 10)) := by
  rw [gic_vpe_timer_expire_eq]
  split <;> simp [gic_vpe_timer_update, timer_mod, TIMER_PERIOD]

theorem gic_vpe_timer_expire_events_valid (g : MIPSGICState) (now v : Nat) :
    (gic_vpe_timer_expire g now v).2 =
      if (g.gic_vpe_mask v).testBit 1 = true ∧ (g.gic_vpe_compare_map v).testBit 31 = true then
        [{ cpu := v, pin := (g.gic_vpe_compare_map v &&& 0x3F) + 2, level := 1 }]
      else [] := by
  rw [gic_vpe_timer_expire_events]
  simp only [and_bit31_ne_zero]

/-- C9: the timer expiry of VPE `v`, inline (`gic_vpe_timer_expire`) or through the timer
callback (`gic_vpe_timer_cb`), sets bit 1 of `pend[v]`, re-arms the timer of `v`, and
performs exactly one pin actuation, raising pin `(compare_map[v] & 0x3F) + 2` of CPU `v`,
when bit 1 of `mask[v]` and bit 31 of `compare_map[v]` are both set; in every other
case it performs no actuation. -/
theorem timer_expiry_effect (g : MIPSGICState) (now v : Nat) :
    (((gic_vpe_timer_expire g now v).1.gic_vpe_pend v).testBit 1 = true ∧
      (gic_vpe_timer_expire g now v).1.gic_timer v =
        some (u64 (now + sub32 (sub32 (g.gic_vpe_comparelo v) g.gic_sh_counterlo)
          (u32 (now / 10)) * 10)) ∧
      (gic_vpe_timer_expire g now v).2 =
        if (g.gic_vpe_mask v).testBit 1 = true ∧ (g.gic_vpe_compare_map v).testBit 31 = true
        then [{ cpu := v, pin := (g.gic_vpe_compare_map v &&& 0x3F) + 2, level := 1 }]
        else []) ∧
    (((gic_vpe_timer_cb g now v).1.gic_vpe_pend v).testBit 1 = true ∧
      (gic_vpe_timer_cb g now v).1.gic_timer v =
        some (u64 (now + sub32 (sub32 (g.gic_vpe_comparelo v) (u32 (g.gic_sh_counterlo + 1)))
          (u32 (now / 10)) * 10)) ∧
      (gic_vpe_timer_cb g now v).2 =
        if (g.gic_vpe_mask v).testBit 1 = true ∧ (g.gic_vpe_compare_map v).testBit 31 = true
        then [{ cpu := v, pin := (g.gic_vpe_compare_map v &&& 0x3F) + 2, level := 1 }]
        else []) := by
  refine ⟨⟨?_, gic_vpe_timer_expire_timer g now v, gic_vpe_timer_expire_events_valid g now v⟩,
    ⟨?_, ?_, ?_⟩⟩
  · rw [gic_vpe_timer_expire_pend]
    exact or_two_testBit_one _
  · rw [gic_vpe_timer_cb_eq]
    simp only
    rw [gic_vpe_timer_expire_pend]
    exact or_two_testBit_one _
  · rw [gic_vpe_timer_cb_eq]
    simp only
    rw [gic_vpe_timer_expire_timer]
  · rw [gic_vpe_timer_cb_eq]
    simp only
    rw [gic_vpe_timer_expire_events_valid]

/-! ## The valid bit of `compare_map` -/

/-- C10 fails on the code: in `ex_invalid_routed` the valid bit of `compare_map[0]` is
clear and no enabled source mapped to pin 5 of VPE 0 is pending.  The timer callback
of VPE 0 sets the compare pending bit and, the valid bit being clear, actuates no pin;
the deassertion of source 3 that follows drives pin 7 of CPU 0 high, although still no
enabled source mapped to it is pending: `gic_set_irq` ORs the compare pending bit in
without testing the valid bit. -/
theorem gic_set_irq_ignores_valid_bit :
    (ex_invalid_routed.gic_vpe_compare_map 0).testBit 31 = false ∧
    source_level ex_invalid_routed 5 0 = false ∧
    (gic_vpe_timer_cb ex_invalid_routed 0 0).2 = [] ∧
    ∃ g1,
      gic_set_irq (gic_vpe_timer_cb ex_invalid_routed 0 0).1 3 0 =
        some (g1, [{ cpu := 0, pin := 7, level := 1 }]) ∧
      (g1.gic_vpe_compare_map 0).testBit 31 = false ∧ source_level g1 5 0 = false :=
  ⟨by decide, by decide, by decide, _, rfl, by decide, by decide⟩

/-! ## Writing COMPARE_LO -/

/-- The state that `gic_store_vpe_compare` leaves: the fields it sets and the fields it
does not touch (`timer_irq` apart). -/
theorem gic_store_vpe_compare_fields (g : MIPSGICState) (now v c : Nat) :
    (gic_store_vpe_compare g now v c).1.gic_vpe_comparelo =
        Function.update g.gic_vpe_comparelo v (u32 c) ∧
      (gic_store_vpe_compare g now v c).1.gic_vpe_pend =
        Function.update g.gic_vpe_pend v (g.gic_vpe_pend v &&& (2 ^ 32 - 1 - (1 <<< 1))) ∧
      (gic_store_vpe_compare g now v c).1.gic_timer =
        Function.update g.gic_timer v
          (some (u64 (now + sub32 (sub32 (u32 c) g.gic_sh_counterlo) (u32 (now / 10)) * 10))) ∧
      (gic_store_vpe_compare g now v c).1.gic_vpe_ctl = g.gic_vpe_ctl ∧
      (gic_store_vpe_compare g now v c).1.gic_vpe_mask = g.gic_vpe_mask ∧
      (gic_store_vpe_compare g now v c).1.gic_vpe_wd_map = g.gic_vpe_wd_map ∧
      (gic_store_vpe_compare g now v c).1.gic_vpe_compare_map = g.gic_vpe_compare_map ∧
      (gic_store_vpe_compare g now v c).1.gic_vpe_timer_map = g.gic_vpe_timer_map ∧
      (gic_store_vpe_compare g now v c).1.gic_vpe_comparehi = g.gic_vpe_comparehi ∧
      (gic_store_vpe_compare g now v c).1.gic_vpe_other_addr = g.gic_vpe_other_addr ∧
      (gic_store_vpe_compare g now v c).1.num_cpu = g.num_cpu ∧
      (gic_store_vpe_compare g now v c).1.num_irq = g.num_irq ∧
      (gic_store_vpe_compare g now v c).1.gic_irqs = g.gic_irqs ∧
      (gic_store_vpe_compare g now v c).1.gic_gl_config = g.gic_gl_config ∧
      (gic_store_vpe_compare g now v c).1.gic_sh_counterlo = g.gic_sh_counterlo := by
  unfold gic_store_vpe_compare
  simp only [gic_vpe_timer_update, timer_mod, Function.update_same, TIMER_PERIOD]
  split
  · split <;> simp
  · simp

theorem clear_bit1_testBit (p i : Nat) (hi : i < 32) :
    (p &&& (2 ^ 32 - 1 - (1 <<< 1))).testBit i = (p.testBit i && decide (i ≠ 1)) := by
  have h : (2 ^ 32 - 1 - (1 <<< 1) : Nat).testBit i = decide (i ≠ 1) := by
    interval_cases i <;> decide
  rw [Nat.testBit_and, h]

theorem gic_write_vpe_compare_lo (L : GicHeader) (g : MIPSGICState) (now v off V : Nat)
    (hw : gic_write_vpe_case L off = VpeCase.COMPARE_LO) :
    gic_write_vpe L g now v off V = gic_store_vpe_compare g now v V := by
  unfold gic_write_vpe
  rw [hw]

theorem gic_read_vpe_compare_lo (L : GicHeader) (g : MIPSGICState) (now v off : Nat)
    (hr : gic_read_vpe_case L off = VpeCase.COMPARE_LO) :
    gic_read_vpe L g now v off = (g.gic_vpe_comparelo v, g, []) := by
  unfold gic_read_vpe
  rw [hr]

/-- C11: a write of `V` to COMPARE_LO of VPE `v` (the offset `off` selects the COMPARE_LO
case of `gic_write_vpe` and of `gic_read_vpe`) sets `compare_lo[v]` to `V mod 2^32`, which
a following read of COMPARE_LO of `v` returns, clears bit 1 of `pend[v]` and leaves
every other bit of the 32-bit `pend[v]` as it was; for every other VPE `w` the registers
ctl, pend, mask, wd_map, compare_map, timer_map, compare_lo, compare_hi and other_addr,
and the timer, are unchanged. -/
theorem compare_lo_write (L : GicHeader) (g : MIPSGICState) (now v off V : Nat)
    (hw : gic_write_vpe_case L off = VpeCase.COMPARE_LO)
    (hr : gic_read_vpe_case L off = VpeCase.COMPARE_LO) :
    (gic_write_vpe L g now v off V).1.gic_vpe_comparelo v = V % 2 ^ 32 ∧
    (∀ now2, (gic_read_vpe L (gic_write_vpe L g now v off V).1 now2 v off).1 = V % 2 ^ 32) ∧
    ((gic_write_vpe L g now v off V).1.gic_vpe_pend v).testBit 1 = false ∧
    (∀ i, i ≠ 1 → i < 32 →
      ((gic_write_vpe L g now v off V).1.gic_vpe_pend v).testBit i =
        (g.gic_vpe_pend v).testBit i) ∧
    (∀ w, w ≠ v →
      (gic_write_vpe L g now v off V).1.gic_vpe_ctl w = g.gic_vpe_ctl w ∧
      (gic_write_vpe L g now v off V).1.gic_vpe_pend w = g.gic_vpe_pend w ∧
      (gic_write_vpe L g now v off V).1.gic_vpe_mask w = g.gic_vpe_mask w ∧
      (gic_write_vpe L g now v off V).1.gic_vpe_wd_map w = g.gic_vpe_wd_map w ∧
      (gic_write_vpe L g now v off V).1.gic_vpe_compare_map w = g.gic_vpe_compare_map w ∧
      (gic_write_vpe L g now v off V).1.gic_vpe_timer_map w = g.gic_vpe_timer_map w ∧
      (gic_write_vpe L g now v off V).1.gic_vpe_comparelo w = g.gic_vpe_comparelo w ∧
      (gic_write_vpe L g now v off V).1.gic_vpe_comparehi w = g.gic_vpe_comparehi w ∧
      (gic_write_vpe L g now v off V).1.gic_vpe_other_addr w = g.gic_vpe_other_addr w ∧
      (gic_write_vpe L g now v off V).1.gic_timer w = g.gic_timer w) := by
  rewrite [gic_write_vpe_compare_lo L g now v off V hw]
  obtain ⟨h1, h2, h3, h4, h5, h6, h7, h8, h9, h10, _⟩ :=
    gic_store_vpe_compare_fields g now v V
  refine ⟨?_, ?_, ?_, ?_, ?_⟩
  · rewrite [h1]
    simp [u32]
  · intro now2
    rewrite [gic_read_vpe_compare_lo L _ now2 v off hr, h1]
    simp [u32]
  · rewrite [h2, Function.update_same, clear_bit1_testBit _ 1 (by decide)]
    simp
  · intro i hi hlt
    rewrite [h2, Function.update_same, clear_bit1_testBit _ i hlt]
    simp [hi]
  · intro w hwv
    rewrite [h1, h2, h3, h4, h5, h6, h7, h8, h9, h10]
    simp [Function.update_noteq hwv]

/-- C11 at `ex_compare_fired` (compare pending set): a write of 2^32 + 5 to COMPARE_LO of
VPE 0 stores 5 and clears the compare pending bit. -/
theorem compare_lo_write_witness :
    (gic_write_vpe mips_gic_h ex_compare_fired 0 0 mips_gic_h.GIC_VPE_COMPARE_LO_OFS
        (2 ^ 32 + 5)).1.gic_vpe_comparelo 0 = 5 ∧
      ((gic_write_vpe mips_gic_h ex_compare_fired 0 0 mips_gic_h.GIC_VPE_COMPARE_LO_OFS
        (2 ^ 32 + 5)).1.gic_vpe_pend 0).testBit 1 = false :=
  ⟨(compare_lo_write mips_gic_h ex_compare_fired 0 0 mips_gic_h.GIC_VPE_COMPARE_LO_OFS
      (2 ^ 32 + 5) (by decide) (by decide)).1,
   (compare_lo_write mips_gic_h ex_compare_fired 0 0 mips_gic_h.GIC_VPE_COMPARE_LO_OFS
      (2 ^ 32 + 5) (by decide) (by decide)).2.2.1⟩

/-- The pin actuations of `gic_store_vpe_compare`: with `compare_map[v]` valid the pin is
lowered exactly when `ic_irq[v]` is 0, whatever the sources are. -/
theorem gic_store_vpe_compare_events (g : MIPSGICState) (now v c : Nat) :
    (gic_store_vpe_compare g now v c).2 =
      if g.gic_vpe_compare_map v &&& 0x80000000 ≠ 0 then
        if g.ic_irq v = 0 then
          [{ cpu := v, pin := (g.gic_vpe_compare_map v &&& 0x3F) + 2, level := 0 }]
        else []
      else [] := by
  unfold gic_store_vpe_compare
  simp only [gic_vpe_timer_update, timer_mod]
  split
  · split <;> rfl
  · rfl

/-- C12 fails on the code: in `ex_shared_pin` the valid `compare_map[0]` names pin 5 and the
enabled source 3, mapped to pin 5 of VPE 0, is pending; `ic_irq[0]` is 0, as it always
is, since nothing stores to `ic_irq`.  The write of 1000 to COMPARE_LO of VPE 0, also as
an MMIO write to the VPE-local window, lowers pin 7 of CPU 0 although the source is
still pending after the write. -/
theorem held_pin_lowered_by_compare_write :
    ex_shared_pin.gic_vpe_compare_map 0 &&& 0x80000000 ≠ 0 ∧
    source_level ex_shared_pin 5 0 = true ∧
    (gic_store_vpe_compare ex_shared_pin 0 0 1000).2 = [{ cpu := 0, pin := 7, level := 0 }] ∧
    source_level (gic_store_vpe_compare ex_shared_pin 0 0 1000).1 5 0 = true ∧
    (gic_write mips_gic_h ex_shared_pin 0 0
      (mips_gic_h.GIC_VPELOCAL_BASE_ADDR + mips_gic_h.GIC_VPE_COMPARE_LO_OFS) 1000 4).map
        (fun r => r.2) = some [{ cpu := 0, pin := 7, level := 0 }] :=
  ⟨by decide, by decide, by decide, by decide, by decide⟩

/-! ## The register WEDGE -/

theorem shr31_and_one (data : Nat) :
    (((data >>> 31) &&& 1 : Nat) : Int) = if data &&& 0x80000000 ≠ 0 then 1 else 0 := by
  have h := and_bit31_ne_zero data
  have e : (data >>> 31) &&& 1 = b2n (data.testBit 31) := by
    rw [Nat.and_one_is_mod, Nat.testBit, Nat.one_and_eq_mod_two]
    have := Nat.mod_two_eq_zero_or_one (data >>> 31)
    rcases this with h0 | h1
    · simp [h0, b2n]
    · simp [h1, b2n]
  rw [e]
  by_cases hb : data.testBit 31 = true
  · rw [if_pos (h.mpr hb), hb]; rfl
  · rw [if_neg (fun hc => hb (h.mp hc))]
    simp only [Bool.not_eq_true] at hb
    rw [hb]; rfl

theorem gic_write_switch_wedge (L : GicHeader) (g : MIPSGICState)
    (now addr data size : Nat) (hc : gic_write_case L addr = ShCase.WEDGE) :
    gic_write_switch L g now addr data size =
      gic_set_irq g (data &&& 0x7FFFFFFF) (((data >>> 31) &&& 1 : Nat) : Int) := by
  unfold gic_write_switch
  rw [hc, shr31_and_one]
  simp only
  split <;> rfl

theorem gic_set_irq_isSome (g : MIPSGICState) (s : Nat) (level : Int) (hs : s < g.num_irq) :
    ∃ r, gic_set_irq g s level = some r := by
  unfold gic_set_irq
  rw [if_pos hs]
  simp only
  split
  · exact ⟨_, rfl⟩
  · split <;> exact ⟨_, rfl⟩

theorem gic_set_irq_raise (g : MIPSGICState) (s v : Nat)
    (hs : s < g.num_irq) (hen : (g.gic_irqs s).enabled = true)
    (hv : (g.gic_irqs s).map_vpe = (v : Int)) (hhi : v < g.num_cpu) :
    gic_set_irq g s 1 =
      some (with_pending g s true,
        [{ cpu := v, pin := ((g.gic_irqs s).map_pin &&& 0x3F) + 2, level := 1 }]) := by
  have hlo : ¬ ((v : Int) < 0) := by omega
  have hhi2 : ¬ ((g.num_cpu : Int) ≤ (v : Int)) := by omega
  simp [gic_set_irq, with_pending, hs, hen, hv, hlo, hhi2]

/-- C13: a write of `data`, of 32 bits or wider, to GIC_SH_WEDGE whose low 31 bits name a source below `num_irq`
completes, and its result, state and pin actuations, is the result of
`gic_set_irq (data & 0x7FFFFFFF) ((data >> 31) & 1)`; with bit 31 set and the source
enabled and mapped to pin `p` of VPE `v < num_cpu`, the write marks the source pending
and raises pin `p + 2` of CPU `v`. -/
theorem wedge_write (L : GicHeader) (g : MIPSGICState) (now cpu_index data size : Nat)
    (hc : gic_write_case L L.GIC_SH_WEDGE_OFS = ShCase.WEDGE)
    (hz : L.shared_only L.GIC_SH_WEDGE_OFS)
    (hs : data &&& 0x7FFFFFFF < g.num_irq) :
    (∃ r, gic_set_irq g (data &&& 0x7FFFFFFF) (((data >>> 31) &&& 1 : Nat) : Int) = some r ∧
      gic_write L g now cpu_index L.GIC_SH_WEDGE_OFS data size = some r) ∧
    (∀ v : Nat, data.testBit 31 = true →
      (g.gic_irqs (data &&& 0x7FFFFFFF)).enabled = true →
      (g.gic_irqs (data &&& 0x7FFFFFFF)).map_vpe = (v : Int) → v < g.num_cpu →
      gic_write L g now cpu_index L.GIC_SH_WEDGE_OFS data size =
        some (with_pending g (data &&& 0x7FFFFFFF) true,
          [{ cpu := v, pin := ((g.gic_irqs (data &&& 0x7FFFFFFF)).map_pin &&& 0x3F) + 2,
             level := 1 }])) := by
  have e := (gic_write_shared_only L g now cpu_index L.GIC_SH_WEDGE_OFS data size hz).trans
    (gic_write_switch_wedge L g now L.GIC_SH_WEDGE_OFS data size hc)
  constructor
  · obtain ⟨r, hr⟩ := gic_set_irq_isSome g (data &&& 0x7FFFFFFF)
      (((data >>> 31) &&& 1 : Nat) : Int) hs
    exact ⟨r, hr, e.trans hr⟩
  · intro v hb hen hv hhi
    rewrite [e, shr31_and_one, if_pos ((and_bit31_ne_zero data).mpr hb)]
    exact gic_set_irq_raise g _ v hs hen hv hhi

/-- C13 at `ex_routing`: the write of `0x80000003` to WEDGE marks the enabled source 3
pending and raises pin 7 of CPU 1. -/
theorem wedge_write_witness :
    gic_write mips_gic_h ex_routing 0 0 mips_gic_h.GIC_SH_WEDGE_OFS 0x80000003 4 =
      some (with_pending ex_routing 3 true, [{ cpu := 1, pin := 7, level := 1 }]) :=
  (wedge_write mips_gic_h ex_routing 0 0 0x80000003 4 (by decide) (by decide)
    (by decide)).2 1 (by decide) (by decide) (by decide) (by decide)

/-! ## Reset -/

theorem gic_reset_fold (L : GicHeader) (n : Nat) (g : MIPSGICState) :
    (List.range n).foldl
      (fun g i => { g with
        gic_irqs := Function.update g.gic_irqs i
          { g.gic_irqs i with map_pin := L.GIC_MAP_TO_PIN_MSK } }) g =
      { g with
        gic_irqs := fun i =>
          if i < n then { g.gic_irqs i with map_pin := L.GIC_MAP_TO_PIN_MSK }
          else g.gic_irqs i } := by
  induction n with
  | zero => simp
  | succ n ih =>
    rw [List.range_succ, List.foldl_append, ih]
    simp only [List.foldl_cons, List.foldl_nil]
    congr 1
    funext i
    by_cases h : i = n
    · subst h; simp
    · rw [Function.update_noteq h]
      by_cases h2 : i < n
      · simp [h2, Nat.lt_succ_of_lt h2]
      · have h3 : ¬ i < n + 1 := by omega
        simp [h2, h3]

/-- The state that `gic_reset` leaves, field by field. -/
theorem gic_reset_eq (L : GicHeader) (g : MIPSGICState) :
    gic_reset L g =
      { g with
        gic_irqs := fun i =>
          if i < g.num_irq then { g.gic_irqs i with map_pin := L.GIC_MAP_TO_PIN_MSK }
          else g.gic_irqs i
        gic_sh_counterlo := 0
        gic_gl_config := u32 (0x100f0000 ||| g.num_cpu) } := by
  unfold gic_reset
  rw [gic_reset_fold]

theorem reset_word_testBit (n : Nat) : (u32 (0x100f0000 ||| n)).testBit 28 = true := by
  unfold u32
  rw [Nat.testBit_mod_two_pow, Nat.testBit_or]
  have h : Nat.testBit 0x100f0000 28 = true := by decide
  simp [h]

/-- C14 fails as stated: the reset of the running controller `ex_running` leaves the config
word `0x100F0002`, whose bit 28 is set, and the counter stopped: COUNTERLO reads 0 at
host time 5000 ns and still 0 at 1000000 ns. -/
theorem reset_leaves_counter_stopped :
    (gic_reset mips_gic_h ex_running).gic_gl_config = 0x100F0000 ||| 2 ∧
    (gic_reset mips_gic_h ex_running).gic_gl_config.testBit 28 = true ∧
    (gic_read mips_gic_h (gic_reset mips_gic_h ex_running) 5000 0
      mips_gic_h.GIC_SH_COUNTERLO_OFS 4).map (fun r => r.1) = some 0 ∧
    (gic_read mips_gic_h (gic_reset mips_gic_h ex_running) 1000000 0
      mips_gic_h.GIC_SH_COUNTERLO_OFS 4).map (fun r => r.1) = some 0 :=
  ⟨by decide, by decide, by decide, by decide⟩

/-- C14 as the code has it: after `gic_reset` from any state the config word is
`0x100F0000 | num_cpu` in 32 bits, its bit 28 (count stop) is set, the counter base is
0, and the counter is stopped: a read of COUNTERLO returns 0 at every host time and
changes nothing. -/
theorem reset_config (L : GicHeader) (g : MIPSGICState)
    (hL1 : L.GIC_SH_COUNTERLO_OFS ≠ L.GIC_SH_CONFIG_OFS)
    (hL2 : L.GIC_SH_COUNTERLO_OFS ≠ L.GIC_SH_CONFIG_OFS + 4) :
    (gic_reset L g).gic_gl_config = (0x100F0000 ||| g.num_cpu) % 2 ^ 32 ∧
    (g.num_cpu < 2 ^ 32 → (gic_reset L g).gic_gl_config = 0x100F0000 ||| g.num_cpu) ∧
    (gic_reset L g).gic_gl_config.testBit 28 = true ∧
    (gic_reset L g).gic_sh_counterlo = 0 ∧
    (∀ now cpu_index size,
      gic_read L (gic_reset L g) now cpu_index L.GIC_SH_COUNTERLO_OFS size =
        some (0, gic_reset L g, [])) := by
  have hc : (gic_reset L g).gic_gl_config = u32 (0x100f0000 ||| g.num_cpu) := by
    rw [gic_reset_eq]
  have h0 : (gic_reset L g).gic_sh_counterlo = 0 := by rw [gic_reset_eq]
  have hb : (gic_reset L g).gic_gl_config.testBit 28 = true := by
    rw [hc]; exact reset_word_testBit _
  refine ⟨hc, ?_, hb, h0, ?_⟩
  · intro hn
    rw [hc]
    unfold u32
    apply Nat.mod_eq_of_lt
    exact Nat.or_lt_two_pow (by decide) hn
  · intro now cpu_index size
    have h := gic_read_counterlo_stopped L (gic_reset L g) now cpu_index size hL1 hL2 hb
    rw [h0] at h
    exact h

/-- C14 (amended) at the running controller `ex_running`: after the reset bit 28 of the
config word is set and COUNTERLO reads 0. -/
theorem reset_config_witness :
    (gic_reset mips_gic_h ex_running).gic_gl_config.testBit 28 = true ∧
    gic_read mips_gic_h (gic_reset mips_gic_h ex_running) 5000 0
      mips_gic_h.GIC_SH_COUNTERLO_OFS 4 = some (0, gic_reset mips_gic_h ex_running, []) :=
  ⟨(reset_config mips_gic_h ex_running (by decide) (by decide)).2.2.1,
   (reset_config mips_gic_h ex_running (by decide) (by decide)).2.2.2.2 5000 0 4⟩

/-- C15 fails as stated: the reset of `ex_asserted` leaves source 3 enabled, pending and
mapped to VPE 1, and the reset of `ex_running` leaves the compare register of VPE 0 at
`0xFFFFFF0A` and the timers of both VPEs armed. -/
theorem reset_keeps_sources_and_timers :
    ((gic_reset mips_gic_h ex_asserted).gic_irqs 3).enabled = true ∧
    ((gic_reset mips_gic_h ex_asserted).gic_irqs 3).pending = true ∧
    ((gic_reset mips_gic_h ex_asserted).gic_irqs 3).map_vpe = 1 ∧
    (gic_reset mips_gic_h ex_running).gic_vpe_comparelo 0 = 0xFFFFFF0A ∧
    (gic_reset mips_gic_h ex_running).gic_timer 0 = some 100 ∧
    (gic_reset mips_gic_h ex_running).gic_timer 1 = some 50000 :=
  ⟨by decide, by decide, by decide, by decide, by decide, by decide⟩

/-- C15 as the code has it: after `gic_reset` from any state every source below `num_irq`
has `map_pin` equal to the masked sentinel, and the reset leaves `enabled`, `pending`,
`polarity`, `trigger_type`, `dual_edge` and `map_vpe` of every source, every per-VPE
register and every VPE timer as they were; the sources are all disabled, not pending
and mapped to VPE 0 when the reset follows `mips_gic_realize`, which set them so. -/
theorem reset_sources (L : GicHeader) (g : MIPSGICState) :
    (∀ i, i < g.num_irq → ((gic_reset L g).gic_irqs i).map_pin = L.GIC_MAP_TO_PIN_MSK) ∧
    (∀ i, ((gic_reset L g).gic_irqs i).enabled = (g.gic_irqs i).enabled ∧
      ((gic_reset L g).gic_irqs i).pending = (g.gic_irqs i).pending ∧
      ((gic_reset L g).gic_irqs i).polarity = (g.gic_irqs i).polarity ∧
      ((gic_reset L g).gic_irqs i).trigger_type = (g.gic_irqs i).trigger_type ∧
      ((gic_reset L g).gic_irqs i).dual_edge = (g.gic_irqs i).dual_edge ∧
      ((gic_reset L g).gic_irqs i).map_vpe = (g.gic_irqs i).map_vpe) ∧
    ((gic_reset L g).gic_vpe_ctl = g.gic_vpe_ctl ∧
      (gic_reset L g).gic_vpe_pend = g.gic_vpe_pend ∧
      (gic_reset L g).gic_vpe_mask = g.gic_vpe_mask ∧
      (gic_reset L g).gic_vpe_wd_map = g.gic_vpe_wd_map ∧
      (gic_reset L g).gic_vpe_compare_map = g.gic_vpe_compare_map ∧
      (gic_reset L g).gic_vpe_timer_map = g.gic_vpe_timer_map ∧
      (gic_reset L g).gic_vpe_comparelo = g.gic_vpe_comparelo ∧
      (gic_reset L g).gic_vpe_comparehi = g.gic_vpe_comparehi ∧
      (gic_reset L g).gic_vpe_other_addr = g.gic_vpe_other_addr) ∧
    (gic_reset L g).gic_timer = g.gic_timer ∧
    (∀ num_cpu num_irq now i,
      (gic_reset L (mips_gic_realize L num_cpu num_irq now)).gic_irqs i =
        { enabled := false, pending := false, polarity := false, trigger_type := false,
          dual_edge := false, map_pin := L.GIC_MAP_TO_PIN_MSK, map_vpe := 0 }) := by
  refine ⟨?_, ?_, ?_, ?_, ?_⟩
  · intro i hi
    rw [gic_reset_eq]
    simp [hi]
  · intro i
    rw [gic_reset_eq]
    by_cases hi : i < g.num_irq <;> simp [hi]
  · rw [gic_reset_eq]
    exact ⟨rfl, rfl, rfl, rfl, rfl, rfl, rfl, rfl, rfl⟩
  · rw [gic_reset_eq]
  · intro num_cpu num_irq now i
    rw [gic_reset_eq]
    simp only [mips_gic_realize]
    split <;> rfl

/-- C15 (amended) at `ex_asserted`: the reset sets `map_pin` of source 3 to the sentinel
and leaves the source enabled. -/
theorem reset_sources_witness :
    3 < ex_asserted.num_irq ∧
    ((gic_reset mips_gic_h ex_asserted).gic_irqs 3).map_pin =
      mips_gic_h.GIC_MAP_TO_PIN_MSK ∧
    ((gic_reset mips_gic_h ex_asserted).gic_irqs 3).enabled = (ex_asserted.gic_irqs 3).enabled :=
  ⟨by decide, (reset_sources mips_gic_h ex_asserted).1 3 (by decide),
   ((reset_sources mips_gic_h ex_asserted).2.1 3).1⟩

/-! ## The VPE-local and VPE-other windows -/

theorem gic_get_current_cpu_lt (g : MIPSGICState) (o : Nat) (h : o < g.num_cpu) :
    gic_get_current_cpu g o = o := by
  unfold gic_get_current_cpu
  split
  · rfl
  · omega

theorem gic_write_local (L : GicHeader) (g : MIPSGICState) (now c addr data size : Nat)
    (h : L.local_only addr) :
    gic_write L g now c addr data size =
      some (gic_write_vpe L g now (gic_get_current_cpu g c)
        (addr - L.GIC_VPELOCAL_BASE_ADDR) data) := by
  obtain ⟨_, h0, h1, h2, h3, h4⟩ := h
  simp [gic_write, gic_write_switch, h0, gic_write_map_pin, gic_write_map_vpe,
    gic_write_zones, if_neg h1, if_neg h2, if_pos h3, if_neg h4]

theorem gic_write_other (L : GicHeader) (g : MIPSGICState) (now c addr data size : Nat)
    (h : L.other_only addr) :
    gic_write L g now c addr data size =
      some (gic_write_vpe L g now (g.gic_vpe_other_addr (gic_get_current_cpu g c))
        (addr - L.GIC_VPEOTHER_BASE_ADDR) data) := by
  obtain ⟨_, h0, h1, h2, h3, h4⟩ := h
  simp [gic_write, gic_write_switch, h0, gic_write_map_pin, gic_write_map_vpe,
    gic_write_zones, if_neg h1, if_neg h2, if_neg h3, if_pos h4]

theorem gic_read_local (L : GicHeader) (g : MIPSGICState) (now c addr size : Nat)
    (h : L.local_only addr) :
    gic_read L g now c addr size =
      some (gic_read_vpe L g now (gic_get_current_cpu g c)
        (addr - L.GIC_VPELOCAL_BASE_ADDR)) := by
  obtain ⟨h0, _, h1, h2, h3, h4⟩ := h
  simp [gic_read, h0, if_neg h1, if_neg h2, if_pos h3]

theorem gic_read_other (L : GicHeader) (g : MIPSGICState) (now c addr size : Nat)
    (h : L.other_only addr) :
    gic_read L g now c addr size =
      some (gic_read_vpe L g now (g.gic_vpe_other_addr (gic_get_current_cpu g c))
        (addr - L.GIC_VPEOTHER_BASE_ADDR)) := by
  obtain ⟨h0, _, h1, h2, h3, h4⟩ := h
  simp [gic_read, h0, if_neg h1, if_neg h2, if_neg h3, if_pos h4]

/-- A write to a register of VPE `o` changes no per-VPE register and no timer of another
VPE. -/
theorem gic_write_vpe_frame (L : GicHeader) (g : MIPSGICState) (now o X data w : Nat)
    (hw : w ≠ o) : vpe_regs_eq g (gic_write_vpe L g now o X data).1 w := by
  unfold gic_write_vpe
  cases gic_write_vpe_case L X
  case COMPARE_LO =>
    obtain ⟨h1, h2, h3, h4, h5, h6, h7, h8, h9, h10, _⟩ :=
      gic_store_vpe_compare_fields g now o data
    simp only [vpe_regs_eq]
    rewrite [h1, h2, h3, h4, h5, h6, h7, h8, h9, h10]
    simp [Function.update_noteq hw]
  case OTHER_ADDR =>
    simp only
    split <;> simp [vpe_regs_eq, Function.update_noteq hw]
  all_goals simp [vpe_regs_eq, Function.update_noteq hw]

/-- C16: with calling VPE `c` and `other_addr[c] = o < num_cpu`, a write to offset `X` of
the VPE-other window is `gic_write_vpe` on VPE `o`, the same result as the write to
offset `X` of the VPE-local window issued by VPE `o`; for `w ≠ o`, so for `c` when
`o ≠ c`, no per-VPE register of `w` changes, and a write to COMPARE_MAP sets
`compare_map[o]`; a read through the VPE-other window is the read of the VPE-local
window issued by `o`, and IDENT returns `o`. -/
theorem other_window_access (L : GicHeader) (g : MIPSGICState)
    (now cpu_index X data size o : Nat)
    (hO : L.other_only (L.GIC_VPEOTHER_BASE_ADDR + X))
    (hLoc : L.local_only (L.GIC_VPELOCAL_BASE_ADDR + X))
    (ho : g.gic_vpe_other_addr (gic_get_current_cpu g cpu_index) = o)
    (hlt : o < g.num_cpu) :
    gic_write L g now cpu_index (L.GIC_VPEOTHER_BASE_ADDR + X) data size =
      gic_write L g now o (L.GIC_VPELOCAL_BASE_ADDR + X) data size ∧
    gic_write L g now cpu_index (L.GIC_VPEOTHER_BASE_ADDR + X) data size =
      some (gic_write_vpe L g now o X data) ∧
    (∀ w, w ≠ o → vpe_regs_eq g (gic_write_vpe L g now o X data).1 w) ∧
    (gic_write_vpe_case L X = VpeCase.COMPARE_MAP →
      (gic_write_vpe L g now o X data).1.gic_vpe_compare_map o = data &&& 0xE000003F) ∧
    gic_read L g now cpu_index (L.GIC_VPEOTHER_BASE_ADDR + X) size =
      gic_read L g now o (L.GIC_VPELOCAL_BASE_ADDR + X) size ∧
    gic_read L g now cpu_index (L.GIC_VPEOTHER_BASE_ADDR + X) size =
      some (gic_read_vpe L g now o X) ∧
    (gic_read_vpe_case L X = VpeCase.IDENT →
      gic_read L g now cpu_index (L.GIC_VPEOTHER_BASE_ADDR + X) size = some (o, g, [])) := by
  have w1 := gic_write_other L g now cpu_index _ data size hO
  have w2 := gic_write_local L g now o _ data size hLoc
  have r1 := gic_read_other L g now cpu_index _ size hO
  have r2 := gic_read_local L g now o _ size hLoc
  rw [ho, Nat.add_sub_cancel_left] at w1 r1
  rw [gic_get_current_cpu_lt g o hlt, Nat.add_sub_cancel_left] at w2 r2
  refine ⟨w1.trans w2.symm, w1, fun w hw => gic_write_vpe_frame L g now o X data w hw, ?_,
    r1.trans r2.symm, r1, ?_⟩
  · intro hc
    unfold gic_write_vpe
    rw [hc]
    simp
  · intro hc
    rw [r1]
    unfold gic_read_vpe
    rw [hc]

/-- C16 at `ex_other` (two VPEs, `other_addr[0] = 1`): the write of `0xE0000007` by VPE 0
to COMPARE_MAP of the VPE-other window sets `compare_map[1]` and leaves
`compare_map[0]` at 0. -/
theorem other_window_access_witness :
    ∃ r, gic_write mips_gic_h ex_other 0 0
        (mips_gic_h.GIC_VPEOTHER_BASE_ADDR + mips_gic_h.GIC_VPE_COMPARE_MAP_OFS)
        0xE0000007 4 = some r ∧
      r.1.gic_vpe_compare_map 1 = 0xE0000007 ∧ r.1.gic_vpe_compare_map 0 = 0 :=
  ⟨_, (other_window_access mips_gic_h ex_other 0 0 mips_gic_h.GIC_VPE_COMPARE_MAP_OFS
      0xE0000007 4 1 (by decide) (by decide) (by decide) (by decide)).2.1,
    by decide, by decide⟩

/-! ## Invariant I5 -/

theorem other_addr_step_refl (g : MIPSGICState) : other_addr_step g g :=
  ⟨rfl, fun _ => Or.inl rfl⟩

theorem other_addr_step_trans {g g1 g2 : MIPSGICState} (h1 : other_addr_step g g1)
    (h2 : other_addr_step g1 g2) : other_addr_step g g2 := by
  obtain ⟨a1, a2⟩ := h1
  obtain ⟨b1, b2⟩ := h2
  refine ⟨b1.trans a1, fun v => ?_⟩
  rcases b2 v with e | l
  · rw [e]; exact a2 v
  · right; rw [← a1]; exact l

theorem other_addr_step_of_eq {g g1 : MIPSGICState} (h1 : g1.num_cpu = g.num_cpu)
    (h2 : g1.gic_vpe_other_addr = g.gic_vpe_other_addr) : other_addr_step g g1 :=
  ⟨h1, fun v => Or.inl (by rw [h2])⟩

theorem I5_of_step {g g1 : MIPSGICState} (h : other_addr_step g g1) (hI : I5 g) : I5 g1 := by
  obtain ⟨a1, a2⟩ := h
  intro v hv
  rw [a1] at hv ⊢
  rcases a2 v with e | l
  · rw [e]; exact hI v hv
  · exact l

theorem other_addr_step_foldl {α : Type} (f : MIPSGICState → α → MIPSGICState)
    (hf : ∀ g a, other_addr_step g (f g a)) (l : List α) :
    ∀ g, other_addr_step g (l.foldl f g) := by
  induction l with
  | nil => intro g; exact other_addr_step_refl g
  | cons a l ih =>
    intro g
    rw [List.foldl_cons]
    exact other_addr_step_trans (hf g a) (ih (f g a))

theorem other_addr_step_foldlM {α : Type} (f : MIPSGICState → α → Option MIPSGICState)
    (hf : ∀ g a g1, f g a = some g1 → other_addr_step g g1) (l : List α) :
    ∀ g g1, l.foldlM f g = some g1 → other_addr_step g g1 := by
  induction l with
  | nil =>
    intro g g1 h
    simp only [List.foldlM_nil, Option.pure_def, Option.some.injEq] at h
    subst h
    exact other_addr_step_refl g
  | cons a l ih =>
    intro g g1 h
    rw [List.foldlM_cons] at h
    cases hfa : f g a with
    | none => rw [hfa] at h; cases h
    | some g2 =>
      rw [hfa] at h
      exact other_addr_step_trans (hf g a g2 hfa) (ih g2 g1 h)

theorem other_addr_step_timer_update (g : MIPSGICState) (now v : Nat) :
    other_addr_step g (gic_vpe_timer_update g now v).1 :=
  other_addr_step_of_eq rfl rfl

theorem other_addr_step_update_all_timers (g : MIPSGICState) (now : Nat) :
    other_addr_step g (gic_update_all_timers g now) := by
  unfold gic_update_all_timers
  exact other_addr_step_foldl _ (fun g a => other_addr_step_timer_update g now a) _ g

theorem other_addr_step_timer_del (g : MIPSGICState) (v : Nat) :
    other_addr_step g (timer_del g v) :=
  other_addr_step_of_eq rfl rfl

theorem other_addr_step_counterlo (g : MIPSGICState) (c : Nat) :
    other_addr_step g { g with gic_sh_counterlo := c } :=
  other_addr_step_of_eq rfl rfl

theorem other_addr_step_config (g : MIPSGICState) (c : Nat) :
    other_addr_step g { g with gic_gl_config := c } :=
  other_addr_step_of_eq rfl rfl

theorem other_addr_step_store_sh_count (g : MIPSGICState) (now count : Nat) :
    other_addr_step g (gic_store_sh_count g now count) := by
  unfold gic_store_sh_count
  split
  · exact other_addr_step_counterlo g _
  · exact other_addr_step_trans (other_addr_step_counterlo g _)
      (other_addr_step_update_all_timers _ now)

theorem other_addr_step_stop_count (g : MIPSGICState) (now : Nat) :
    other_addr_step g (gic_timer_stop_count g now) := by
  unfold gic_timer_stop_count
  exact other_addr_step_trans (other_addr_step_counterlo g _)
    (other_addr_step_foldl _ other_addr_step_timer_del _ _)

theorem other_addr_step_start_count (g : MIPSGICState) (now : Nat) :
    other_addr_step g (gic_timer_start_count g now) := by
  unfold gic_timer_start_count
  exact other_addr_step_store_sh_count g now _

theorem other_addr_step_write_config (g : MIPSGICState) (now data : Nat) :
    other_addr_step g (gic_write_config g now data) := by
  unfold gic_write_config
  simp only
  split_ifs <;>
    first
    | exact other_addr_step_config g _
    | exact other_addr_step_trans (other_addr_step_config g _)
        (other_addr_step_stop_count _ now)
    | exact other_addr_step_trans (other_addr_step_config g _)
        (other_addr_step_start_count _ now)
    | exact other_addr_step_trans (other_addr_step_config g _)
        (other_addr_step_trans (other_addr_step_stop_count _ now)
          (other_addr_step_start_count _ now))

theorem other_addr_step_irq_update (g g1 : MIPSGICState) (idx : Nat)
    (f : MIPSGICIRQState → MIPSGICIRQState) (h : irq_update g idx f = some g1) :
    other_addr_step g g1 := by
  unfold irq_update at h
  split at h
  · simp only [Option.some.injEq] at h
    subst h
    exact other_addr_step_of_eq rfl rfl
  · cases h

theorem other_addr_step_write_bank (g g1 : MIPSGICState)
    (f : MIPSGICIRQState → Bool → MIPSGICIRQState) (base data size : Nat)
    (h : gic_write_bank g f base data size = some g1) : other_addr_step g g1 := by
  unfold gic_write_bank at h
  refine other_addr_step_foldlM _ ?_ _ g g1 h
  intro g2 i g3 h3
  exact other_addr_step_irq_update g2 g3 _ _ h3

theorem other_addr_step_set_irq (g : MIPSGICState) (s : Nat) (level : Int)
    (r : MIPSGICState × List PinEvent) (h : gic_set_irq g s level = some r) :
    other_addr_step g r.1 := by
  unfold gic_set_irq at h
  split at h
  · simp only at h
    split at h
    · simp only [Option.some.injEq] at h
      subst h
      exact other_addr_step_of_eq rfl rfl
    · split at h <;>
      · simp only [Option.some.injEq] at h
        subst h
        exact other_addr_step_of_eq rfl rfl
  · cases h

theorem other_addr_step_timer_expire (g : MIPSGICState) (now v : Nat) :
    other_addr_step g (gic_vpe_timer_expire g now v).1 := by
  rw [gic_vpe_timer_expire_eq]
  split <;> exact other_addr_step_of_eq rfl rfl

theorem other_addr_step_timer_cb (g : MIPSGICState) (now v : Nat) :
    other_addr_step g (gic_vpe_timer_cb g now v).1 := by
  rw [gic_vpe_timer_cb_eq]
  exact other_addr_step_trans (other_addr_step_counterlo g _)
    (other_addr_step_trans (other_addr_step_timer_expire _ now v)
      (other_addr_step_counterlo _ _))

theorem other_addr_step_sh_count_body (now : Nat) (acc : MIPSGICState × List PinEvent)
    (i : Nat) : other_addr_step acc.1 (gic_get_sh_count_body now acc i).1 := by
  unfold gic_get_sh_count_body
  split
  · exact other_addr_step_timer_expire acc.1 now i
  · exact other_addr_step_refl _

theorem other_addr_step_sh_count_loop (now : Nat) (l : List Nat) :
    ∀ acc : MIPSGICState × List PinEvent,
      other_addr_step acc.1 (l.foldl (gic_get_sh_count_body now) acc).1 := by
  induction l with
  | nil => intro acc; exact other_addr_step_refl _
  | cons a l ih =>
    intro acc
    rw [List.foldl_cons]
    exact other_addr_step_trans (other_addr_step_sh_count_body now acc a) (ih _)

theorem other_addr_step_get_sh_count (g : MIPSGICState) (now : Nat) :
    other_addr_step g (gic_get_sh_count g now).2.1 := by
  unfold gic_get_sh_count
  split
  · exact other_addr_step_refl g
  · exact other_addr_step_sh_count_loop now _ (g, [])

theorem other_addr_step_read_vpe (L : GicHeader) (g : MIPSGICState) (now v addr : Nat) :
    other_addr_step g (gic_read_vpe L g now v addr).2.1 := by
  unfold gic_read_vpe
  cases gic_read_vpe_case L addr
  case PEND => exact other_addr_step_get_sh_count g now
  all_goals exact other_addr_step_refl g

theorem other_addr_step_read (L : GicHeader) (g : MIPSGICState) (now c addr size : Nat)
    (r : Nat × MIPSGICState × List PinEvent) (h : gic_read L g now c addr size = some r) :
    other_addr_step g r.2.1 := by
  have hb : ∀ (o : Option Nat), o.map (fun x => (x, g, ([] : List PinEvent))) = some r →
      other_addr_step g r.2.1 := by
    intro o ho
    cases o with
    | none => cases ho
    | some x =>
      simp only [Option.map_some', Option.some.injEq] at ho
      subst ho
      exact other_addr_step_refl g
  have hz : ∀ {α : Type} (o : Option α) (f : α → Nat),
      o.map (fun q => (f q, g, ([] : List PinEvent))) = some r → other_addr_step g r.2.1 := by
    intro α o f ho
    cases o with
    | none => cases ho
    | some x =>
      simp only [Option.map_some', Option.some.injEq] at ho
      subst ho
      exact other_addr_step_refl g
  have hd : (if L.GIC_SH_INTR_MAP_TO_PIN_BASE_OFS ≤ addr ∧ addr ≤ L.GIC_SH_MAP_TO_PIN 255 then
        (irq_get g ((addr - L.GIC_SH_INTR_MAP_TO_PIN_BASE_OFS) / 4)).map
          (fun q => (q.map_pin, g, ([] : List PinEvent)))
      else if L.GIC_SH_INTR_MAP_TO_VPE_BASE_OFS ≤ addr ∧
          addr ≤ L.GIC_SH_MAP_TO_VPE_REG_OFF 255 63 then
        match irq_get g ((addr - L.GIC_SH_INTR_MAP_TO_VPE_BASE_OFS) / 32) with
        | none => none
        | some q => (shl_one q.map_vpe).map (fun r => (r, g, []))
      else if L.GIC_VPELOCAL_BASE_ADDR ≤ addr ∧ addr < L.GIC_VPEOTHER_BASE_ADDR then
        some (gic_read_vpe L g now (gic_get_current_cpu g c) (addr - L.GIC_VPELOCAL_BASE_ADDR))
      else if L.GIC_VPEOTHER_BASE_ADDR ≤ addr ∧ addr < L.GIC_USERMODE_BASE_ADDR then
        some (gic_read_vpe L g now (g.gic_vpe_other_addr (gic_get_current_cpu g c))
          (addr - L.GIC_VPEOTHER_BASE_ADDR))
      else some (0, g, [])) = some r → other_addr_step g r.2.1 := by
    intro h
    split at h
    · exact hz _ _ h
    · split at h
      · split at h
        · cases h
        · exact hb _ h
      · split at h
        · simp only [Option.some.injEq] at h
          subst h
          exact other_addr_step_read_vpe L g now _ _
        · split at h <;>
          · simp only [Option.some.injEq] at h
            subst h
            first
            | exact other_addr_step_read_vpe L g now _ _
            | exact other_addr_step_refl g
  unfold gic_read at h
  cases hc : gic_read_case L addr <;> rw [hc] at h <;> simp only at h
  case COUNTERLO =>
    simp only [Option.some.injEq] at h
    subst h
    exact other_addr_step_get_sh_count g now
  case CONFIG | CONFIG_4 | COUNTERHI =>
    simp only [Option.some.injEq] at h
    subst h
    exact other_addr_step_refl g
  case POL | TRIG | PEND | MASK => exact hb _ h
  all_goals exact hd h

theorem other_addr_step_store_vpe_compare (g : MIPSGICState) (now v c : Nat) :
    other_addr_step g (gic_store_vpe_compare g now v c).1 := by
  obtain ⟨_, _, _, _, _, _, _, _, _, h10, h11, _⟩ := gic_store_vpe_compare_fields g now v c
  exact other_addr_step_of_eq h11 h10

theorem other_addr_step_write_vpe (L : GicHeader) (g : MIPSGICState) (now v addr data : Nat) :
    other_addr_step g (gic_write_vpe L g now v addr data).1 := by
  unfold gic_write_vpe
  cases gic_write_vpe_case L addr
  case COMPARE_LO => exact other_addr_step_store_vpe_compare g now v data
  case OTHER_ADDR =>
    simp only
    split
    · rename_i hlt
      refine ⟨rfl, fun w => ?_⟩
      by_cases hw : w = v
      · right; subst hw; simp [hlt]
      · left; simp [Function.update_noteq hw]
    · exact other_addr_step_refl g
  all_goals exact other_addr_step_of_eq rfl rfl

theorem other_addr_step_write_switch (L : GicHeader) (g : MIPSGICState)
    (now addr data size : Nat) (r : MIPSGICState × List PinEvent)
    (h : gic_write_switch L g now addr data size = some r) : other_addr_step g r.1 := by
  have hb : ∀ (f : MIPSGICIRQState → Bool → MIPSGICIRQState) (base : Nat),
      (gic_write_bank g f base data size).map (fun x => (x, ([] : List PinEvent))) = some r →
      other_addr_step g r.1 := by
    intro f base ho
    cases hw : gic_write_bank g f base data size with
    | none => rw [hw] at ho; cases ho
    | some x =>
      rw [hw] at ho
      simp only [Option.map_some', Option.some.injEq] at ho
      subst ho
      exact other_addr_step_write_bank g x f base data size hw
  unfold gic_write_switch at h
  cases hc : gic_write_case L addr <;> rw [hc] at h <;> simp only at h
  case CONFIG =>
    simp only [Option.some.injEq] at h
    subst h
    exact other_addr_step_write_config g now data
  case COUNTERLO =>
    split at h <;>
    · simp only [Option.some.injEq] at h
      subst h
      first
      | exact other_addr_step_store_sh_count g now data
      | exact other_addr_step_refl g
  case POL | TRIG | RMASK | SMASK => exact hb _ _ h
  case WEDGE =>
    split at h <;> exact other_addr_step_set_irq g _ _ r h
  all_goals
    simp only [Option.some.injEq] at h
    subst h
    exact other_addr_step_refl g

theorem other_addr_step_write_zones (L : GicHeader) (g : MIPSGICState)
    (now v addr data : Nat) : other_addr_step g (gic_write_zones L g now v addr data).1 := by
  unfold gic_write_zones
  simp only
  split
  · split
    · exact other_addr_step_trans (other_addr_step_write_vpe L g now _ _ data)
        (other_addr_step_write_vpe L _ now _ _ data)
    · exact other_addr_step_write_vpe L g now _ _ data
  · split
    · exact other_addr_step_write_vpe L g now _ _ data
    · exact other_addr_step_refl g

theorem other_addr_step_write (L : GicHeader) (g : MIPSGICState)
    (now c addr data size : Nat) (r : MIPSGICState × List PinEvent)
    (h : gic_write L g now c addr data size = some r) : other_addr_step g r.1 := by
  unfold gic_write at h
  cases h1 : gic_write_switch L g now addr data size with
  | none => rw [h1] at h; cases h
  | some r1 =>
    obtain ⟨g1, ev1⟩ := r1
    rw [h1] at h
    simp only at h
    have s1 := other_addr_step_write_switch L g now addr data size _ h1
    cases h2 : gic_write_map_pin L g1 addr data with
    | none => rw [h2] at h; cases h
    | some g2 =>
      rw [h2] at h
      simp only at h
      have s2 : other_addr_step g1 g2 := by
        unfold gic_write_map_pin at h2
        split at h2
        · exact other_addr_step_irq_update g1 g2 _ _ h2
        · simp only [Option.some.injEq] at h2
          subst h2
          exact other_addr_step_refl g1
      cases h3 : gic_write_map_vpe L g2 addr data with
      | none => rw [h3] at h; cases h
      | some g3 =>
        rw [h3] at h
        simp only [Option.some.injEq] at h
        have s3 : other_addr_step g2 g3 := by
          unfold gic_write_map_vpe at h3
          split at h3
          · exact other_addr_step_irq_update g2 g3 _ _ h3
          · simp only [Option.some.injEq] at h3
            subst h3
            exact other_addr_step_refl g2
        subst h
        exact other_addr_step_trans s1 (other_addr_step_trans s2
          (other_addr_step_trans s3 (other_addr_step_write_zones L g3 now _ addr data)))

theorem other_addr_step_reset (L : GicHeader) (g : MIPSGICState) :
    other_addr_step g (gic_reset L g) := by
  rw [gic_reset_eq]
  exact other_addr_step_of_eq rfl rfl

theorem gic_write_vpe_other_addr (L : GicHeader) (g : MIPSGICState) (now t X data : Nat)
    (hc : gic_write_vpe_case L X = VpeCase.OTHER_ADDR) :
    gic_write_vpe L g now t X data =
      if data < g.num_cpu then
        ({ g with gic_vpe_other_addr := Function.update g.gic_vpe_other_addr t data }, [])
      else (g, []) := by
  unfold gic_write_vpe
  rw [hc]

/-- C17: every operation that completes from a state satisfying I5 (`other_addr[v] <
num_cpu` for every VPE `v`) leaves a state satisfying I5: an MMIO write, an MMIO read,
a source assertion, a timer callback, a reset.  A write of `data ≥ num_cpu` to
OTHER_ADDR, through the VPE-local or the VPE-other window, leaves the state as it was;
a write of `data < num_cpu` stores `data` in `other_addr` of the targeted VPE (the
calling VPE, or `other_addr` of the calling VPE through the other window) and changes
nothing else. -/
theorem I5_preserved (L : GicHeader) (g : MIPSGICState) (hI : I5 g) :
    (∀ now c addr data size r, gic_write L g now c addr data size = some r → I5 r.1) ∧
    (∀ now c addr size r, gic_read L g now c addr size = some r → I5 r.2.1) ∧
    (∀ s level r, gic_set_irq g s level = some r → I5 r.1) ∧
    (∀ now v, I5 (gic_vpe_timer_cb g now v).1) ∧
    I5 (gic_reset L g) ∧
    (gic_write_vpe_case L L.GIC_VPE_OTHER_ADDR_OFS = VpeCase.OTHER_ADDR →
      (L.local_only (L.GIC_VPELOCAL_BASE_ADDR + L.GIC_VPE_OTHER_ADDR_OFS) →
        ∀ now c data size,
          gic_write L g now c (L.GIC_VPELOCAL_BASE_ADDR + L.GIC_VPE_OTHER_ADDR_OFS) data size =
            if data < g.num_cpu then
              some ({ g with
                gic_vpe_other_addr :=
                  Function.update g.gic_vpe_other_addr (gic_get_current_cpu g c) data }, [])
            else some (g, [])) ∧
      (L.other_only (L.GIC_VPEOTHER_BASE_ADDR + L.GIC_VPE_OTHER_ADDR_OFS) →
        ∀ now c data size,
          gic_write L g now c (L.GIC_VPEOTHER_BASE_ADDR + L.GIC_VPE_OTHER_ADDR_OFS) data size =
            if data < g.num_cpu then
              some ({ g with
                gic_vpe_other_addr :=
                  Function.update g.gic_vpe_other_addr
                    (g.gic_vpe_other_addr (gic_get_current_cpu g c)) data }, [])
            else some (g, []))) := by
  refine ⟨?_, ?_, ?_, ?_, ?_, ?_⟩
  · intro now c addr data size r h
    exact I5_of_step (other_addr_step_write L g now c addr data size r h) hI
  · intro now c addr size r h
    exact I5_of_step (other_addr_step_read L g now c addr size r h) hI
  · intro s level r h
    exact I5_of_step (other_addr_step_set_irq g s level r h) hI
  · intro now v
    exact I5_of_step (other_addr_step_timer_cb g now v) hI
  · exact I5_of_step (other_addr_step_reset L g) hI
  · intro hc
    constructor
    · intro hLoc now c data size
      rw [gic_write_local L g now c _ data size hLoc, Nat.add_sub_cancel_left,
        gic_write_vpe_other_addr L g now _ _ data hc]
      split <;> rfl
    · intro hO now c data size
      rw [gic_write_other L g now c _ data size hO, Nat.add_sub_cancel_left,
        gic_write_vpe_other_addr L g now _ _ data hc]
      split <;> rfl

/-- C17 at `ex_other` (two VPEs, `other_addr[0] = 1`): I5 holds, and it holds after the
write of 7 to OTHER_ADDR of the VPE-local window by VPE 0, which is ignored:
`other_addr[0]` is still 1. -/
theorem I5_preserved_witness :
    I5 ex_other ∧
    ∃ r, gic_write mips_gic_h ex_other 0 0
        (mips_gic_h.GIC_VPELOCAL_BASE_ADDR + mips_gic_h.GIC_VPE_OTHER_ADDR_OFS) 7 4 = some r ∧
      I5 r.1 ∧ r.1.gic_vpe_other_addr 0 = 1 :=
  ⟨by decide, (ex_other, []),
    ((I5_preserved mips_gic_h ex_other (by decide)).2.2.2.2.2 (by decide)).1 (by decide) 0 0 7 4,
    (I5_preserved mips_gic_h ex_other (by decide)).1 0 0
      (mips_gic_h.GIC_VPELOCAL_BASE_ADDR + mips_gic_h.GIC_VPE_OTHER_ADDR_OFS) 7 4
      (ex_other, []) (by rfl),
    by decide⟩

/-! ## The bank registers -/

/-- C18 fails on the code: the read loop of a bank register indexes the source table with
`i`, not `base + i`, so it reports sources 0 to 31 whatever the bank.  On a controller
with 256 sources the 4-byte write of 1 to GIC_SH_POL_63_32 sets the polarity of source
32 and the 4-byte read of the same register returns 0; after a write of 5 to
GIC_SH_POL_31_0 the read of GIC_SH_POL_63_32 returns 5.  The same holds for
GIC_SH_TRIG_63_32. -/
theorem bank_read_ignores_base :
    (∃ g1, gic_write mips_gic_h ex_banks 0 0 mips_gic_h.GIC_SH_POL_63_32_OFS 1 4 =
        some (g1, []) ∧
      (g1.gic_irqs 32).polarity = true ∧ (g1.gic_irqs 0).polarity = false ∧
      (gic_read mips_gic_h g1 0 0 mips_gic_h.GIC_SH_POL_63_32_OFS 4).map (fun r => r.1) =
        some 0) ∧
    (∃ g1, gic_write mips_gic_h ex_banks 0 0 mips_gic_h.GIC_SH_POL_31_0_OFS 5 4 =
        some (g1, []) ∧
      (gic_read mips_gic_h g1 0 0 mips_gic_h.GIC_SH_POL_63_32_OFS 4).map (fun r => r.1) =
        some 5) ∧
    (∃ g1, gic_write mips_gic_h ex_banks 0 0 mips_gic_h.GIC_SH_TRIG_63_32_OFS 1 4 =
        some (g1, []) ∧
      (g1.gic_irqs 32).trigger_type = true ∧
      (gic_read mips_gic_h g1 0 0 mips_gic_h.GIC_SH_TRIG_63_32_OFS 4).map (fun r => r.1) =
        some 0) :=
  ⟨⟨_, rfl, by decide, by decide, by decide⟩, ⟨_, rfl, by decide⟩,
   ⟨_, rfl, by decide, by decide⟩⟩

/-- The loop of a bank write that stays inside the source table: entry `base + i` becomes
`f` of the old entry and bit `i` of `data`, for `i < n`, and no other entry changes. -/
theorem gic_write_bank_fold (f : MIPSGICIRQState → Bool → MIPSGICIRQState)
    (base data : Nat) (n : Nat) :
    ∀ g : MIPSGICState, base + n ≤ g.num_irq →
      (List.range n).foldlM
          (fun g i => irq_update g (base + i) (fun q => f q (data.testBit i))) g =
        some { g with
          gic_irqs := fun j =>
            if base ≤ j ∧ j < base + n then f (g.gic_irqs j) (data.testBit (j - base))
            else g.gic_irqs j } := by
  induction n with
  | zero =>
    intro g _
    simp only [List.range_zero, List.foldlM_nil, Option.pure_def, Option.some.injEq]
    have e : (fun j => if base ≤ j ∧ j < base + 0 then
        f (g.gic_irqs j) (data.testBit (j - base)) else g.gic_irqs j) = g.gic_irqs := by
      funext j
      have hn : ¬ (base ≤ j ∧ j < base + 0) := by omega
      rw [if_neg hn]
    rw [e]
  | succ n ih =>
    intro g hg
    have hlt : base + n < g.num_irq := by omega
    rw [List.range_succ, List.foldlM_append, ih g (by omega)]
    simp only [Option.bind_eq_bind, Option.some_bind, List.foldlM_cons, List.foldlM_nil,
      irq_update, if_pos hlt, Option.pure_def, Option.bind_some, Option.some.injEq]
    congr 1
    funext j
    by_cases hj : j = base + n
    · subst hj
      have h1 : ¬ (base ≤ base + n ∧ base + n < base + n) := by omega
      have h2 : base ≤ base + n ∧ base + n < base + (n + 1) := by omega
      simp [h1, h2]
    · rw [Function.update_noteq hj]
      by_cases hr : base ≤ j ∧ j < base + n
      · have h2 : base ≤ j ∧ j < base + (n + 1) := by omega
        rw [if_pos hr, if_pos h2]
      · have h2 : ¬ (base ≤ j ∧ j < base + (n + 1)) := by omega
        rw [if_neg hr, if_neg h2]

theorem gic_write_bank_eq (g : MIPSGICState) (f : MIPSGICIRQState → Bool → MIPSGICIRQState)
    (base data size : Nat) (h : base + size * 8 ≤ g.num_irq) :
    gic_write_bank g f base data size =
      some { g with
        gic_irqs := fun j =>
          if base ≤ j ∧ j < base + size * 8 then f (g.gic_irqs j) (data.testBit (j - base))
          else g.gic_irqs j } := by
  unfold gic_write_bank
  exact gic_write_bank_fold f base data (size * 8) g h

/-- C20 fails on the code: the read of MAP_TO_VPE computes `1 << map_vpe` in `int`.  On a
controller with 64 VPEs the 8-byte write of `2 ^ 32` to MAP_TO_VPE of source 3 stores
`map_vpe[3] = 32`, the index of the lowest set bit, and the following read shifts an
`int` by 32, which is undefined and returns no defined value; after the write of
`2 ^ 31` the stored index is 31 and the read returns the sign-extended
`0xFFFFFFFF80000000`; after the write of `2 ^ 5` the read returns `2 ^ 5`. -/
theorem map_vpe_read_shifts_int :
    (∃ g1, gic_write mips_gic_h ex_vpe64 0 0 (mips_gic_h.GIC_SH_MAP_TO_VPE_REG_OFF 3 0)
        (2 ^ 32) 8 = some (g1, []) ∧
      (g1.gic_irqs 3).map_vpe = 32 ∧
      (gic_read mips_gic_h g1 0 0 (mips_gic_h.GIC_SH_MAP_TO_VPE_REG_OFF 3 0) 8).map
        (fun r => r.1) = none) ∧
    (∃ g1, gic_write mips_gic_h ex_vpe64 0 0 (mips_gic_h.GIC_SH_MAP_TO_VPE_REG_OFF 3 0)
        (2 ^ 31) 8 = some (g1, []) ∧
      (g1.gic_irqs 3).map_vpe = 31 ∧
      (gic_read mips_gic_h g1 0 0 (mips_gic_h.GIC_SH_MAP_TO_VPE_REG_OFF 3 0) 8).map
        (fun r => r.1) = some 0xFFFFFFFF80000000) ∧
    (∃ g1, gic_write mips_gic_h ex_vpe64 0 0 (mips_gic_h.GIC_SH_MAP_TO_VPE_REG_OFF 3 0)
        (2 ^ 5) 8 = some (g1, []) ∧
      (g1.gic_irqs 3).map_vpe = 5 ∧
      (gic_read mips_gic_h g1 0 0 (mips_gic_h.GIC_SH_MAP_TO_VPE_REG_OFF 3 0) 8).map
        (fun r => r.1) = some (2 ^ 5)) :=
  ⟨⟨_, rfl, by decide, by decide⟩, ⟨_, rfl, by decide, by decide⟩,
   ⟨_, rfl, by decide, by decide⟩⟩
/-! ## The per-VPE map registers -/

/-- C21: for each of WD_MAP, COMPARE_MAP and TIMER_MAP, a write of `V` to the register of
VPE `v` actuates no pin and leaves the state with that register of `v` set to
`V & 0xE000003F` and every other field, so every other register of `v` and every
register and timer of any other VPE, as it was; a following read of the same register
of `v`, at any host time, returns `V & 0xE000003F`. -/
theorem map_register_write (L : GicHeader) (g : MIPSGICState) (now v off V : Nat) :
    (gic_write_vpe_case L off = VpeCase.WD_MAP → gic_read_vpe_case L off = VpeCase.WD_MAP →
      gic_write_vpe L g now v off V =
        ({ g with
          gic_vpe_wd_map := Function.update g.gic_vpe_wd_map v (V &&& 0xE000003F) }, []) ∧
      ∀ now2, (gic_read_vpe L (gic_write_vpe L g now v off V).1 now2 v off).1 =
        V &&& 0xE000003F) ∧
    (gic_write_vpe_case L off = VpeCase.COMPARE_MAP →
      gic_read_vpe_case L off = VpeCase.COMPARE_MAP →
      gic_write_vpe L g now v off V =
        ({ g with
          gic_vpe_compare_map :=
            Function.update g.gic_vpe_compare_map v (V &&& 0xE000003F) }, []) ∧
      ∀ now2, (gic_read_vpe L (gic_write_vpe L g now v off V).1 now2 v off).1 =
        V &&& 0xE000003F) ∧
    (gic_write_vpe_case L off = VpeCase.TIMER_MAP →
      gic_read_vpe_case L off = VpeCase.TIMER_MAP →
      gic_write_vpe L g now v off V =
        ({ g with
          gic_vpe_timer_map := Function.update g.gic_vpe_timer_map v (V &&& 0xE000003F) }, []) ∧
      ∀ now2, (gic_read_vpe L (gic_write_vpe L g now v off V).1 now2 v off).1 =
        V &&& 0xE000003F) ∧
    (gic_write_vpe_case L off = VpeCase.WD_MAP ∨ gic_write_vpe_case L off = VpeCase.COMPARE_MAP ∨
        gic_write_vpe_case L off = VpeCase.TIMER_MAP →
      ∀ w, w ≠ v → vpe_regs_eq g (gic_write_vpe L g now v off V).1 w) := by
  refine ⟨?_, ?_, ?_, ?_⟩
  · intro hw hr
    have e : gic_write_vpe L g now v off V =
        ({ g with
          gic_vpe_wd_map := Function.update g.gic_vpe_wd_map v (V &&& 0xE000003F) }, []) := by
      unfold gic_write_vpe; rw [hw]
    refine ⟨e, fun now2 => ?_⟩
    rw [e]; unfold gic_read_vpe; rw [hr]; simp
  · intro hw hr
    have e : gic_write_vpe L g now v off V =
        ({ g with
          gic_vpe_compare_map :=
            Function.update g.gic_vpe_compare_map v (V &&& 0xE000003F) }, []) := by
      unfold gic_write_vpe; rw [hw]
    refine ⟨e, fun now2 => ?_⟩
    rw [e]; unfold gic_read_vpe; rw [hr]; simp
  · intro hw hr
    have e : gic_write_vpe L g now v off V =
        ({ g with
          gic_vpe_timer_map :=
            Function.update g.gic_vpe_timer_map v (V &&& 0xE000003F) }, []) := by
      unfold gic_write_vpe; rw [hw]
    refine ⟨e, fun now2 => ?_⟩
    rw [e]; unfold gic_read_vpe; rw [hr]; simp
  · intro _ w hw
    exact gic_write_vpe_frame L g now v off V w hw

/-- C21 at `ex_compare_fired`: the write of `0xFFFFFFFF` to WD_MAP, COMPARE_MAP and
TIMER_MAP of VPE 0 reads back as `0xE000003F`. -/
theorem map_register_write_witness :
    (gic_read_vpe mips_gic_h
      (gic_write_vpe mips_gic_h ex_compare_fired 0 0 mips_gic_h.GIC_VPE_WD_MAP_OFS
        0xFFFFFFFF).1 7 0 mips_gic_h.GIC_VPE_WD_MAP_OFS).1 = 0xE000003F ∧
    (gic_read_vpe mips_gic_h
      (gic_write_vpe mips_gic_h ex_compare_fired 0 0 mips_gic_h.GIC_VPE_COMPARE_MAP_OFS
        0xFFFFFFFF).1 7 0 mips_gic_h.GIC_VPE_COMPARE_MAP_OFS).1 = 0xE000003F ∧
    (gic_read_vpe mips_gic_h
      (gic_write_vpe mips_gic_h ex_compare_fired 0 0 mips_gic_h.GIC_VPE_TIMER_MAP_OFS
        0xFFFFFFFF).1 7 0 mips_gic_h.GIC_VPE_TIMER_MAP_OFS).1 = 0xE000003F :=
  ⟨((map_register_write mips_gic_h ex_compare_fired 0 0 mips_gic_h.GIC_VPE_WD_MAP_OFS
      0xFFFFFFFF).1 (by decide) (by decide)).2 7,
   ((map_register_write mips_gic_h ex_compare_fired 0 0 mips_gic_h.GIC_VPE_COMPARE_MAP_OFS
      0xFFFFFFFF).2.1 (by decide) (by decide)).2 7,
   ((map_register_write mips_gic_h ex_compare_fired 0 0 mips_gic_h.GIC_VPE_TIMER_MAP_OFS
      0xFFFFFFFF).2.2.1 (by decide) (by decide)).2 7⟩

/-! ## The register GIC_SH_CONFIG -/

theorem new_config_testBit_other (cfg data i : Nat) (hi : i ≠ 28) (h32 : i < 32) :
    (u32 ((cfg &&& 0xEFFFFFFF) ||| (data &&& 0x10000000))).testBit i = cfg.testBit i := by
  have h1 : Nat.testBit 0xEFFFFFFF i = true := by
    interval_cases i <;> first | decide | exact absurd rfl hi
  have h2 : Nat.testBit 0x10000000 i = false := by
    interval_cases i <;> first | decide | exact absurd rfl hi
  unfold u32
  rw [Nat.testBit_mod_two_pow, Nat.testBit_or, Nat.testBit_and, Nat.testBit_and, h1, h2]
  simp [h32]

theorem new_config_eq_self (cfg data : Nat) (hcfg : cfg < 2 ^ 32)
    (hd : data.testBit 28 = cfg.testBit 28) :
    u32 ((cfg &&& 0xEFFFFFFF) ||| (data &&& 0x10000000)) = cfg := by
  apply Nat.eq_of_testBit_eq
  intro i
  by_cases h28 : i = 28
  · subst h28
    rw [new_config_testBit, hd]
  · by_cases h32 : i < 32
    · exact new_config_testBit_other cfg data i h28 h32
    · have hge : 2 ^ 32 ≤ 2 ^ i := Nat.pow_le_pow_right (by decide) (by omega)
      rw [Nat.testBit_lt_two_pow (Nat.lt_of_lt_of_le hcfg hge)]
      unfold u32
      rw [Nat.testBit_mod_two_pow]
      simp [h32]

theorem gic_store_sh_count_config (g : MIPSGICState) (now count : Nat) :
    (gic_store_sh_count g now count).gic_gl_config = g.gic_gl_config := by
  unfold gic_store_sh_count
  split
  · rfl
  · unfold gic_update_all_timers
    exact (foldl_timer_update_fields now _ _).2

theorem gic_write_config_config (g : MIPSGICState) (now data : Nat) :
    (gic_write_config g now data).gic_gl_config =
      u32 ((g.gic_gl_config &&& 0xEFFFFFFF) ||| (data &&& 0x10000000)) := by
  unfold gic_write_config
  simp only
  split_ifs <;>
    first
    | rfl
    | exact (gic_timer_stop_count_fields _ now).2.1
    | exact gic_store_sh_count_config _ now _
    | (unfold gic_timer_start_count
       rw [gic_store_sh_count_config]
       exact (gic_timer_stop_count_fields _ now).2.1)

theorem gic_write_config_same (g : MIPSGICState) (now data : Nat)
    (hcfg : g.gic_gl_config < 2 ^ 32)
    (hd : data.testBit 28 = g.gic_gl_config.testBit 28) :
    gic_write_config g now data = g := by
  have e := new_config_eq_self g.gic_gl_config data hcfg hd
  unfold gic_write_config
  simp only
  rw [e]
  simp

/-- C22: a write of `data` to GIC_SH_CONFIG completes without pin actuation and leaves
every bit of the config word other than bit 28 as it was, so the low 8 bits holding
`num_cpu` too; a read of GIC_SH_CONFIG returns the new word; and when bit 28 of `data`
equals bit 28 of the config word the write returns the state it started from. -/
theorem config_write_bit28_only (L : GicHeader) (g : MIPSGICState)
    (now c data size : Nat) (hz : L.shared_only L.GIC_SH_CONFIG_OFS)
    (hcfg : g.gic_gl_config < 2 ^ 32) :
    ∃ g1, gic_write L g now c L.GIC_SH_CONFIG_OFS data size = some (g1, []) ∧
      (∀ i, i ≠ 28 → g1.gic_gl_config.testBit i = g.gic_gl_config.testBit i) ∧
      g1.gic_gl_config % 2 ^ 8 = g.gic_gl_config % 2 ^ 8 ∧
      (∀ now2 c2 size2,
        gic_read L g1 now2 c2 L.GIC_SH_CONFIG_OFS size2 = some (g1.gic_gl_config, g1, [])) ∧
      (data.testBit 28 = g.gic_gl_config.testBit 28 → g1 = g) := by
  have hw : gic_write L g now c L.GIC_SH_CONFIG_OFS data size =
      some (gic_write_config g now data, []) := by
    rw [gic_write_shared_only L g now c _ data size hz]
    simp [gic_write_switch, gic_write_case]
  have hbits : ∀ i, i ≠ 28 →
      (gic_write_config g now data).gic_gl_config.testBit i = g.gic_gl_config.testBit i := by
    intro i hi
    rw [gic_write_config_config]
    by_cases h32 : i < 32
    · exact new_config_testBit_other _ data i hi h32
    · have hge : 2 ^ 32 ≤ 2 ^ i := Nat.pow_le_pow_right (by decide) (by omega)
      rw [Nat.testBit_lt_two_pow (Nat.lt_of_lt_of_le hcfg hge)]
      unfold u32
      rw [Nat.testBit_mod_two_pow]
      simp [h32]
  refine ⟨gic_write_config g now data, hw, hbits, ?_, ?_, ?_⟩
  · apply Nat.eq_of_testBit_eq
    intro i
    rw [Nat.testBit_mod_two_pow, Nat.testBit_mod_two_pow]
    by_cases h8 : i < 8
    · rw [hbits i (by omega)]
    · simp [h8]
  · intro now2 c2 size2
    simp [gic_read, gic_read_case]
  · intro hd
    exact gic_write_config_same g now data hcfg hd

/-- C22 at `ex_running` (config `0x000F0002`): a write of `0xFFFFFFFF` to GIC_SH_CONFIG
leaves the low 8 bits at 2, and a write of `0xEFFFFFFF`, whose bit 28 is clear like
that of the config word, leaves the state as it was. -/
theorem config_write_bit28_only_witness :
    (∃ g1, gic_write mips_gic_h ex_running 0 0 mips_gic_h.GIC_SH_CONFIG_OFS 0xFFFFFFFF 4 =
        some (g1, []) ∧ g1.gic_gl_config % 2 ^ 8 = 2) ∧
    gic_write mips_gic_h ex_running 0 0 mips_gic_h.GIC_SH_CONFIG_OFS 0xEFFFFFFF 4 =
      some (ex_running, []) := by
  obtain ⟨g1, h1, _, h3, _, _⟩ :=
    config_write_bit28_only mips_gic_h ex_running 0 0 0xFFFFFFFF 4 (by decide) (by decide)
  obtain ⟨g2, k1, _, _, _, k5⟩ :=
    config_write_bit28_only mips_gic_h ex_running 0 0 0xEFFFFFFF 4 (by decide) (by decide)
  refine ⟨⟨g1, h1, h3.trans (by decide)⟩, ?_⟩
  rw [k1, k5 (by decide)]

/-! ## Source ids outside the table -/

/-- With `n_IRQ` at or above `num_irq` the first statement of `gic_set_irq`, the store to
`gic_irqs[n_IRQ].pending`, is outside the allocated table. -/
theorem gic_set_irq_out_of_table (g : MIPSGICState) (n : Nat) (level : Int)
    (h : g.num_irq ≤ n) : gic_set_irq g n level = none := by
  unfold gic_set_irq
  rw [if_neg (by omega)]

/-- C23 fails on the code: `gic_set_irq` has no test of `n_IRQ` against `num_irq`.  On the
controller `ex_routing` with 8 sources, `gic_set_irq(8, 1)` and `gic_set_irq(300, 0)`
store to `gic_irqs[n].pending` outside the table instead of returning, and so does the
write of `0x80000008` to GIC_SH_WEDGE, which indexes `irqs[8]`; the same calls on
source 7, the last of the table, complete. -/
theorem set_irq_out_of_range_not_dropped :
    (gic_set_irq ex_routing 8 1).map (fun r => r.2) = none ∧
    (gic_set_irq ex_routing 300 0).map (fun r => r.2) = none ∧
    (gic_write mips_gic_h ex_routing 0 0 mips_gic_h.GIC_SH_WEDGE_OFS 0x80000008 4).map
      (fun r => r.2) = none ∧
    (gic_set_irq ex_routing 7 1).map (fun r => r.2) = some [] ∧
    (gic_write mips_gic_h ex_routing 0 0 mips_gic_h.GIC_SH_WEDGE_OFS 0x80000007 4).map
      (fun r => r.2) = some [] :=
  ⟨by decide, by decide, by decide, by decide, by decide⟩

/-! ## Offsets that decode to no register -/

theorem gic_read_shared_default (L : GicHeader) (g : MIPSGICState) (now c addr size : Nat)
    (hc : gic_read_case L addr = ShCase.dflt) (hz : L.shared_only addr) :
    gic_read L g now c addr size = some (0, g, []) := by
  obtain ⟨h1, h2, h3, h4⟩ := hz
  simp [gic_read, hc, if_neg h1, if_neg h2, if_neg h3, if_neg h4]

theorem gic_write_shared_default (L : GicHeader) (g : MIPSGICState)
    (now c addr data size : Nat)
    (hc : gic_write_case L addr = ShCase.dflt) (hz : L.shared_only addr) :
    gic_write L g now c addr data size = some (g, []) := by
  rw [gic_write_shared_only L g now c addr data size hz]
  simp [gic_write_switch, hc]

theorem user_mode_decodes_nothing (L : GicHeader) (addr : Nat) (hL : L.user_mode_last)
    (ha : L.GIC_USERMODE_BASE_ADDR ≤ addr) :
    gic_read_case L addr = ShCase.dflt ∧ gic_write_case L addr = ShCase.dflt ∧
      L.shared_only addr := by
  obtain ⟨h1, h2, h3, h4⟩ := hL
  have hn : ∀ a ∈ L.shared_regs, addr ≠ a := by
    intro a hmem hc
    have := h1 a hmem
    omega
  have hnm : ∀ l : List Nat, (∀ a ∈ l, a ∈ L.shared_regs) → addr ∉ l := by
    intro l hl hc
    exact hn addr (hl addr hc) rfl
  have e1 := hn L.GIC_SH_CONFIG_OFS (by simp [GicHeader.shared_regs])
  have e2 := hn (L.GIC_SH_CONFIG_OFS + 4) (by simp [GicHeader.shared_regs])
  have e3 := hn L.GIC_SH_COUNTERLO_OFS (by simp [GicHeader.shared_regs])
  have e4 := hn L.GIC_SH_COUNTERHI_OFS (by simp [GicHeader.shared_regs])
  have e5 := hn L.GIC_SH_WEDGE_OFS (by simp [GicHeader.shared_regs])
  have m1 : addr ∉ L.POL := hnm _ (fun a ha => by
    simp only [GicHeader.shared_regs, List.mem_append]; tauto)
  have m2 : addr ∉ L.TRIG := hnm _ (fun a ha => by
    simp only [GicHeader.shared_regs, List.mem_append]; tauto)
  have m3 : addr ∉ L.PEND := hnm _ (fun a ha => by
    simp only [GicHeader.shared_regs, List.mem_append]; tauto)
  have m4 : addr ∉ L.MASK := hnm _ (fun a ha => by
    simp only [GicHeader.shared_regs, List.mem_append]; tauto)
  have m5 : addr ∉ L.RMASK := hnm _ (fun a ha => by
    simp only [GicHeader.shared_regs, List.mem_append]; tauto)
  have m6 : addr ∉ L.SMASK := hnm _ (fun a ha => by
    simp only [GicHeader.shared_regs, List.mem_append]; tauto)
  refine ⟨?_, ?_, ?_⟩
  · simp only [gic_read_case, if_neg e1, if_neg e2, if_neg e3, if_neg e4, if_neg m1,
      if_neg m2, if_neg m3, if_neg m4]
  · simp only [gic_write_case, if_neg e1, if_neg e2, if_neg e3, if_neg e4, if_neg e5,
      if_neg m1, if_neg m2, if_neg m5, if_neg m6]
  · refine ⟨?_, ?_, ?_, ?_⟩ <;> omega

/-- C24: at an address that decodes to no register, a read returns 0 and changes nothing,
and a write leaves the state as it was and actuates no pin: an address of the shared
section that selects no case label and lies in no map range and no window; an address
of the VPE-local or the VPE-other window whose offset selects no case label of
`gic_read_vpe`, resp. `gic_write_vpe`; and, the user-mode base lying above everything
the controller decodes, every address at or above it. -/
theorem unknown_offset_ignored (L : GicHeader) (g : MIPSGICState)
    (now c addr data size : Nat) :
    (gic_read_case L addr = ShCase.dflt → L.shared_only addr →
      gic_read L g now c addr size = some (0, g, [])) ∧
    (gic_write_case L addr = ShCase.dflt → L.shared_only addr →
      gic_write L g now c addr data size = some (g, [])) ∧
    (L.local_only addr →
      (gic_read_vpe_case L (addr - L.GIC_VPELOCAL_BASE_ADDR) = VpeCase.dflt →
        gic_read L g now c addr size = some (0, g, [])) ∧
      (gic_write_vpe_case L (addr - L.GIC_VPELOCAL_BASE_ADDR) = VpeCase.dflt →
        gic_write L g now c addr data size = some (g, []))) ∧
    (L.other_only addr →
      (gic_read_vpe_case L (addr - L.GIC_VPEOTHER_BASE_ADDR) = VpeCase.dflt →
        gic_read L g now c addr size = some (0, g, [])) ∧
      (gic_write_vpe_case L (addr - L.GIC_VPEOTHER_BASE_ADDR) = VpeCase.dflt →
        gic_write L g now c addr data size = some (g, []))) ∧
    (L.user_mode_last → L.GIC_USERMODE_BASE_ADDR ≤ addr →
      gic_read L g now c addr size = some (0, g, []) ∧
      gic_write L g now c addr data size = some (g, [])) := by
  refine ⟨gic_read_shared_default L g now c addr size,
    gic_write_shared_default L g now c addr data size, ?_, ?_, ?_⟩
  · intro hl
    constructor
    · intro hc
      rw [gic_read_local L g now c addr size hl]
      unfold gic_read_vpe
      rw [hc]
    · intro hc
      rw [gic_write_local L g now c addr data size hl]
      unfold gic_write_vpe
      rw [hc]
  · intro ho
    constructor
    · intro hc
      rw [gic_read_other L g now c addr size ho]
      unfold gic_read_vpe
      rw [hc]
    · intro hc
      rw [gic_write_other L g now c addr data size ho]
      unfold gic_write_vpe
      rw [hc]
  · intro hL ha
    obtain ⟨h1, h2, h3⟩ := user_mode_decodes_nothing L addr hL ha
    exact ⟨gic_read_shared_default L g now c addr size h1 h3,
      gic_write_shared_default L g now c addr data size h2 h3⟩

/-- C24 at `ex_asserted` with the register map of the specification: the unmapped shared
offset `0x50`, the unknown offset `0x200` of the VPE-local window and the user-mode
base read 0 and ignore a write. -/
theorem unknown_offset_ignored_witness :
    gic_read mips_gic_h ex_asserted 0 0 0x50 4 = some (0, ex_asserted, []) ∧
    gic_write mips_gic_h ex_asserted 0 0 0x50 0xFFFFFFFF 4 = some (ex_asserted, []) ∧
    gic_read mips_gic_h ex_asserted 0 0 (mips_gic_h.GIC_VPELOCAL_BASE_ADDR + 0x200) 4 =
      some (0, ex_asserted, []) ∧
    gic_write mips_gic_h ex_asserted 0 0 (mips_gic_h.GIC_VPELOCAL_BASE_ADDR + 0x200)
      0xFFFFFFFF 4 = some (ex_asserted, []) ∧
    gic_read mips_gic_h ex_asserted 0 0 mips_gic_h.GIC_USERMODE_BASE_ADDR 4 =
      some (0, ex_asserted, []) ∧
    gic_write mips_gic_h ex_asserted 0 0 mips_gic_h.GIC_USERMODE_BASE_ADDR 0xFFFFFFFF 4 =
      some (ex_asserted, []) :=
  ⟨(unknown_offset_ignored mips_gic_h ex_asserted 0 0 0x50 0xFFFFFFFF 4).1
      (by decide) (by decide),
   (unknown_offset_ignored mips_gic_h ex_asserted 0 0 0x50 0xFFFFFFFF 4).2.1
      (by decide) (by decide),
   ((unknown_offset_ignored mips_gic_h ex_asserted 0 0
      (mips_gic_h.GIC_VPELOCAL_BASE_ADDR + 0x200) 0xFFFFFFFF 4).2.2.1 (by decide)).1
      (by decide),
   ((unknown_offset_ignored mips_gic_h ex_asserted 0 0
      (mips_gic_h.GIC_VPELOCAL_BASE_ADDR + 0x200) 0xFFFFFFFF 4).2.2.1 (by decide)).2
      (by decide),
   ((unknown_offset_ignored mips_gic_h ex_asserted 0 0 mips_gic_h.GIC_USERMODE_BASE_ADDR
      0xFFFFFFFF 4).2.2.2.2 (by decide) (by decide)).1,
   ((unknown_offset_ignored mips_gic_h ex_asserted 0 0 mips_gic_h.GIC_USERMODE_BASE_ADDR
      0xFFFFFFFF 4).2.2.2.2 (by decide) (by decide)).2⟩

/-! ## Bank accesses at the end of the source table -/

/-- A bank write whose last source index is at or above `num_irq` leaves the table. -/
theorem gic_write_bank_out_of_table (f : MIPSGICIRQState → Bool → MIPSGICIRQState)
    (base data : Nat) (n : Nat) :
    ∀ g : MIPSGICState, base ≤ g.num_irq → g.num_irq < base + n →
      (List.range n).foldlM
          (fun g i => irq_update g (base + i) (fun q => f q (data.testBit i))) g = none := by
  induction n with
  | zero => intro g h1 h2; omega
  | succ n ih =>
    intro g h1 h2
    rw [List.range_succ, List.foldlM_append]
    by_cases hn : g.num_irq < base + n
    · rw [ih g h1 hn]
      rfl
    · rw [gic_write_bank_fold f base data n g (by omega)]
      have hlt : ¬ (base + n < g.num_irq) := by omega
      simp only [Option.bind_eq_bind, Option.some_bind, List.foldlM_cons, irq_update,
        if_neg hlt, Option.none_bind]

/-- The function `gic_write` called with 8 bytes at the last bank register of each kind,
an address that is not a multiple of 8: the base bit is 224 and the loop runs over
`gic_irqs[224 .. 287]`, past the end of a table of 256 sources.  The memory core does
not pass such an access on (`memory_region_access_valid`); the 4-byte write to the
same register and the 8-byte write to the bank before it stay inside. -/
theorem last_bank_wide_write_leaves_table :
    (gic_write mips_gic_h ex_banks 0 0 mips_gic_h.GIC_SH_POL_255_224_OFS 0 8).map
      (fun r => r.2) = none ∧
    (gic_write mips_gic_h ex_banks 0 0 mips_gic_h.GIC_SH_TRIG_255_224_OFS 0 8).map
      (fun r => r.2) = none ∧
    (gic_write mips_gic_h ex_banks 0 0 mips_gic_h.GIC_SH_RMASK_255_224_OFS 0 8).map
      (fun r => r.2) = none ∧
    (gic_write mips_gic_h ex_banks 0 0 mips_gic_h.GIC_SH_SMASK_255_224_OFS 0 8).map
      (fun r => r.2) = none ∧
    (gic_write mips_gic_h ex_banks 0 0 mips_gic_h.GIC_SH_POL_255_224_OFS 0 4).map
      (fun r => r.2) = some [] ∧
    (gic_write mips_gic_h ex_banks 0 0 mips_gic_h.GIC_SH_POL_223_192_OFS 0 8).map
      (fun r => r.2) = some [] :=
  ⟨by decide, by decide, by decide, by decide, by decide, by decide⟩


theorem bank_base_bound (P0 addr size : Nat)
    (hmem : addr ∈ (List.range 8).map (fun k => P0 + 4 * k)) (h0 : P0 % 8 = 0)
    (hv : memory_region_access_valid addr size) :
    (addr - P0) * 8 + size * 8 ≤ 256 := by
  obtain ⟨hs, ha⟩ := hv
  simp only [List.mem_map, List.mem_range] at hmem
  obtain ⟨k, hk, rfl⟩ := hmem
  rcases hs with rfl | rfl | rfl | rfl <;> omega

theorem gic_write_case_pol (L : GicHeader) (addr : Nat)
    (h : gic_write_case L addr = ShCase.POL) : addr ∈ L.POL := by
  by_contra hn
  unfold gic_write_case at h
  rw [if_neg hn] at h
  repeat (split at h <;> try cases h)

theorem gic_write_case_trig (L : GicHeader) (addr : Nat)
    (h : gic_write_case L addr = ShCase.TRIG) : addr ∈ L.TRIG := by
  by_contra hn
  unfold gic_write_case at h
  rw [if_neg hn] at h
  repeat (split at h <;> try cases h)

theorem gic_write_case_rmask (L : GicHeader) (addr : Nat)
    (h : gic_write_case L addr = ShCase.RMASK) : addr ∈ L.RMASK := by
  by_contra hn
  unfold gic_write_case at h
  rw [if_neg hn] at h
  repeat (split at h <;> try cases h)

theorem gic_write_case_smask (L : GicHeader) (addr : Nat)
    (h : gic_write_case L addr = ShCase.SMASK) : addr ∈ L.SMASK := by
  by_contra hn
  unfold gic_write_case at h
  rw [if_neg hn] at h
  repeat (split at h <;> try cases h)

theorem gic_write_bank_spec (g : MIPSGICState) (f : MIPSGICIRQState → Bool → MIPSGICIRQState)
    (base data size : Nat) (h : base + size * 8 ≤ g.num_irq) :
    (gic_write_bank g f base data size).map (fun x => (x, ([] : List PinEvent))) =
      some (bank_write_spec g f base data size, []) := by
  rw [gic_write_bank_eq g f base data size h]
  rfl

/-- C25: on a controller with 256 sources, every access of 1, 2, 4 or 8 bytes that the
memory core accepts (the address a multiple of the size) and that writes a polarity,
trigger, RMASK or SMASK bank register has `base + size * 8 <= num_irq`, so every index
`base + i` of its loop is below `num_irq`; the write completes without pin actuation
and applies bit `i` of the data to source `base + i` for every `i < size * 8`, changing
nothing else. -/
theorem bank_write_in_table (L : GicHeader) (g : MIPSGICState)
    (now c addr data size : Nat) (hL : L.banks_packed) (h256 : g.num_irq = 256)
    (hv : memory_region_access_valid addr size) (hz : L.shared_only addr) :
    (gic_write_case L addr = ShCase.POL →
      (addr - L.GIC_SH_POL_31_0_OFS) * 8 + size * 8 ≤ g.num_irq ∧
      gic_write L g now c addr data size =
        some (bank_write_spec g (fun q b => { q with polarity := b })
          ((addr - L.GIC_SH_POL_31_0_OFS) * 8) data size, [])) ∧
    (gic_write_case L addr = ShCase.TRIG →
      (addr - L.GIC_SH_TRIG_31_0_OFS) * 8 + size * 8 ≤ g.num_irq ∧
      gic_write L g now c addr data size =
        some (bank_write_spec g (fun q b => { q with trigger_type := b })
          ((addr - L.GIC_SH_TRIG_31_0_OFS) * 8) data size, [])) ∧
    (gic_write_case L addr = ShCase.RMASK →
      (addr - L.GIC_SH_RMASK_31_0_OFS) * 8 + size * 8 ≤ g.num_irq ∧
      gic_write L g now c addr data size =
        some (bank_write_spec g (fun q b => { q with enabled := q.enabled && !b })
          ((addr - L.GIC_SH_RMASK_31_0_OFS) * 8) data size, [])) ∧
    (gic_write_case L addr = ShCase.SMASK →
      (addr - L.GIC_SH_SMASK_31_0_OFS) * 8 + size * 8 ≤ g.num_irq ∧
      gic_write L g now c addr data size =
        some (bank_write_spec g (fun q b => { q with enabled := q.enabled || b })
          ((addr - L.GIC_SH_SMASK_31_0_OFS) * 8) data size, [])) := by
  obtain ⟨⟨p1, p2⟩, ⟨t1, t2⟩, ⟨r1, r2⟩, ⟨s1, s2⟩⟩ := hL
  have e := gic_write_shared_only L g now c addr data size hz
  refine ⟨?_, ?_, ?_, ?_⟩
  · intro hc
    have hm := gic_write_case_pol L addr hc
    rw [p1] at hm
    have hb : (addr - L.GIC_SH_POL_31_0_OFS) * 8 + size * 8 ≤ g.num_irq := by
      rw [h256]; exact bank_base_bound _ addr size hm p2 hv
    refine ⟨hb, ?_⟩
    rw [e]
    unfold gic_write_switch
    rw [hc]
    exact gic_write_bank_spec g _ _ data size hb
  · intro hc
    have hm := gic_write_case_trig L addr hc
    rw [t1] at hm
    have hb : (addr - L.GIC_SH_TRIG_31_0_OFS) * 8 + size * 8 ≤ g.num_irq := by
      rw [h256]; exact bank_base_bound _ addr size hm t2 hv
    refine ⟨hb, ?_⟩
    rw [e]
    unfold gic_write_switch
    rw [hc]
    exact gic_write_bank_spec g _ _ data size hb
  · intro hc
    have hm := gic_write_case_rmask L addr hc
    rw [r1] at hm
    have hb : (addr - L.GIC_SH_RMASK_31_0_OFS) * 8 + size * 8 ≤ g.num_irq := by
      rw [h256]; exact bank_base_bound _ addr size hm r2 hv
    refine ⟨hb, ?_⟩
    rw [e]
    unfold gic_write_switch
    rw [hc]
    exact gic_write_bank_spec g _ _ data size hb
  · intro hc
    have hm := gic_write_case_smask L addr hc
    rw [s1] at hm
    have hb : (addr - L.GIC_SH_SMASK_31_0_OFS) * 8 + size * 8 ≤ g.num_irq := by
      rw [h256]; exact bank_base_bound _ addr size hm s2 hv
    refine ⟨hb, ?_⟩
    rw [e]
    unfold gic_write_switch
    rw [hc]
    exact gic_write_bank_spec g _ _ data size hb

/-- C25 at `ex_banks` (256 sources) with the register map of the specification: the 8-byte
write to GIC_SH_POL_223_192 covers sources 192 to 255 and the 4-byte write to
GIC_SH_SMASK_255_224 sources 224 to 255; both complete. -/
theorem bank_write_in_table_witness :
    ((mips_gic_h.GIC_SH_POL_223_192_OFS - mips_gic_h.GIC_SH_POL_31_0_OFS) * 8 + 8 * 8 ≤
        ex_banks.num_irq ∧
      gic_write mips_gic_h ex_banks 0 0 mips_gic_h.GIC_SH_POL_223_192_OFS 0xFF 8 =
        some (bank_write_spec ex_banks (fun q b => { q with polarity := b })
          ((mips_gic_h.GIC_SH_POL_223_192_OFS - mips_gic_h.GIC_SH_POL_31_0_OFS) * 8)
          0xFF 8, [])) ∧
    ((mips_gic_h.GIC_SH_SMASK_255_224_OFS - mips_gic_h.GIC_SH_SMASK_31_0_OFS) * 8 + 4 * 8 ≤
        ex_banks.num_irq ∧
      gic_write mips_gic_h ex_banks 0 0 mips_gic_h.GIC_SH_SMASK_255_224_OFS 0xFF 4 =
        some (bank_write_spec ex_banks (fun q b => { q with enabled := q.enabled || b })
          ((mips_gic_h.GIC_SH_SMASK_255_224_OFS - mips_gic_h.GIC_SH_SMASK_31_0_OFS) * 8)
          0xFF 4, [])) :=
  ⟨(bank_write_in_table mips_gic_h ex_banks 0 0 mips_gic_h.GIC_SH_POL_223_192_OFS 0xFF 8
      (by decide) (by decide) (by decide) (by decide)).1 (by decide),
   (bank_write_in_table mips_gic_h ex_banks 0 0 mips_gic_h.GIC_SH_SMASK_255_224_OFS 0xFF 4
      (by decide) (by decide) (by decide) (by decide)).2.2.2 (by decide)⟩

/-! ## The wait computed inside the timer callback -/

theorem gic_vpe_timer_cb_timer (g : MIPSGICState) (now v : Nat) :
    (gic_vpe_timer_cb g now v).1.gic_timer v =
      some (u64 (now + sub32 (sub32 (g.gic_vpe_comparelo v) (u32 (g.gic_sh_counterlo + 1)))
        (u32 (now / 10)) * 10)) := by
  rw [gic_vpe_timer_cb_eq]
  simp only
  rw [gic_vpe_timer_expire_timer]

theorem biased_wait (cmp cb t : Nat) (h0 : sub32 (sub32 cmp cb) (u32 t) = 0) :
    sub32 (sub32 cmp (u32 (cb + 1))) (u32 t) = 2 ^ 32 - 1 := by
  simp only [sub32, u32] at h0 ⊢
  omega

/-- C26 fails as stated: in `ex_running` at host time 100 ns the unbiased wait of VPE 0 is
`0xFFFFFF0A - 0xFFFFFF00 - 10 = 0`; the wait computed inside the callback, after
`gic_sh_counterlo++`, is `2^32 - 1`, and the callback leaves the timer armed at
`100 + 10 * (2^32 - 1)` ns, not at 110 ns. -/
theorem callback_wait_wraps :
    (gic_vpe_timer_update ex_running 100 0).2 = 0 ∧
    (gic_vpe_timer_update
      { ex_running with gic_sh_counterlo := u32 (ex_running.gic_sh_counterlo + 1) }
      100 0).2 = 4294967295 ∧
    (gic_vpe_timer_cb ex_running 100 0).1.gic_timer 0 = some 42949673050 ∧
    (gic_vpe_timer_cb ex_running 100 0).1.gic_timer 0 ≠ some 110 :=
  ⟨by decide, by decide, by decide, by decide⟩

/-- C26 as the code has it: in the timer callback of VPE `v` at host time `now`, if the
unbiased wait `(compare_lo[v] - counter_base - now / 10) mod 2^32`, the value
`gic_vpe_timer_update` returns outside the callback, is 0, then the wait computed
inside the callback, where `counter_base` is one higher, is `2^32 - 1`, and the
callback leaves the timer of `v` armed at `now + 10 * (2^32 - 1)` ns. -/
theorem timer_cb_wait (g : MIPSGICState) (now v : Nat) (hnow : now < 2 ^ 63)
    (h0 : (gic_vpe_timer_update g now v).2 = 0) :
    (gic_vpe_timer_update { g with gic_sh_counterlo := u32 (g.gic_sh_counterlo + 1) }
      now v).2 = 2 ^ 32 - 1 ∧
    (gic_vpe_timer_cb g now v).1.gic_timer v = some (now + 10 * (2 ^ 32 - 1)) := by
  simp only [gic_vpe_timer_update, TIMER_PERIOD] at h0
  have hb := biased_wait _ _ _ h0
  constructor
  · simp only [gic_vpe_timer_update, TIMER_PERIOD]
    omega
  · rw [gic_vpe_timer_cb_timer, hb]
    simp only [u64, Option.some.injEq]
    omega

/-- C26 (amended) at `ex_running`, host time 100 ns, VPE 0. -/
theorem timer_cb_wait_witness :
    (gic_vpe_timer_cb ex_running 100 0).1.gic_timer 0 = some (100 + 10 * (2 ^ 32 - 1)) :=
  (timer_cb_wait ex_running 100 0 (by decide) (by decide)).2

/-! ## The deadline computed by `gic_vpe_timer_update` -/

theorem deadline_arith (cmp cb now : Nat) (hnow : now < 2 ^ 63) (hcmp : cmp < 2 ^ 32) :
    ((sub32 (sub32 cmp cb) (u32 (now / 10)) : Nat) : Int) =
        ((cmp : Int) - (cb : Int) - ((now / 10 : Nat) : Int)) % 2 ^ 32 ∧
      u64 (now + sub32 (sub32 cmp cb) (u32 (now / 10)) * 10) =
        now + 10 * sub32 (sub32 cmp cb) (u32 (now / 10)) ∧
      sub32 (sub32 cmp cb) (u32 (now / 10)) < 2 ^ 32 ∧
      (cb + (now + 10 * sub32 (sub32 cmp cb) (u32 (now / 10))) / 10) % 2 ^ 32 = cmp := by
  simp only [sub32, u32, u64]
  omega

/-- C27: for a host time `now` (a non-negative `int64_t`) and a 32-bit `compare_lo[v]`,
`gic_vpe_timer_update` returns `wait = (compare_lo[v] - counter_base - now / 10) mod 2^32`
and arms the timer of `v` at `d = now + 10 * wait`, with `now <= d < now + 10 * 2^32`;
the counter formula at time `d`, `(counter_base + d / 10) mod 2^32`, gives
`compare_lo[v]`, and so does `gic_get_sh_count` at time `d` while the counter runs. -/
theorem timer_deadline (g : MIPSGICState) (now v : Nat) (hnow : now < 2 ^ 63)
    (hcmp : g.gic_vpe_comparelo v < 2 ^ 32) :
    (((gic_vpe_timer_update g now v).2 : Nat) : Int) =
      ((g.gic_vpe_comparelo v : Int) - (g.gic_sh_counterlo : Int) -
        ((now / 10 : Nat) : Int)) % 2 ^ 32 ∧
    (gic_vpe_timer_update g now v).1.gic_timer v =
      some (now + 10 * (gic_vpe_timer_update g now v).2) ∧
    now ≤ now + 10 * (gic_vpe_timer_update g now v).2 ∧
    now + 10 * (gic_vpe_timer_update g now v).2 < now + 10 * 2 ^ 32 ∧
    (g.gic_sh_counterlo + (now + 10 * (gic_vpe_timer_update g now v).2) / 10) % 2 ^ 32 =
      g.gic_vpe_comparelo v ∧
    (g.gic_gl_config.testBit 28 = false →
      (gic_get_sh_count (gic_vpe_timer_update g now v).1
        (now + 10 * (gic_vpe_timer_update g now v).2)).1 = g.gic_vpe_comparelo v) := by
  obtain ⟨a1, a2, a3, a4⟩ := deadline_arith (g.gic_vpe_comparelo v) g.gic_sh_counterlo now
    hnow hcmp
  have ew : (gic_vpe_timer_update g now v).2 =
      sub32 (sub32 (g.gic_vpe_comparelo v) g.gic_sh_counterlo) (u32 (now / 10)) := by
    simp only [gic_vpe_timer_update, TIMER_PERIOD]
  have et : (gic_vpe_timer_update g now v).1.gic_timer v =
      some (u64 (now + sub32 (sub32 (g.gic_vpe_comparelo v) g.gic_sh_counterlo)
        (u32 (now / 10)) * 10)) := by
    simp [gic_vpe_timer_update, timer_mod, TIMER_PERIOD]
  have ec : (gic_vpe_timer_update g now v).1.gic_sh_counterlo = g.gic_sh_counterlo := by
    simp only [gic_vpe_timer_update, timer_mod]
  have eg : (gic_vpe_timer_update g now v).1.gic_gl_config = g.gic_gl_config := by
    simp only [gic_vpe_timer_update, timer_mod]
  rw [ew]
  refine ⟨a1, ?_, by omega, by omega, a4, ?_⟩
  · rw [et, a2]
  · intro hrun
    have h := (gic_get_sh_count_running (gic_vpe_timer_update g now v).1
      (now + 10 * sub32 (sub32 (g.gic_vpe_comparelo v) g.gic_sh_counterlo) (u32 (now / 10)))
      (by rw [eg]; exact hrun)).1
    rw [h, ec]
    exact a4

/-- C27 at `ex_running`, VPE 1, host time 105 ns: compare 0x1288, counter base
0xFFFFFF00, so the wait is 5000 - 10 = 4990 ticks and the deadline is 50005 ns, at which
the counter reads 0x1288. -/
theorem timer_deadline_witness :
    (gic_vpe_timer_update ex_running 105 1).1.gic_timer 1 =
        some (105 + 10 * (gic_vpe_timer_update ex_running 105 1).2) ∧
      (gic_get_sh_count (gic_vpe_timer_update ex_running 105 1).1
        (105 + 10 * (gic_vpe_timer_update ex_running 105 1).2)).1 = 0x1288 :=
  ⟨(timer_deadline ex_running 105 1 (by decide) (by decide)).2.1,
   (timer_deadline ex_running 105 1 (by decide) (by decide)).2.2.2.2.2 (by decide)⟩

/-! ## Timers while the counter is stopped -/

/-- C28 fails on the code: `gic_store_vpe_compare` calls `gic_vpe_timer_update` without
testing bit 28 of the config word.  The write of bit 28 to GIC_SH_CONFIG of the running
controller `ex_running` stops the counter and leaves no timer armed, and a write to
GIC_SH_COUNTERLO of the stopped controller `ex_stopped` arms none; but the write of
2000 to COMPARE_LO of VPE 0 of `ex_stopped` at host time 0 leaves the timer of VPE 0
armed at 10000 ns while bit 28 is still set. -/
theorem timer_armed_while_stopped :
    (∃ g1, gic_write mips_gic_h ex_running 700 0 mips_gic_h.GIC_SH_CONFIG_OFS 0x10000000 4 =
        some (g1, []) ∧
      g1.gic_gl_config.testBit 28 = true ∧ g1.gic_timer 0 = none ∧ g1.gic_timer 1 = none) ∧
    (ex_stopped.gic_gl_config.testBit 28 = true ∧ ex_stopped.gic_timer 0 = none ∧
      ex_stopped.gic_timer 1 = none) ∧
    (∃ g1, gic_write mips_gic_h ex_stopped 0 0 mips_gic_h.GIC_SH_COUNTERLO_OFS 77 4 =
        some (g1, []) ∧
      g1.gic_gl_config.testBit 28 = true ∧ g1.gic_timer 0 = none ∧ g1.gic_timer 1 = none) ∧
    (∃ g1, gic_write mips_gic_h ex_stopped 0 0
        (mips_gic_h.GIC_VPELOCAL_BASE_ADDR + mips_gic_h.GIC_VPE_COMPARE_LO_OFS) 2000 4 =
        some (g1, []) ∧
      g1.gic_gl_config.testBit 28 = true ∧ g1.gic_timer 0 = some 10000) :=
  ⟨⟨_, rfl, by decide, by decide, by decide⟩, ⟨by decide, by decide, by decide⟩,
   ⟨_, rfl, by decide, by decide, by decide⟩, ⟨_, rfl, by decide, by decide⟩⟩

/-! ## The R4K count register -/

theorem count_round_trip (c m : Nat) : u32 (sub32 (u32 c) (u32 m) + u32 m) = c % 2 ^ 32 := by
  simp only [u32, sub32]
  omega

theorem cpu_mips_timer_update_fields (H : CpuHeader) (env : CPUMIPSState) (now : Nat) :
    (cpu_mips_timer_update H env now).CP0_Count = env.CP0_Count ∧
      (cpu_mips_timer_update H env now).CP0_Cause = env.CP0_Cause ∧
      (cpu_mips_timer_update H env now).CP0_Compare = env.CP0_Compare :=
  ⟨rfl, rfl, rfl⟩

theorem cpu_mips_timer_expire_count (H : CpuHeader) (env : CPUMIPSState) (now : Nat) :
    (cpu_mips_timer_expire H env now).1.CP0_Count = env.CP0_Count := by
  unfold cpu_mips_timer_expire
  simp only
  split <;> rfl

/-- The value `cpu_mips_get_count` returns while Cause.DC is clear. -/
theorem cpu_mips_get_count_running (H : CpuHeader) (env : CPUMIPSState) (now : Nat)
    (hdc : env.CP0_Cause &&& (1 <<< H.CP0Ca_DC) = 0) :
    (cpu_mips_get_count H env now).1 =
      u32 (env.CP0_Count + u32 (muldiv64 now TIMER_FREQ H.get_ticks_per_sec)) := by
  unfold cpu_mips_get_count
  rw [if_neg (by rw [hdc]; exact fun h => h rfl)]
  simp only
  split
  · rw [cpu_mips_timer_expire_count]
  · rfl

/-- C29: with Cause.DC clear, `cpu_mips_store_count(env, c)` at host time `t` followed by
`cpu_mips_get_count(env)` at the same time returns `c` in 32 bits, whatever the
frequency constants; when `CP0_Compare` equals `c`, the timer that the store arms at
`t` is expired inline by the read, which raises the timer interrupt line, and the
read still returns `c`.  With Cause.DC set, `cpu_mips_get_count` returns `CP0_Count`
at every host time and changes nothing, and after `cpu_mips_store_count(env, c)` it
returns `c`. -/
theorem count_store_get (H : CpuHeader) (env : CPUMIPSState) (t c : Nat) :
    (env.CP0_Cause &&& (1 <<< H.CP0Ca_DC) = 0 →
      (cpu_mips_get_count H (cpu_mips_store_count H env t c) t).1 = c % 2 ^ 32 ∧
      (t < 2 ^ 64 → u32 env.CP0_Compare = u32 c →
        (cpu_mips_store_count H env t c).timer = some t ∧
        ∃ line, (cpu_mips_get_count H (cpu_mips_store_count H env t c) t).2.2 =
          [(line, 1)])) ∧
    (env.CP0_Cause &&& (1 <<< H.CP0Ca_DC) ≠ 0 →
      ∀ t2, cpu_mips_get_count H env t2 = (u32 env.CP0_Count, env, []) ∧
        (cpu_mips_get_count H (cpu_mips_store_count H env t c) t2).1 = c % 2 ^ 32) := by
  constructor
  · intro hdc
    have hne : ¬ (env.CP0_Cause &&& (1 <<< H.CP0Ca_DC) ≠ 0) := fun h => h hdc
    have es : cpu_mips_store_count H env t c =
        cpu_mips_timer_update H
          { env with
            CP0_Count := sub32 (u32 c) (u32 (muldiv64 t TIMER_FREQ H.get_ticks_per_sec)) }
          t := by
      unfold cpu_mips_store_count
      rw [if_neg hne]
    constructor
    · rw [cpu_mips_get_count_running H _ t (by rw [es]; exact hdc), es]
      exact count_round_trip c _
    · intro ht hcmp
      have hw : sub32 (sub32 env.CP0_Compare
          (sub32 (u32 c) (u32 (muldiv64 t TIMER_FREQ H.get_ticks_per_sec))))
          (u32 (muldiv64 t TIMER_FREQ H.get_ticks_per_sec)) = 0 := by
        simp only [sub32, u32] at hcmp ⊢
        omega
      have ht : (cpu_mips_store_count H env t c).timer = some t := by
        have hm : ∀ b d : Nat, muldiv64 0 b d = 0 := by
          intro b d
          simp [muldiv64, u64]
        rw [es]
        simp only [cpu_mips_timer_update]
        rw [hw, hm]
        simp only [u64, Nat.add_zero, Option.some.injEq]
        exact Nat.mod_eq_of_lt ht
      refine ⟨ht, ?_⟩
      unfold cpu_mips_get_count
      rw [if_neg (by rw [es]; exact hne), ht]
      simp [timer_pending, timer_expired, cpu_mips_timer_expire]
  · intro hdc t2
    have e1 : cpu_mips_get_count H env t2 = (u32 env.CP0_Count, env, []) := by
      unfold cpu_mips_get_count
      rw [if_pos hdc]
    refine ⟨e1, ?_⟩
    have es : cpu_mips_store_count H env t c = { env with CP0_Count := u32 c } := by
      unfold cpu_mips_store_count
      rw [if_pos hdc]
    rw [es]
    unfold cpu_mips_get_count
    rw [if_pos hdc]
    simp [u32]

/-- C29 with the constants of the MIPS32 architecture: on the running CPU `ex_cpu_running`,
whose Compare is 5000, storing 5000 at host time 12345 ns arms the timer at 12345 ns
and the read at that time returns 5000; on the CPU `ex_cpu_stopped` the read returns
the stored count at host time 999 ns. -/
theorem count_store_get_witness :
    (cpu_mips_get_count mips_cpu_h
      (cpu_mips_store_count mips_cpu_h ex_cpu_running 12345 5000) 12345).1 = 5000 % 2 ^ 32 ∧
    (cpu_mips_store_count mips_cpu_h ex_cpu_running 12345 5000).timer = some 12345 ∧
    cpu_mips_get_count mips_cpu_h ex_cpu_stopped 999 =
      (u32 ex_cpu_stopped.CP0_Count, ex_cpu_stopped, []) :=
  ⟨((count_store_get mips_cpu_h ex_cpu_running 12345 5000).1 (by decide)).1,
   (((count_store_get mips_cpu_h ex_cpu_running 12345 5000).1 (by decide)).2 (by decide)
      (by decide)).1,
   ((count_store_get mips_cpu_h ex_cpu_stopped 0 0).2 (by decide) 999).1⟩
end MipsGic
